import Mathlib

/-!
# The recursive-descent parser of `ari` (`src/parser.c`)

A shallow embedding of the parser of `src/parser.c` and of the tree it builds,
followed by theorems about it.

* C structs are Lean structures with the same field names; a C pointer is a
  `Ptr`: the null pointer, a pointer to a value, or an indeterminate pointer
  (`wild`, what an uninitialised pointer variable or field holds).
* The parsing functions are state-passing functions over the `parser` struct.
  They are mutually recursive and some of their loops need not make progress,
  so each takes a recursion budget and answers `Res.timeout` when it is used up.
* Behaviour the C standard leaves undefined (reading `tokens[-1]`, reading a
  field through a null pointer, writing through a pointer that is not valid)
  is the result `Res.fault`.
-/

namespace Ari

/-! ## Tokens (`src/parser/token.h`) -/

/-- Token kinds, in the order of `enum tokentype_t`. -/
inductive tokentype where
  | TOKEN_LEFT_PAREN | TOKEN_RIGHT_PAREN | TOKEN_LEFT_BRACE | TOKEN_RIGHT_BRACE
  | TOKEN_LEFT_BRACKET | TOKEN_RIGHT_BRACKET | TOKEN_COMMA | TOKEN_DOT
  | TOKEN_MINUS | TOKEN_PLUS | TOKEN_SEMICOLON
  | TOKEN_SLASH | TOKEN_STAR
  | TOKEN_BANG | TOKEN_BANG_EQUAL
  | TOKEN_EQUAL | TOKEN_EQUAL_EQUAL
  | TOKEN_GREATER | TOKEN_GREATER_EQUAL
  | TOKEN_LESS | TOKEN_LESS_EQUAL
  | TOKEN_IDENTIFIER | TOKEN_STRING | TOKEN_NUMBER
  | TOKEN_AND | TOKEN_CLASS | TOKEN_ELSE | TOKEN_FALSE | TOKEN_FUN | TOKEN_FOR
  | TOKEN_IF | TOKEN_NULL | TOKEN_OR | TOKEN_RETURN | TOKEN_SOURCE | TOKEN_SUPER
  | TOKEN_THIS | TOKEN_TRUE | TOKEN_VAR | TOKEN_WHILE
  | TOKEN_ERROR
  | TOKEN_EOF
deriving DecidableEq, Repr

/-- The struct `token`. The pair `start`, `length` is a view into the source
text; `lexeme` is the text it views (the `length` characters from `start`). The
source is a NUL-terminated string, so the viewed text holds no NUL. -/
structure token where
  type : tokentype
  lexeme : String
  line : Int
deriving DecidableEq, Repr

/-! ## Pointers and tree nodes -/

/-- A C pointer to an `α`: null, valid, or indeterminate. -/
inductive Ptr (α : Type) where
  | null : Ptr α
  | ref (a : α) : Ptr α
  | wild : Ptr α
deriving Repr

/-- The expression tags that `parser.c` names (`expr.h` declares the enum). -/
inductive exprtype where
  | EXPR_BINARY | EXPR_UNARY | EXPR_VARIABLE
  | EXPR_LITERAL_BOOL | EXPR_LITERAL_NULL | EXPR_LITERAL_NUMBER | EXPR_LITERAL_STRING
  | EXPR_GROUPING | EXPR_ASSIGN
deriving DecidableEq, Repr

/-- The statement tags that `parser.c` names (`stmt.h` declares the enum). -/
inductive stmttype where
  | STMT_BLOCK | STMT_EXPR | STMT_IF | STMT_WHILE | STMT_FOR | STMT_VAR
deriving DecidableEq, Repr

/-- The struct `expr`, with the fields `init_expr` assigns. `type` is `none`
for the integer 0 that `init_expr` stores (which enumerator has the value 0 is
not visible in `parser.c`) and `some t` once a constructor has stored `t`. -/
structure expr where
  type : Option exprtype
  name : Ptr token
  operator : Ptr token
  literal : Ptr String
  expression : Ptr expr
  value : Ptr expr
  left : Ptr expr
  right : Ptr expr

/-- The struct `stmt`, with the fields `init_stmt` assigns. `stmts` points to
an array of statement pointers, given by its slots. -/
structure stmt where
  type : Option stmttype
  name : Ptr token
  initializer : Ptr stmt
  expression : Ptr expr
  condition : Ptr expr
  value : Ptr expr
  loopbody : Ptr stmt
  thenbranch : Ptr stmt
  elsebranch : Ptr stmt
  count : Int
  capacity : Int
  stmts : Ptr (List (Ptr stmt))

/-! ## Diagnostics and parser state -/

/-- What `error_at` prints after `[line N] Error`. -/
inductive errplace where
  | at_end : errplace
  | text (lexeme : String) : errplace
  | at_lexeme (lexeme : String) : errplace
deriving DecidableEq, Repr

/-- One line written to `stderr` by `error_at`. -/
structure diagnostic where
  line : Int
  place : errplace
deriving DecidableEq, Repr

/-- The struct `parser`. `tokens` is `scan.tokens`; `statements` is given by
the slots written so far (a slot of the array past them holds whatever the
storage held). The last three fields are bookkeeping that the C
code does not hold: the lines written to `stderr`, the number of calls of
`error_at`, and the number of `expr` and `stmt` nodes allocated. -/
structure parser where
  tokens : List token
  statements : Ptr (List (Ptr stmt))
  num_statements : Int
  capacity : Int
  current : Nat
  num_tokens : Int
  panicmode : Bool
  haderror : Bool
  stderr : List diagnostic
  errcalls : Nat
  allocs : Nat

/-- What `parser.c` takes from `memory.h`, which is not part of the sources at
hand: the macro `GROW_CAPACITY`, and the contents of the storage that
`ALLOCATE(stmt, 1)` returns (`ALLOCATE` does not clear it: `init_stmt` assigns
every field after calling it), by the number of nodes allocated before. -/
structure Env where
  GROW_CAPACITY : Int → Int
  raw_stmt : Nat → stmt

/-- Undefined behaviour. -/
inductive Fault where
  | token_index : Fault
  | null_deref : Fault
  | bad_pointer : Fault
  | store_index : Fault
deriving DecidableEq, Repr

/-- The outcome of running a parsing function: a value and the state after,
undefined behaviour, or an exhausted recursion budget. -/
inductive Res (α : Type) where
  | ok (a : α) (s : parser) : Res α
  | fault (f : Fault) : Res α
  | timeout : Res α

/-- A function of `parser.c` taking `parser *analyzer`. -/
@[reducible] def M (α : Type) : Type := parser → Res α

/-- Sequencing: undefined behaviour and exhaustion end the run. -/
def M.bind {α β : Type} (m : M α) (k : α → M β) : M β := fun s =>
  match m s with
  | .ok a s1 => k a s1
  | .fault f => .fault f
  | .timeout => .timeout

instance : Monad M where
  pure a := fun s => .ok a s
  bind := M.bind

/-- The C operator `||` on two calls: the second runs only if the first
returned false. -/
def orelse (a b : M Bool) : M Bool := do
  if (← a) then pure true else b

/-! ## Token cursor (`peek` .. `match`) -/

/-- Function `peek`: `tokens[current]`. -/
def peek : M token := fun s =>
  match s.tokens[s.current]? with
  | some t => .ok t s
  | none => .fault .token_index

/-- Function `is_at_end`. -/
def is_at_end : M Bool := do
  let t ← peek
  pure (t.type == .TOKEN_EOF)

/-- Function `check`. -/
def check (type : tokentype) : M Bool := do
  if (← is_at_end) then pure false
  else do
    let t ← peek
    pure (t.type == type)

/-- Function `previous`: `tokens[current - 1]`; the index is -1 when `current` is 0. -/
def previous : M token := fun s =>
  if s.current = 0 then .fault .token_index
  else
    match s.tokens[s.current - 1]? with
    | some t => .ok t s
    | none => .fault .token_index

/-- Function `advance`. -/
def advance : M token := do
  let _ ← (do
    if !(← is_at_end) then (fun s => .ok () { s with current := s.current + 1 })
    else pure ())
  previous

/-- Function `error_at`: nothing while panicking; otherwise one line on `stderr`, and
the latch and the error flag are set. The message is never printed. -/
def error_at (tok : token) (_msg : String) : M Unit := fun s =>
  let s1 := { s with errcalls := s.errcalls + 1 }
  if s1.panicmode then .ok () s1
  else
    let place :=
      if tok.type = .TOKEN_EOF then errplace.at_end
      else if tok.type = .TOKEN_ERROR then errplace.text tok.lexeme
      else errplace.at_lexeme tok.lexeme
    .ok () { s1 with panicmode := true,
                     stderr := s1.stderr ++ [⟨tok.line, place⟩],
                     haderror := true }

/-- Function `error`: reports at `tokens[current - 1]`. -/
def error (msg : String) : M Unit := do
  let tok ← previous
  error_at tok msg

/-- Function `error_at_current`: reports at `tokens[current]`. -/
def error_at_current (msg : String) : M Unit := do
  let tok ← peek
  error_at tok msg

/-- Function `consume`. -/
def consume (type : tokentype) (msg : String) : M (Ptr token) := do
  if (← check type) then do
    let t ← advance
    pure (.ref t)
  else do
    error_at_current msg
    pure .null

/-- Function `match`. -/
def match_ (type : tokentype) : M Bool := do
  if (← check type) then do
    let _ ← advance
    pure true
  else pure false

/-- The loop of `synchronize`. Every round that does not return moves the
cursor one token on, so the rounds are bounded by the number of tokens from
the cursor to the end of the array; past that the read is out of the array. -/
def synchronize_loop : Nat → M Unit
  | 0, _ => .fault .token_index
  | n + 1, s => ((do
    let t ← peek
    if t.type = .TOKEN_EOF then pure ()
    else if t.type = .TOKEN_SEMICOLON then pure ()
    else if t.type = .TOKEN_CLASS ∨ t.type = .TOKEN_FUN ∨ t.type = .TOKEN_VAR
        ∨ t.type = .TOKEN_IF ∨ t.type = .TOKEN_WHILE ∨ t.type = .TOKEN_RETURN then pure ()
    else do
      let _ ← advance
      synchronize_loop n) : M Unit) s

/-- Function `synchronize`. -/
def synchronize : M Unit := fun s =>
  synchronize_loop (s.tokens.length - s.current) { s with panicmode := false }

/-- The test `analyzer->panicmode`. -/
def panicking : M Bool := fun s => .ok s.panicmode s

/-! ## Node constructors -/

/-- Function `take_string`: a buffer of `length + 1` characters that `strncpy` fills with
the `length` characters of the token's text and that is then terminated. -/
def take_string (tok : token) : String := tok.lexeme

/-- Function `init_expr`: one node allocated, every field cleared. -/
def init_expr : M expr := fun s =>
  .ok ⟨none, .null, .null, .null, .null, .null, .null, .null⟩
    { s with allocs := s.allocs + 1 }

/-- Function `init_stmt`: one node allocated, every field cleared. -/
def init_stmt : M stmt := fun s =>
  .ok ⟨none, .null, .null, .null, .null, .null, .null, .null, .null, 0, 0, .null⟩
    { s with allocs := s.allocs + 1 }

/-- The call `ALLOCATE(stmt, 1)` without initialisation: one node allocated, holding
whatever the storage held. -/
def alloc_stmt (E : Env) : M stmt := fun s =>
  .ok (E.raw_stmt s.allocs) { s with allocs := s.allocs + 1 }

/-- Function `get_variable_statement`. -/
def get_variable_statement (name : Ptr token) (initializer : Ptr stmt) : M (Ptr stmt) := do
  let new_stmt ← init_stmt
  pure (.ref { new_stmt with type := some .STMT_VAR, name := name, initializer := initializer })

/-- Function `get_expression_statement`. -/
def get_expression_statement (new_expr : Ptr expr) : M (Ptr stmt) := do
  let new_stmt ← init_stmt
  pure (.ref { new_stmt with type := some .STMT_EXPR, expression := new_expr })

/-- Function `get_for_statement`. -/
def get_for_statement (initializer condition iterator loopbody : Ptr stmt) : M (Ptr stmt) := do
  let new_stmt ← init_stmt
  pure (.ref { new_stmt with stmts := .ref [initializer, condition, iterator],
                             capacity := 3, count := 3,
                             type := some .STMT_FOR, loopbody := loopbody })

/-- Function `get_while_statement`. -/
def get_while_statement (condition : Ptr expr) (loopbody : Ptr stmt) : M (Ptr stmt) := do
  let new_stmt ← init_stmt
  pure (.ref { new_stmt with type := some .STMT_WHILE, condition := condition,
                             loopbody := loopbody })

/-- Function `get_if_statement`. -/
def get_if_statement (condition : Ptr expr) (thenbranch elsebranch : Ptr stmt) :
    M (Ptr stmt) := do
  let new_stmt ← init_stmt
  pure (.ref { new_stmt with type := some .STMT_IF, condition := condition,
                             thenbranch := thenbranch, elsebranch := elsebranch })

/-- Function `get_binary_expr`. -/
def get_binary_expr (operator : token) (left right : Ptr expr) : M (Ptr expr) := do
  let new_expr ← init_expr
  pure (.ref { new_expr with type := some .EXPR_BINARY, left := left, right := right,
                             operator := .ref operator })

/-- Function `get_unary_expr`. -/
def get_unary_expr (opcode : token) (right : Ptr expr) : M (Ptr expr) := do
  let new_expr ← init_expr
  pure (.ref { new_expr with type := some .EXPR_UNARY, operator := .ref opcode,
                             right := right })

/-- Function `get_variable_expr`. -/
def get_variable_expr (name : token) : M (Ptr expr) := do
  let new_expr ← init_expr
  pure (.ref { new_expr with type := some .EXPR_VARIABLE, name := .ref name })

/-- Function `get_literal_expr`. -/
def get_literal_expr (value : String) (type : exprtype) : M (Ptr expr) := do
  let new_expr ← init_expr
  pure (.ref { new_expr with type := some type, literal := .ref value })

/-- Function `get_grouping_expr`. -/
def get_grouping_expr (group_expr : Ptr expr) : M (Ptr expr) := do
  let new_expr ← init_expr
  pure (.ref { new_expr with type := some .EXPR_GROUPING, expression := group_expr })

/-- Function `get_assign_expr`. -/
def get_assign_expr (name : Ptr token) (value : Ptr expr) : M (Ptr expr) := do
  let new_expr ← init_expr
  pure (.ref { new_expr with name := name, value := value, type := some .EXPR_ASSIGN })

/-! ## Block storage -/

/-- The call `realloc(p, sizeof(stmt) * capacity)` on an array of statement pointers:
the old slots are kept, new slots are indeterminate. The storage has room for
at least `capacity` pointers; the first `capacity` slots are kept here. A
request that is not positive yields no storage. -/
def realloc_slots (p : Ptr (List (Ptr stmt))) (capacity : Int) : M (Ptr (List (Ptr stmt))) :=
  fun s =>
    match p with
    | .wild => .fault .bad_pointer
    | .null =>
      if capacity ≤ 0 then .ok .null s
      else .ok (.ref (List.replicate capacity.toNat .wild)) s
    | .ref l =>
      if capacity ≤ 0 then .ok .null s
      else .ok (.ref (l.take capacity.toNat
              ++ List.replicate (capacity.toNat - l.length) .wild)) s

/-- Function `check_stmt_capacity`. -/
def check_stmt_capacity (block_stmt : stmt) : M stmt := do
  if block_stmt.count = block_stmt.capacity - 1 then do
    let p ← realloc_slots block_stmt.stmts (block_stmt.capacity * 2)
    pure { block_stmt with capacity := block_stmt.capacity * 2, stmts := p }
  else pure block_stmt

/-- The store `new_stmt->stmts[i] = d` of `block`. -/
def store_slot (new_stmt : stmt) (i : Nat) (d : Ptr stmt) : M stmt := fun s =>
  match new_stmt.stmts with
  | .null => .fault .null_deref
  | .wild => .fault .bad_pointer
  | .ref l =>
    if i < l.length then .ok { new_stmt with stmts := .ref (l.set i d) } s
    else .fault .store_index

/-! ## The grammar -/

mutual

/-- Function `primary`. -/
def primary (E : Env) : Nat → M (Ptr expr)
  | 0, _ => .timeout
  | n + 1, s => ((do
    if (← match_ .TOKEN_FALSE) then get_literal_expr "0" .EXPR_LITERAL_BOOL
    else do
    if (← match_ .TOKEN_TRUE) then get_literal_expr "1" .EXPR_LITERAL_BOOL
    else do
    if (← match_ .TOKEN_NULL) then get_literal_expr "NULL" .EXPR_LITERAL_NULL
    else do
    if (← match_ .TOKEN_NUMBER) then do
      let tok ← previous
      get_literal_expr (take_string tok) .EXPR_LITERAL_NUMBER
    else do
    if (← match_ .TOKEN_STRING) then do
      let tok ← previous
      get_literal_expr (take_string tok) .EXPR_LITERAL_STRING
    else do
    if (← match_ .TOKEN_IDENTIFIER) then do
      let tok ← previous
      get_variable_expr tok
    else do
    if (← match_ .TOKEN_LEFT_PAREN) then do
      let new_expr ← expression E n
      let _ ← consume .TOKEN_RIGHT_PAREN "Expect ')' after expression."
      get_grouping_expr new_expr
    else do
    error "Expect expression."
    pure .null) : M (Ptr expr)) s

/-- Function `unary`. -/
def unary (E : Env) : Nat → M (Ptr expr)
  | 0, _ => .timeout
  | n + 1, s => ((do
    if (← orelse (match_ .TOKEN_BANG) (match_ .TOKEN_MINUS)) then do
      let opcode ← previous
      let right ← unary E n
      get_unary_expr opcode right
    else primary E n) : M (Ptr expr)) s

/-- The `while` loop of `multiplication`. -/
def multiplication_loop (E : Env) : Nat → Ptr expr → M (Ptr expr)
  | 0, _, _ => .timeout
  | n + 1, new_expr, s => ((do
    if (← orelse (match_ .TOKEN_SLASH) (match_ .TOKEN_STAR)) then do
      let opcode ← previous
      let right ← unary E n
      let e ← get_binary_expr opcode new_expr right
      multiplication_loop E n e
    else pure new_expr) : M (Ptr expr)) s

/-- Function `multiplication`. -/
def multiplication (E : Env) : Nat → M (Ptr expr)
  | 0, _ => .timeout
  | n + 1, s => ((do
    let new_expr ← unary E n
    multiplication_loop E n new_expr) : M (Ptr expr)) s

/-- The `while` loop of `addition`. -/
def addition_loop (E : Env) : Nat → Ptr expr → M (Ptr expr)
  | 0, _, _ => .timeout
  | n + 1, new_expr, s => ((do
    if (← orelse (match_ .TOKEN_MINUS) (match_ .TOKEN_PLUS)) then do
      let opcode ← previous
      let right ← multiplication E n
      let e ← get_binary_expr opcode new_expr right
      addition_loop E n e
    else pure new_expr) : M (Ptr expr)) s

/-- Function `addition`. -/
def addition (E : Env) : Nat → M (Ptr expr)
  | 0, _ => .timeout
  | n + 1, s => ((do
    let new_expr ← multiplication E n
    addition_loop E n new_expr) : M (Ptr expr)) s

/-- The `while` loop of `comparison`. -/
def comparison_loop (E : Env) : Nat → Ptr expr → M (Ptr expr)
  | 0, _, _ => .timeout
  | n + 1, new_expr, s => ((do
    if (← orelse (match_ .TOKEN_GREATER) (orelse (match_ .TOKEN_GREATER_EQUAL)
          (orelse (match_ .TOKEN_LESS) (match_ .TOKEN_LESS_EQUAL)))) then do
      let opcode ← previous
      let right ← addition E n
      let e ← get_binary_expr opcode new_expr right
      comparison_loop E n e
    else pure new_expr) : M (Ptr expr)) s

/-- Function `comparison`. -/
def comparison (E : Env) : Nat → M (Ptr expr)
  | 0, _ => .timeout
  | n + 1, s => ((do
    let new_expr ← addition E n
    comparison_loop E n new_expr) : M (Ptr expr)) s

/-- The `while` loop of `equality`. -/
def equality_loop (E : Env) : Nat → Ptr expr → M (Ptr expr)
  | 0, _, _ => .timeout
  | n + 1, new_expr, s => ((do
    if (← orelse (match_ .TOKEN_BANG_EQUAL) (match_ .TOKEN_EQUAL_EQUAL)) then do
      let opcode ← previous
      let right ← comparison E n
      let e ← get_binary_expr opcode new_expr right
      equality_loop E n e
    else pure new_expr) : M (Ptr expr)) s

/-- Function `equality`. -/
def equality (E : Env) : Nat → M (Ptr expr)
  | 0, _ => .timeout
  | n + 1, s => ((do
    let new_expr ← comparison E n
    equality_loop E n new_expr) : M (Ptr expr)) s

/-- Function `assignment`. The test `new_expr->type == EXPR_VARIABLE` reads through
`new_expr`, which is null when `primary` failed. -/
def assignment (E : Env) : Nat → M (Ptr expr)
  | 0, _ => .timeout
  | n + 1, s => ((do
    let new_expr ← equality E n
    if (← match_ .TOKEN_EQUAL) then
      match new_expr with
      | .null => fun _ => .fault .null_deref
      | .wild => fun _ => .fault .bad_pointer
      | .ref e =>
        if e.type = some .EXPR_VARIABLE then do
          let value ← assignment E n
          get_assign_expr e.name value
        else do
          error "Invalid assignment target."
          pure new_expr
    else pure new_expr) : M (Ptr expr)) s

/-- Function `expression`. -/
def expression (E : Env) : Nat → M (Ptr expr)
  | 0, _ => .timeout
  | n + 1, s => assignment E n s

/-- Function `var_declaration`. The placeholder that `initializer` first points to is
allocated and not initialised. -/
def var_declaration (E : Env) : Nat → M (Ptr stmt)
  | 0, _ => .timeout
  | n + 1, s => ((do
    let name ← consume .TOKEN_IDENTIFIER "Expect variable name."
    let placeholder ← alloc_stmt E
    let initializer ← (do
      if (← match_ .TOKEN_EQUAL) then do
        let e ← expression E n
        get_expression_statement e
      else pure (.ref placeholder))
    let _ ← consume .TOKEN_SEMICOLON "Exepct ';' after variable declaration."
    get_variable_statement name initializer) : M (Ptr stmt)) s

/-- Function `declaration`. -/
def declaration (E : Env) : Nat → M (Ptr stmt)
  | 0, _ => .timeout
  | n + 1, s => ((do
    if (← match_ .TOKEN_VAR) then var_declaration E n
    else do
      let _ ← (do
        if (← panicking) then synchronize
        else pure ())
      statement E n) : M (Ptr stmt)) s

/-- The `while` loop of `block`; `i` is the local index. The condition
is `!check(analyzer, TOKEN_RIGHT_BRACE) && !is_at_end(analyzer)`. -/
def block_loop (E : Env) : Nat → stmt → Nat → M stmt
  | 0, _, _, _ => .timeout
  | n + 1, new_stmt, i, s => ((do
    let closing ← check .TOKEN_RIGHT_BRACE
    let go ← (if closing then pure false else do
      let e ← is_at_end
      pure (!e))
    if go then do
      let grown ← check_stmt_capacity new_stmt
      let d ← declaration E n
      let stored ← store_slot grown i d
      block_loop E n { stored with count := stored.count + 1 } (i + 1)
    else pure new_stmt) : M stmt) s

/-- Function `block`. The node is not initialised: only `type` is assigned. -/
def block (E : Env) : Nat → M (Ptr stmt)
  | 0, _ => .timeout
  | n + 1, s => ((do
    let raw ← alloc_stmt E
    let new_stmt ← block_loop E n { raw with type := some .STMT_BLOCK } 0
    let _ ← consume .TOKEN_RIGHT_BRACE "Expect '\x7d' after block."
    pure (.ref new_stmt)) : M (Ptr stmt)) s

/-- Function `if_statement`. The local `else_branch` has no initialiser: it is
indeterminate unless an `else` follows. -/
def if_statement (E : Env) : Nat → M (Ptr stmt)
  | 0, _ => .timeout
  | n + 1, s => ((do
    let _ ← consume .TOKEN_LEFT_PAREN "Expect '(' after 'if'."
    let condition ← expression E n
    let _ ← consume .TOKEN_RIGHT_PAREN "Expect ')' after if condition."
    let then_branch ← statement E n
    let else_branch ← (do
      if (← match_ .TOKEN_ELSE) then statement E n
      else pure .wild)
    get_if_statement condition then_branch else_branch) : M (Ptr stmt)) s

/-- Function `for_statement`. -/
def for_statement (E : Env) : Nat → M (Ptr stmt)
  | 0, _ => .timeout
  | n + 1, s => ((do
    let _ ← consume .TOKEN_LEFT_PAREN "Expect '(' after 'for'."
    let initializer ← statement E n
    let condition ← statement E n
    let iterator ← statement E n
    let _ ← consume .TOKEN_RIGHT_PAREN "Expect ')' after for condition."
    let loop_body ← statement E n
    get_for_statement initializer condition iterator loop_body) : M (Ptr stmt)) s

/-- Function `while_statement`. -/
def while_statement (E : Env) : Nat → M (Ptr stmt)
  | 0, _ => .timeout
  | n + 1, s => ((do
    let _ ← consume .TOKEN_LEFT_PAREN "Expect '(' after 'while'."
    let condition ← expression E n
    let _ ← consume .TOKEN_RIGHT_PAREN "Expect ')' after while condition."
    let loop_body ← statement E n
    get_while_statement condition loop_body) : M (Ptr stmt)) s

/-- Function `expression_statement`. -/
def expression_statement (E : Env) : Nat → M (Ptr stmt)
  | 0, _ => .timeout
  | n + 1, s => ((do
    let new_expr ← expression E n
    let _ ← consume .TOKEN_SEMICOLON "Expect ';' after expression."
    get_expression_statement new_expr) : M (Ptr stmt)) s

/-- Function `statement`. -/
def statement (E : Env) : Nat → M (Ptr stmt)
  | 0, _ => .timeout
  | n + 1, s => ((do
    if (← match_ .TOKEN_FOR) then for_statement E n
    else do
    if (← match_ .TOKEN_WHILE) then while_statement E n
    else do
    if (← match_ .TOKEN_IF) then if_statement E n
    else do
    if (← match_ .TOKEN_LEFT_BRACE) then block E n
    else expression_statement E n) : M (Ptr stmt)) s

end

/-! ## The entry points -/

/-- Function `init_parser`. -/
def parser_init (s : parser) : parser :=
  { s with num_statements := 0, capacity := 0, statements := .null, current := 0,
           num_tokens := 0, panicmode := false, haderror := false }

/-- The call `GROW_ARRAY(statements, stmt*, old, new)`: the slots written so far stay;
a null array becomes an array with no slot written. -/
def grow_array (p : Ptr (List (Ptr stmt))) : Ptr (List (Ptr stmt)) :=
  match p with
  | .null => .ref []
  | .ref l => .ref l
  | .wild => .wild

/-- The store `analyzer->statements[i] = d` of `parse`. The array is taken to
have room for slot `i`: how far `GROW_CAPACITY` grows it is not known here. -/
def store_statement (i : Nat) (d : Ptr stmt) : M Unit := fun s =>
  match s.statements with
  | .null => .fault .null_deref
  | .wild => .fault .bad_pointer
  | .ref l =>
    if i < l.length then .ok () { s with statements := .ref (l.set i d) }
    else .ok () { s with statements := .ref (l ++ List.replicate (i - l.length) .wild ++ [d]) }

/-- The growth step of `parse`: the `if` on `capacity` and its two assignments. -/
def grow_statements (E : Env) : M Unit := fun s =>
  if s.capacity < s.num_statements + 1 then
    .ok () { s with capacity := E.GROW_CAPACITY s.capacity,
                    statements := grow_array s.statements }
  else .ok () s

/-- The `while` loop of `parse`; `i` is the local index, which the loop never
changes (unlike the index of `block`, it is not incremented). -/
def parse_loop (E : Env) : Nat → Nat → M Unit
  | 0, _, _ => .timeout
  | n + 1, i, s => ((do
    if !(← is_at_end) then do
      grow_statements E
      let d ← declaration E n
      store_statement i d
      (fun s => .ok () { s with num_statements := s.num_statements + 1 })
      let _ ← (do
        if (← panicking) then synchronize
        else pure ())
      parse_loop E n i
    else pure ()) : M Unit) s

/-- Function `parse`. The scanner is outside `parser.c`: `toks` is the token array
that `scan_tokens` leaves in `scan.tokens` for the source text. -/
def parse (E : Env) (fuel : Nat) (toks : List token) : M Bool := do
  (fun s => .ok () { s with tokens := toks })
  (fun s => .ok () { s with capacity := E.GROW_CAPACITY s.capacity,
                            statements := grow_array s.statements })
  parse_loop E fuel 0
  let _ ← is_at_end
  (fun s => .ok s.haderror s)


open tokentype

/-! ## The node shapes of the specification -/

/-- The node `Literal{kind, text}`: a node as `get_literal_expr` builds it. -/
def Literal (kind : exprtype) (text : String) : expr :=
  ⟨some kind, .null, .null, .ref text, .null, .null, .null, .null⟩

/-- The node `Variable{name}`: a node as `get_variable_expr` builds it. -/
def Variable (name : token) : expr :=
  ⟨some .EXPR_VARIABLE, .ref name, .null, .null, .null, .null, .null, .null⟩

/-- The node `Binary{operator, left, right}`: a node as `get_binary_expr` builds it. -/
def Binary (operator : token) (left right : Ptr expr) : expr :=
  ⟨some .EXPR_BINARY, .null, .ref operator, .null, .null, .null, left, right⟩

/-- The node `Unary{operator, right}`: a node as `get_unary_expr` builds it. -/
def Unary (operator : token) (right : Ptr expr) : expr :=
  ⟨some .EXPR_UNARY, .null, .ref operator, .null, .null, .null, .null, right⟩

/-- The node `Grouping{inner}`: a node as `get_grouping_expr` builds it. -/
def Grouping (inner : Ptr expr) : expr :=
  ⟨some .EXPR_GROUPING, .null, .null, .null, inner, .null, .null, .null⟩

/-- The node `Assign{name, value}`: a node as `get_assign_expr` builds it. -/
def Assign (name : Ptr token) (value : Ptr expr) : expr :=
  ⟨some .EXPR_ASSIGN, name, .null, .null, .null, value, .null, .null⟩

/-- The statement `Expr{expr}`: a node as `get_expression_statement` builds it. -/
def ExprStmt (e : Ptr expr) : stmt :=
  ⟨some .STMT_EXPR, .null, .null, e, .null, .null, .null, .null, .null, 0, 0, .null⟩

/-- The statement `Var{name, initializer}`: a node as `get_variable_statement`
builds it. -/
def VarStmt (name : Ptr token) (initializer : Ptr stmt) : stmt :=
  ⟨some .STMT_VAR, name, initializer, .null, .null, .null, .null, .null, .null, 0, 0, .null⟩

/-- The statement `For{init, condition, increment, body}`: a node as
`get_for_statement` builds it, the three clauses in its array. -/
def ForStmt (init condition increment body : Ptr stmt) : stmt :=
  ⟨some .STMT_FOR, .null, .null, .null, .null, .null, body, .null, .null, 3, 3,
    .ref [init, condition, increment]⟩

/-- The statement `While{condition, body}`: a node as `get_while_statement`
builds it. -/
def WhileStmt (condition : Ptr expr) (body : Ptr stmt) : stmt :=
  ⟨some .STMT_WHILE, .null, .null, .null, condition, .null, body, .null, .null, 0, 0, .null⟩

/-- The statement `If{condition, then_branch, else_branch}`: a node as
`get_if_statement` builds it. -/
def IfStmt (condition : Ptr expr) (then_branch else_branch : Ptr stmt) : stmt :=
  ⟨some .STMT_IF, .null, .null, .null, condition, .null, .null, then_branch, else_branch,
    0, 0, .null⟩

/-! ## Notions used by the theorems -/

/-- Sequencing on an outcome. -/
def Res.bind {α β : Type} (r : Res α) (k : α → M β) : Res β :=
  match r with
  | .ok a s => k a s
  | .fault f => .fault f
  | .timeout => .timeout

/-- The state after `error_at`. -/
def error_state (tok : token) (s : parser) : parser :=
  if s.panicmode then { s with errcalls := s.errcalls + 1 }
  else { s with errcalls := s.errcalls + 1, panicmode := true,
                stderr := s.stderr ++ [⟨tok.line,
                  if tok.type = TOKEN_EOF then errplace.at_end
                  else if tok.type = TOKEN_ERROR then errplace.text tok.lexeme
                  else errplace.at_lexeme tok.lexeme⟩],
                haderror := true }

/-- The parsing function `f` parses the tokens of `toks` from index `p` up to
index `q` into `e`: with enough budget, from every state whose cursor is at `p`
it returns `e` and leaves the cursor at `q`, having raised no error (the
state is otherwise unchanged, but for the count of allocated nodes). -/
def ParsesAt (f : Nat → M (Ptr expr)) (toks : List token) (p q : Nat) (e : Ptr expr) : Prop :=
  ∃ F k : Nat, ∀ fuel : Nat, F ≤ fuel → ∀ s : parser, s.tokens = toks → s.current = p →
    f fuel s = .ok e { s with current := q, allocs := s.allocs + k }

/-- The four left-associative tiers of the expression grammar. -/
inductive Tier where
  | equality | comparison | additive | multiplicative
deriving DecidableEq, Repr

/-- The function of `parser.c` that parses a tier. -/
def Tier.fn (E : Env) : Tier → Nat → M (Ptr expr)
  | .equality => Ari.equality E
  | .comparison => Ari.comparison E
  | .additive => Ari.addition E
  | .multiplicative => Ari.multiplication E

/-- The function that parses the operands of a tier: the next-higher tier. -/
def Tier.next (E : Env) : Tier → Nat → M (Ptr expr)
  | .equality => Ari.comparison E
  | .comparison => Ari.addition E
  | .additive => Ari.multiplication E
  | .multiplicative => Ari.unary E

/-- The loop of the function that parses a tier. -/
def Tier.loop (E : Env) : Tier → Nat → Ptr expr → M (Ptr expr)
  | .equality => Ari.equality_loop E
  | .comparison => Ari.comparison_loop E
  | .additive => Ari.addition_loop E
  | .multiplicative => Ari.multiplication_loop E

/-- The operators of a tier. -/
def Tier.ops : Tier → List tokentype
  | .equality => [TOKEN_BANG_EQUAL, TOKEN_EQUAL_EQUAL]
  | .comparison => [TOKEN_GREATER, TOKEN_GREATER_EQUAL, TOKEN_LESS, TOKEN_LESS_EQUAL]
  | .additive => [TOKEN_MINUS, TOKEN_PLUS]
  | .multiplicative => [TOKEN_SLASH, TOKEN_STAR]

/-- The rest `op2 e2 ... opn en` of a chain that starts at index `q` of `toks`:
each entry is an operator of `ops` found at the current index, the operand that
`f` parses after it, and the index at which that operand ends. -/
def ChainAt (f : Nat → M (Ptr expr)) (ops : List tokentype) (toks : List token) :
    Nat → List (token × Ptr expr × Nat) → Prop
  | _, [] => True
  | q, (op, e, q1) :: rest =>
    toks[q]? = some op ∧ op.type ∈ ops ∧ ParsesAt f toks (q + 1) q1 e ∧ ChainAt f ops toks q1 rest

/-- The index at which a chain ends. -/
def chain_end : Nat → List (token × Ptr expr × Nat) → Nat
  | q, [] => q
  | _, (_, _, q1) :: rest => chain_end q1 rest

/-- The left fold of a chain: `Binary(opn, ... Binary(op2, e1, e2) ..., en)`. -/
def left_fold (e1 : Ptr expr) (rest : List (token × Ptr expr × Nat)) : Ptr expr :=
  rest.foldl (fun acc x => .ref (Binary x.1 acc x.2.1)) e1

/-- The targets `x1 = x2 = ... xn =` of an assignment chain, from index `p` of
`toks` up to index `q`: identifiers, each followed by `=`. -/
def TargetsAt (toks : List token) : Nat → List token → Nat → Prop
  | p, [], q => p = q
  | p, x :: xs, q =>
    toks[p]? = some x ∧ x.type = TOKEN_IDENTIFIER
      ∧ (∃ t, toks[p + 1]? = some t ∧ t.type = TOKEN_EQUAL) ∧ TargetsAt toks (p + 2) xs q

/-- The right fold `Assign(x1, Assign(x2, ... Assign(xn, v)))`. -/
def assign_chain (names : List token) (v : Ptr expr) : Ptr expr :=
  names.foldr (fun x acc => .ref (Assign (.ref x) acc)) v

/-- A token that can start what `primary` parses without an error. -/
def primary_start : List tokentype :=
  [TOKEN_FALSE, TOKEN_TRUE, TOKEN_NULL, TOKEN_NUMBER, TOKEN_STRING, TOKEN_IDENTIFIER,
    TOKEN_LEFT_PAREN]

/-- The node that `primary` builds from a single token: a literal or a
variable; nothing for a token of another kind. -/
def atom (t : token) : Ptr expr :=
  match t.type with
  | TOKEN_FALSE => .ref (Literal .EXPR_LITERAL_BOOL "0")
  | TOKEN_TRUE => .ref (Literal .EXPR_LITERAL_BOOL "1")
  | TOKEN_NULL => .ref (Literal .EXPR_LITERAL_NULL "NULL")
  | TOKEN_NUMBER => .ref (Literal .EXPR_LITERAL_NUMBER t.lexeme)
  | TOKEN_STRING => .ref (Literal .EXPR_LITERAL_STRING t.lexeme)
  | TOKEN_IDENTIFIER => .ref (Variable t)
  | _ => .null

/-- The kinds of the tokens that are an expression on their own. -/
def atom_types : List tokentype :=
  [TOKEN_FALSE, TOKEN_TRUE, TOKEN_NULL, TOKEN_NUMBER, TOKEN_STRING, TOKEN_IDENTIFIER]

/-- The binary operators of the four left-associative tiers. -/
def binary_ops : List tokentype :=
  Tier.equality.ops ++ Tier.comparison.ops ++ Tier.additive.ops ++ Tier.multiplicative.ops

/-- The state after the growth step of `parse`. -/
def grown (E : Env) (s : parser) : parser :=
  { s with capacity := if s.capacity < s.num_statements + 1 then E.GROW_CAPACITY s.capacity
                       else s.capacity,
           statements := if s.capacity < s.num_statements + 1 then grow_array s.statements
                         else s.statements }

/-- The state in which the loop of `parse` starts on a fresh parser. -/
def start_state (E : Env) (toks : List token) (s0 : parser) : parser :=
  { parser_init s0 with tokens := toks, capacity := E.GROW_CAPACITY 0, statements := .ref [] }

/-- The kinds of token at which `synchronize` stops and that `declaration`
does not consume. -/
def dead_types : List tokentype :=
  [TOKEN_CLASS, TOKEN_FUN, TOKEN_RETURN]

/-- Every run of `m` that returns relates the state before to the state after
by `R`. -/
def Pres (R : parser → parser → Prop) {α : Type} (m : M α) : Prop :=
  ∀ (s : parser) (a : α) (s1 : parser), m s = .ok a s1 → R s s1

/-- A relation on parser states that holds across each elementary step of the
grammar functions: moving the cursor over a token that is not the end of
input, `error_at`, allocating a node, and clearing the latch. -/
structure StepRel (R : parser → parser → Prop) : Prop where
  refl : ∀ s, R s s
  trans : ∀ a b c, R a b → R b c → R a c
  advance : ∀ (s : parser) (t : token), s.tokens[s.current]? = some t → t.type ≠ TOKEN_EOF →
    R s { s with current := s.current + 1 }
  error : ∀ (s : parser) (t : token), R s (error_state t s)
  alloc : ∀ s : parser, R s { s with allocs := s.allocs + 1 }
  calm : ∀ s : parser, R s { s with panicmode := false }

/-- Every grammar function, with budget `n`, relates the state before to the
state after by `R`. -/
def AllPres (R : parser → parser → Prop) (E : Env) (n : Nat) : Prop :=
  Pres R (primary E n) ∧ Pres R (unary E n)
    ∧ (∀ e, Pres R (multiplication_loop E n e)) ∧ Pres R (multiplication E n)
    ∧ (∀ e, Pres R (addition_loop E n e)) ∧ Pres R (addition E n)
    ∧ (∀ e, Pres R (comparison_loop E n e)) ∧ Pres R (comparison E n)
    ∧ (∀ e, Pres R (equality_loop E n e)) ∧ Pres R (equality E n)
    ∧ Pres R (assignment E n) ∧ Pres R (expression E n)
    ∧ Pres R (var_declaration E n) ∧ Pres R (declaration E n)
    ∧ (∀ b i, Pres R (block_loop E n b i)) ∧ Pres R (block E n)
    ∧ Pres R (if_statement E n) ∧ Pres R (for_statement E n)
    ∧ Pres R (while_statement E n) ∧ Pres R (expression_statement E n)
    ∧ Pres R (statement E n)

/-- From `s` to `s1` no call of `error_at` is lost, and if the latch implied
the error flag in `s` it does so in `s1`, where the flag is set exactly if it
was set in `s` or `error_at` was called in between. -/
def flag_rel (s s1 : parser) : Prop :=
  s.errcalls ≤ s1.errcalls ∧
    ((s.panicmode = true → s.haderror = true) →
      (s1.panicmode = true → s1.haderror = true) ∧
        (s1.haderror = true ↔ (s.haderror = true ∨ s.errcalls < s1.errcalls)))

/-- From `s` to `s1` the error flag is not cleared. -/
def flag_kept (s s1 : parser) : Prop :=
  s.haderror = true → s1.haderror = true

/-- A parser struct with every field zero, before `init_parser`. -/
def parser.blank : parser :=
  ⟨[], .null, 0, 0, 0, 0, false, false, [], 0, 0⟩

/-- A statement node with every field zero. -/
def stmt.zero : stmt :=
  ⟨none, .null, .null, .null, .null, .null, .null, .null, .null, 0, 0, .null⟩

/-- An environment for examples: capacities grow to 8 and then double, and
fresh storage holds zeros. -/
def Env.zeroed : Env :=
  ⟨fun c => if c < 8 then 8 else c * 2, fun _ => stmt.zero⟩

/-- A token of line 1, for examples. -/
def tok (type : tokentype) (lexeme : String) : token := ⟨type, lexeme, 1⟩

/-- The tokens of `1 = 2;`. -/
def invalid_target_tokens : List token :=
  [tok TOKEN_NUMBER "1", tok TOKEN_EQUAL "=", tok TOKEN_NUMBER "2", tok TOKEN_SEMICOLON ";",
    tok TOKEN_EOF ""]

/-- The tokens of `var ; var x = 1;`. -/
def recovery_tokens : List token :=
  [tok TOKEN_VAR "var", tok TOKEN_SEMICOLON ";", tok TOKEN_VAR "var", tok TOKEN_IDENTIFIER "x",
    tok TOKEN_EQUAL "=", tok TOKEN_NUMBER "1", tok TOKEN_SEMICOLON ";", tok TOKEN_EOF ""]

/-- The tokens of `var x; return x;`. -/
def return_tokens : List token :=
  [tok TOKEN_VAR "var", tok TOKEN_IDENTIFIER "x", tok TOKEN_SEMICOLON ";",
    tok TOKEN_RETURN "return", tok TOKEN_IDENTIFIER "x", tok TOKEN_SEMICOLON ";",
    tok TOKEN_EOF ""]

/-- The tokens of `for (var i = 0; i < 10; i = i + 1) {}`. -/
def for_tokens : List token :=
  [tok TOKEN_FOR "for", tok TOKEN_LEFT_PAREN "(", tok TOKEN_VAR "var", tok TOKEN_IDENTIFIER "i",
    tok TOKEN_EQUAL "=", tok TOKEN_NUMBER "0", tok TOKEN_SEMICOLON ";", tok TOKEN_IDENTIFIER "i",
    tok TOKEN_LESS "<", tok TOKEN_NUMBER "10", tok TOKEN_SEMICOLON ";", tok TOKEN_IDENTIFIER "i",
    tok TOKEN_EQUAL "=", tok TOKEN_IDENTIFIER "i", tok TOKEN_PLUS "+", tok TOKEN_NUMBER "1",
    tok TOKEN_RIGHT_PAREN ")", tok TOKEN_LEFT_BRACE "\x7b", tok TOKEN_RIGHT_BRACE "\x7d",
    tok TOKEN_EOF ""]

/-- The tokens of `for (i = 0; i < 10; i = i + 1;) {}`: every clause a
statement with its own `;`. -/
def for_statement_tokens : List token :=
  [tok TOKEN_FOR "for", tok TOKEN_LEFT_PAREN "(", tok TOKEN_IDENTIFIER "i",
    tok TOKEN_EQUAL "=", tok TOKEN_NUMBER "0", tok TOKEN_SEMICOLON ";", tok TOKEN_IDENTIFIER "i",
    tok TOKEN_LESS "<", tok TOKEN_NUMBER "10", tok TOKEN_SEMICOLON ";", tok TOKEN_IDENTIFIER "i",
    tok TOKEN_EQUAL "=", tok TOKEN_IDENTIFIER "i", tok TOKEN_PLUS "+", tok TOKEN_NUMBER "1",
    tok TOKEN_SEMICOLON ";", tok TOKEN_RIGHT_PAREN ")", tok TOKEN_LEFT_BRACE "\x7b",
    tok TOKEN_RIGHT_BRACE "\x7d", tok TOKEN_EOF ""]

/-- The tokens of `{}`. -/
def empty_block_tokens : List token :=
  [tok TOKEN_LEFT_BRACE "\x7b", tok TOKEN_RIGHT_BRACE "\x7d", tok TOKEN_EOF ""]

/-- The expression `i = i + 1` of the for-loop clauses, as parsed. -/
def increment_expr : Ptr expr :=
  .ref (Assign (.ref (tok TOKEN_IDENTIFIER "i"))
    (.ref (Binary (tok TOKEN_PLUS "+") (.ref (Variable (tok TOKEN_IDENTIFIER "i")))
      (.ref (Literal .EXPR_LITERAL_NUMBER "1")))))

/-- The expression `i < 10` of the for-loop clauses, as parsed. -/
def condition_expr : Ptr expr :=
  .ref (Binary (tok TOKEN_LESS "<") (.ref (Variable (tok TOKEN_IDENTIFIER "i")))
    (.ref (Literal .EXPR_LITERAL_NUMBER "10")))

/-- The expression `i = 0` of the for-loop clauses, as parsed. -/
def init_expr_i : Ptr expr :=
  .ref (Assign (.ref (tok TOKEN_IDENTIFIER "i")) (.ref (Literal .EXPR_LITERAL_NUMBER "0")))

/-- An environment whose fresh storage holds a statement count of 7 and
otherwise zeros. -/
def Env.seven : Env :=
  ⟨fun c => if c < 8 then 8 else c * 2, fun _ => { stmt.zero with count := 7 }⟩

/-! ## Deallocation (`delete_expression`, `delete_statements`, `reset_parser`)

The deallocation functions do not touch the parser struct. Their outcome is the
number of `expr` and `stmt` nodes they pass to `free` (bookkeeping that the C
code does not hold), or undefined behaviour. A guard `if (p)` on a pointer that
is not null and not valid passes, and the call that follows reads through it. -/

mutual

/-- Function `delete_expression`. -/
def delete_expression : expr → Except Fault Nat
  | ⟨_, _, _, literal, expression, value, left, right⟩ => do
    let a ← delete_expression_guarded expression
    let b ← delete_expression_guarded value
    let c ← delete_expression_guarded left
    let d ← delete_expression_guarded right
    match literal with
    | .wild => .error .bad_pointer
    | _ => pure (a + b + c + d + 1)

/-- The statement `if (p) delete_expression(p);`. -/
def delete_expression_guarded : Ptr expr → Except Fault Nat
  | .null => pure 0
  | .ref e => delete_expression e
  | .wild => .error .bad_pointer

end

/-- The tag that `switch (pstmt->type)` finds in `type`. `tag0` is the tag whose
enumerator has the value 0, if there is one (`stmt.h` declares the enum): it
is found in a node whose `type` is still the 0 that `init_stmt` stores. -/
def switch_tag (tag0 : Option stmttype) (type : Option stmttype) : Option stmttype :=
  match type with
  | some t => some t
  | none => tag0

mutual

/-- Function `delete_statements`. -/
def delete_statements (tag0 : Option stmttype) : stmt → Except Fault Nat
  | ⟨type, _, initializer, expression, condition, value, loopbody, thenbranch, elsebranch,
      count, _, stmts⟩ => do
    let a ← (match switch_tag tag0 type with
      | some .STMT_BLOCK => delete_slots tag0 count.toNat stmts
      | some .STMT_EXPR => pure 0
      | some .STMT_IF => do
        let x ← delete_statements_at tag0 thenbranch
        let y ← delete_statements_guarded tag0 elsebranch
        pure (x + y)
      | some .STMT_WHILE => delete_statements_at tag0 loopbody
      | some .STMT_FOR => do
        let x ← delete_slots tag0 3 stmts
        let y ← delete_statements_at tag0 loopbody
        pure (x + y)
      | some .STMT_VAR => delete_statements_at tag0 initializer
      | none => pure 0)
    let b ← delete_expression_guarded expression
    let c ← delete_expression_guarded condition
    let d ← delete_expression_guarded value
    pure (a + b + c + d + 1)

/-- The call `delete_statements(p)`, which reads through `p`. -/
def delete_statements_at (tag0 : Option stmttype) : Ptr stmt → Except Fault Nat
  | .null => .error .null_deref
  | .ref st => delete_statements tag0 st
  | .wild => .error .bad_pointer

/-- The statement `if (p) delete_statements(p);`. -/
def delete_statements_guarded (tag0 : Option stmttype) : Ptr stmt → Except Fault Nat
  | .null => pure 0
  | .ref st => delete_statements tag0 st
  | .wild => .error .bad_pointer

/-- The loop `for (int i = 0; i < k; i++) delete_statements(stmts[i]);`. With
`k` at 0 the pointer `stmts` is not read. -/
def delete_slots (tag0 : Option stmttype) : Nat → Ptr (List (Ptr stmt)) → Except Fault Nat
  | 0, _ => pure 0
  | _ + 1, .null => .error .null_deref
  | _ + 1, .wild => .error .bad_pointer
  | k + 1, .ref l => delete_list tag0 (k + 1) l

/-- The same loop on the slots of the array, from the slot the index is at. A
slot past the ones written holds no valid pointer. -/
def delete_list (tag0 : Option stmttype) : Nat → List (Ptr stmt) → Except Fault Nat
  | 0, _ => pure 0
  | _ + 1, [] => .error .bad_pointer
  | k + 1, p :: rest => do
    let x ← delete_statements_at tag0 p
    let y ← delete_list tag0 k rest
    pure (x + y)

end

/-- Function `reset_parser`. The value is the number of nodes freed. -/
def parser_reset (tag0 : Option stmttype) : M Nat := fun s =>
  match s.statements with
  | .null => .ok 0 (parser_init s)
  | .wild => .fault .bad_pointer
  | .ref l =>
    match delete_list tag0 s.num_statements.toNat l with
    | .error f => .fault f
    | .ok k => .ok k (parser_init s)

/-! ## Notions used by the theorems on errors, recovery and storage -/

/-- The kinds of token at which the loop of `synchronize` stops. -/
def sync_stops : List tokentype :=
  [TOKEN_EOF, TOKEN_SEMICOLON, TOKEN_CLASS, TOKEN_FUN, TOKEN_VAR, TOKEN_IF, TOKEN_WHILE,
    TOKEN_RETURN]

mutual

/-- The expression node heads a tree of valid nodes: its text is not an
indeterminate pointer and each of its children is absent or such a tree. -/
def expr_tree : expr → Bool
  | ⟨_, _, _, literal, expression, value, left, right⟩ =>
    (match literal with
      | .wild => false
      | _ => true)
    && expr_tree_opt expression && expr_tree_opt value
    && expr_tree_opt left && expr_tree_opt right

/-- The pointer is null or points to a tree of valid expression nodes. -/
def expr_tree_opt : Ptr expr → Bool
  | .null => true
  | .ref e => expr_tree e
  | .wild => false

end

mutual

/-- The statement node heads a tree of valid nodes: the children that belong
to its variant point to such trees (the else-branch may be absent; a block has
`count` children in its array, a for-loop three) and each of its three
expressions is absent or a tree of valid nodes. -/
def stmt_tree (tag0 : Option stmttype) : stmt → Bool
  | ⟨type, _, initializer, expression, condition, value, loopbody, thenbranch, elsebranch,
      count, _, stmts⟩ =>
    (match switch_tag tag0 type with
      | some .STMT_BLOCK => slots_tree tag0 count.toNat stmts
      | some .STMT_EXPR => true
      | some .STMT_IF => stmt_tree_at tag0 thenbranch && stmt_tree_opt tag0 elsebranch
      | some .STMT_WHILE => stmt_tree_at tag0 loopbody
      | some .STMT_FOR => slots_tree tag0 3 stmts && stmt_tree_at tag0 loopbody
      | some .STMT_VAR => stmt_tree_at tag0 initializer
      | none => true)
    && expr_tree_opt expression && expr_tree_opt condition && expr_tree_opt value

/-- The pointer points to a tree of valid statement nodes. -/
def stmt_tree_at (tag0 : Option stmttype) : Ptr stmt → Bool
  | .null => false
  | .ref st => stmt_tree tag0 st
  | .wild => false

/-- The pointer is null or points to a tree of valid statement nodes. -/
def stmt_tree_opt (tag0 : Option stmttype) : Ptr stmt → Bool
  | .null => true
  | .ref st => stmt_tree tag0 st
  | .wild => false

/-- The array has `k` slots that point to trees of valid statement nodes (no
array is needed for no slot). -/
def slots_tree (tag0 : Option stmttype) : Nat → Ptr (List (Ptr stmt)) → Bool
  | 0, _ => true
  | _ + 1, .null => false
  | _ + 1, .wild => false
  | k + 1, .ref l => list_tree tag0 (k + 1) l

/-- The first `k` slots point to trees of valid statement nodes. -/
def list_tree (tag0 : Option stmttype) : Nat → List (Ptr stmt) → Bool
  | 0, _ => true
  | _ + 1, [] => false
  | k + 1, p :: rest => stmt_tree_at tag0 p && list_tree tag0 k rest

end

/-- The parser struct holds statements that can be deallocated: the array is
absent, or its first `num_statements` slots point to trees of valid nodes. -/
def parser.owns_trees (tag0 : Option stmttype) (s : parser) : Bool :=
  match s.statements with
  | .null => true
  | .wild => false
  | .ref l => list_tree tag0 s.num_statements.toNat l

/-- The token array ends with an end-of-input token and holds no other. -/
def eof_terminated (toks : List token) : Prop :=
  ∃ (front : List token) (eof : token),
    toks = front ++ [eof] ∧ eof.type = TOKEN_EOF ∧ ∀ t ∈ front, t.type ≠ TOKEN_EOF

/-- The parser reads the token array `toks` and its cursor is at most the
index of the last token. -/
def cursor_ok (toks : List token) (s : parser) : Prop :=
  s.tokens = toks ∧ s.current < toks.length

/-- The part of `if_statement` before its test for `else`: the condition in
parentheses and the then-branch. -/
def if_head (E : Env) (n : Nat) : M (Ptr expr × Ptr stmt) := do
  let _ ← consume TOKEN_LEFT_PAREN "Expect '(' after 'if'."
  let condition ← expression E n
  let _ ← consume TOKEN_RIGHT_PAREN "Expect ')' after if condition."
  let then_branch ← statement E n
  pure (condition, then_branch)

/-- The tokens of `a = 1;`. -/
def assign_tokens : List token :=
  [tok TOKEN_IDENTIFIER "a", tok TOKEN_EQUAL "=", tok TOKEN_NUMBER "1", tok TOKEN_SEMICOLON ";",
    tok TOKEN_EOF ""]

/-- The tokens of `var x = 1;`. -/
def var_init_tokens : List token :=
  [tok TOKEN_VAR "var", tok TOKEN_IDENTIFIER "x", tok TOKEN_EQUAL "=", tok TOKEN_NUMBER "1",
    tok TOKEN_SEMICOLON ";", tok TOKEN_EOF ""]

/-- The tokens of `var x;`. -/
def var_tokens : List token :=
  [tok TOKEN_VAR "var", tok TOKEN_IDENTIFIER "x", tok TOKEN_SEMICOLON ";", tok TOKEN_EOF ""]

/-- The tokens of `(= 1);`. -/
def absent_target_tokens : List token :=
  [tok TOKEN_LEFT_PAREN "(", tok TOKEN_EQUAL "=", tok TOKEN_NUMBER "1",
    tok TOKEN_RIGHT_PAREN ")", tok TOKEN_SEMICOLON ";", tok TOKEN_EOF ""]

/-- The tokens of `if (a) b;`. -/
def if_tokens : List token :=
  [tok TOKEN_IF "if", tok TOKEN_LEFT_PAREN "(", tok TOKEN_IDENTIFIER "a",
    tok TOKEN_RIGHT_PAREN ")", tok TOKEN_IDENTIFIER "b", tok TOKEN_SEMICOLON ";",
    tok TOKEN_EOF ""]

/-- The tokens of `if (a) b; else c;`. -/
def if_else_tokens : List token :=
  [tok TOKEN_IF "if", tok TOKEN_LEFT_PAREN "(", tok TOKEN_IDENTIFIER "a",
    tok TOKEN_RIGHT_PAREN ")", tok TOKEN_IDENTIFIER "b", tok TOKEN_SEMICOLON ";",
    tok TOKEN_ELSE "else", tok TOKEN_IDENTIFIER "c", tok TOKEN_SEMICOLON ";", tok TOKEN_EOF ""]

/-- The tokens of `{ 1; }`. -/
def block_one_tokens : List token :=
  [tok TOKEN_LEFT_BRACE "\x7b", tok TOKEN_NUMBER "1", tok TOKEN_SEMICOLON ";",
    tok TOKEN_RIGHT_BRACE "\x7d", tok TOKEN_EOF ""]

/-- The tokens of `;`. -/
def semicolon_tokens : List token :=
  [tok TOKEN_SEMICOLON ";", tok TOKEN_EOF ""]

/-- The tokens of `1;`. -/
def one_tokens : List token :=
  [tok TOKEN_NUMBER "1", tok TOKEN_SEMICOLON ";", tok TOKEN_EOF ""]

/-- The parser struct after `parse` on `1;` with `Env.zeroed`, from a blank
struct. -/
def parsed_one : parser :=
  { tokens := one_tokens,
    statements := .ref [.ref (ExprStmt (.ref (Literal .EXPR_LITERAL_NUMBER "1")))],
    num_statements := 1, capacity := 8, current := 2, num_tokens := 0, panicmode := false,
    haderror := false, stderr := [], errcalls := 0, allocs := 2 }

/-! ## Notions used by the theorem on the cursor -/

/-- The parser struct with the tokens `extra` stored after its token array. -/
def parser.pad (extra : List token) (s : parser) : parser :=
  { s with tokens := s.tokens ++ extra }

/-- The outcome with `f` applied to the state after. -/
def Res.over {α : Type} (f : parser → parser) : Res α → Res α
  | .ok a s => .ok a (f s)
  | .fault e => .fault e
  | .timeout => .timeout

/-- Every run of `m` that starts with the cursor inside `toks` stays inside
the array, whether it returns or not. It comes out the same when the tokens
`extra` are stored after the array: it reads nothing at or past the end of
`toks`. When it returns, the cursor is inside the array and not before where
it was. And it ends in a read outside the array only if it started with the
cursor at 0, where no token precedes the cursor. -/
def InArray (toks extra : List token) {α : Type} (m : M α) : Prop :=
  ∀ s : parser, cursor_ok toks s →
    m (s.pad extra) = (m s).over (parser.pad extra)
      ∧ (∀ (a : α) (s1 : parser), m s = .ok a s1 → cursor_ok toks s1 ∧ s.current ≤ s1.current)
      ∧ (m s = .fault .token_index → s.current = 0)

/-- Every grammar function, with budget `n`, stays inside the array `toks`. -/
def AllInArray (toks extra : List token) (E : Env) (n : Nat) : Prop :=
  InArray toks extra (primary E n) ∧ InArray toks extra (unary E n)
    ∧ (∀ e, InArray toks extra (multiplication_loop E n e))
    ∧ InArray toks extra (multiplication E n)
    ∧ (∀ e, InArray toks extra (addition_loop E n e)) ∧ InArray toks extra (addition E n)
    ∧ (∀ e, InArray toks extra (comparison_loop E n e)) ∧ InArray toks extra (comparison E n)
    ∧ (∀ e, InArray toks extra (equality_loop E n e)) ∧ InArray toks extra (equality E n)
    ∧ InArray toks extra (assignment E n) ∧ InArray toks extra (expression E n)
    ∧ InArray toks extra (var_declaration E n) ∧ InArray toks extra (declaration E n)
    ∧ (∀ b i, InArray toks extra (block_loop E n b i)) ∧ InArray toks extra (block E n)
    ∧ InArray toks extra (if_statement E n) ∧ InArray toks extra (for_statement E n)
    ∧ InArray toks extra (while_statement E n)
    ∧ InArray toks extra (expression_statement E n)
    ∧ InArray toks extra (statement E n)

/-- The tokens of `1; 2;`. -/
def two_tokens : List token :=
  [tok TOKEN_NUMBER "1", tok TOKEN_SEMICOLON ";", tok TOKEN_NUMBER "2", tok TOKEN_SEMICOLON ";",
    tok TOKEN_EOF ""]


/-! # Theorems -/

/-! ## Running the state-passing functions -/

@[simp] theorem Res.bind_ok {α β : Type} (a : α) (s : parser) (k : α → M β) :
    (Res.ok a s).bind k = k a s := rfl

@[simp] theorem Res.bind_fault {α β : Type} (f : Fault) (k : α → M β) :
    (Res.fault f : Res α).bind k = .fault f := rfl

@[simp] theorem Res.bind_timeout {α β : Type} (k : α → M β) :
    (Res.timeout : Res α).bind k = .timeout := rfl

@[simp] theorem pure_apply {α : Type} (a : α) (s : parser) : (pure a : M α) s = .ok a s := rfl

@[simp] theorem bind_apply {α β : Type} (m : M α) (k : α → M β) (s : parser) :
    (m >>= k) s = (m s).bind k := by
  show M.bind m k s = _
  unfold M.bind Res.bind
  cases m s <;> rfl

theorem error_at_eq (tok : token) (msg : String) (s : parser) :
    error_at tok msg s = .ok () (error_state tok s) := by
  unfold error_at error_state
  by_cases h : s.panicmode = true <;> simp [h]

theorem is_at_end_eq (s : parser) :
    is_at_end s = match s.tokens[s.current]? with
      | none => .fault .token_index
      | some t => .ok (t.type == TOKEN_EOF) s := by
  unfold is_at_end peek
  simp only [bind_apply]
  cases s.tokens[s.current]? <;> rfl

theorem check_eq (ty : tokentype) (s : parser) :
    check ty s = match s.tokens[s.current]? with
      | none => .fault .token_index
      | some t => .ok (decide (t.type = ty ∧ t.type ≠ TOKEN_EOF)) s := by
  unfold check
  simp only [bind_apply, is_at_end_eq]
  cases h : s.tokens[s.current]? with
  | none => rfl
  | some t =>
    by_cases h1 : t.type = TOKEN_EOF
    · simp [h1]
    · by_cases h2 : t.type = ty
      · subst h2
        simp [h1, peek, h]
      · simp [h1, h2, peek, h]

theorem advance_eq (s : parser) (t : token) (h : s.tokens[s.current]? = some t)
    (h1 : t.type ≠ TOKEN_EOF) :
    advance s = .ok t { s with current := s.current + 1 } := by
  have h2 : (t.type == TOKEN_EOF) = false := by simpa using h1
  unfold advance
  simp [is_at_end_eq, h, h2, previous, h]

theorem previous_succ (s : parser) (t : token) (h : s.tokens[s.current]? = some t) :
    previous { s with current := s.current + 1 } = .ok t { s with current := s.current + 1 } := by
  simp [previous, h]

theorem match_eq (ty : tokentype) (s : parser) :
    match_ ty s = match s.tokens[s.current]? with
      | none => .fault .token_index
      | some t => if t.type = ty ∧ t.type ≠ TOKEN_EOF then
          .ok true { s with current := s.current + 1 } else .ok false s := by
  unfold match_
  simp only [bind_apply, check_eq]
  cases h : s.tokens[s.current]? with
  | none => rfl
  | some t =>
    by_cases h1 : t.type = ty ∧ t.type ≠ TOKEN_EOF
    · obtain ⟨rfl, h2⟩ := h1
      simp [h2, advance_eq s t h h2]
    · simp [h1]

theorem consume_eq (ty : tokentype) (msg : String) (s : parser) :
    consume ty msg s = match s.tokens[s.current]? with
      | none => .fault .token_index
      | some t => if t.type = ty ∧ t.type ≠ TOKEN_EOF then
          .ok (.ref t) { s with current := s.current + 1 }
        else .ok .null (error_state t s) := by
  unfold consume
  simp only [bind_apply, check_eq]
  cases h : s.tokens[s.current]? with
  | none => rfl
  | some t =>
    by_cases h1 : t.type = ty ∧ t.type ≠ TOKEN_EOF
    · obtain ⟨rfl, h2⟩ := h1
      simp [h2, advance_eq s t h h2]
    · simp [h1, error_at_current, peek, h, error_at_eq]

theorem error_eq (msg : String) (s : parser) :
    error msg s = if s.current = 0 then .fault .token_index else
      match s.tokens[s.current - 1]? with
      | none => .fault .token_index
      | some t => .ok () (error_state t s) := by
  unfold error previous
  simp only [bind_apply]
  by_cases h0 : s.current = 0
  · simp [h0]
  · cases h : s.tokens[s.current - 1]? <;> simp [h0, error_at_eq]

theorem orelse_eq (a b : M Bool) (s : parser) :
    orelse a b s = (a s).bind (fun r => if r = true then pure true else b) := by
  unfold orelse
  simp only [bind_apply]

theorem grow_statements_eq (E : Env) (s : parser) :
    grow_statements E s = .ok () (grown E s) := by
  unfold grow_statements grown
  by_cases h : s.capacity < s.num_statements + 1 <;> simp [h]

@[simp] theorem grow_array_ref (l : List (Ptr stmt)) : grow_array (.ref l) = .ref l := rfl

@[simp] theorem grow_array_null : grow_array .null = .ref [] := rfl

theorem panicking_eq (s : parser) : panicking s = .ok s.panicmode s := rfl

/-! ## Node constructors -/

theorem get_literal_expr_eq (v : String) (k : exprtype) (s : parser) :
    get_literal_expr v k s = .ok (.ref (Literal k v)) { s with allocs := s.allocs + 1 } := rfl

theorem get_variable_expr_eq (t : token) (s : parser) :
    get_variable_expr t s = .ok (.ref (Variable t)) { s with allocs := s.allocs + 1 } := rfl

theorem get_binary_expr_eq (op : token) (l r : Ptr expr) (s : parser) :
    get_binary_expr op l r s = .ok (.ref (Binary op l r)) { s with allocs := s.allocs + 1 } := rfl

theorem get_unary_expr_eq (op : token) (r : Ptr expr) (s : parser) :
    get_unary_expr op r s = .ok (.ref (Unary op r)) { s with allocs := s.allocs + 1 } := rfl

theorem get_grouping_expr_eq (e : Ptr expr) (s : parser) :
    get_grouping_expr e s = .ok (.ref (Grouping e)) { s with allocs := s.allocs + 1 } := rfl

theorem get_assign_expr_eq (name : Ptr token) (v : Ptr expr) (s : parser) :
    get_assign_expr name v s = .ok (.ref (Assign name v)) { s with allocs := s.allocs + 1 } := rfl

theorem get_expression_statement_eq (e : Ptr expr) (s : parser) :
    get_expression_statement e s = .ok (.ref (ExprStmt e)) { s with allocs := s.allocs + 1 } := rfl

theorem get_variable_statement_eq (name : Ptr token) (i : Ptr stmt) (s : parser) :
    get_variable_statement name i s
      = .ok (.ref (VarStmt name i)) { s with allocs := s.allocs + 1 } := rfl

theorem get_for_statement_eq (a b c d : Ptr stmt) (s : parser) :
    get_for_statement a b c d s
      = .ok (.ref (ForStmt a b c d)) { s with allocs := s.allocs + 1 } := rfl

theorem get_while_statement_eq (c : Ptr expr) (b : Ptr stmt) (s : parser) :
    get_while_statement c b s
      = .ok (.ref (WhileStmt c b)) { s with allocs := s.allocs + 1 } := rfl

theorem get_if_statement_eq (c : Ptr expr) (a b : Ptr stmt) (s : parser) :
    get_if_statement c a b s
      = .ok (.ref (IfStmt c a b)) { s with allocs := s.allocs + 1 } := rfl

theorem alloc_stmt_eq (E : Env) (s : parser) :
    alloc_stmt E s = .ok (E.raw_stmt s.allocs) { s with allocs := s.allocs + 1 } := rfl

@[simp] theorem Literal_type (k : exprtype) (v : String) : (Literal k v).type = some k := rfl

@[simp] theorem Variable_type (t : token) : (Variable t).type = some .EXPR_VARIABLE := rfl

@[simp] theorem Variable_name (t : token) : (Variable t).name = .ref t := rfl

@[simp] theorem Binary_type (op : token) (l r : Ptr expr) :
    (Binary op l r).type = some .EXPR_BINARY := rfl

@[simp] theorem Unary_type (op : token) (r : Ptr expr) :
    (Unary op r).type = some .EXPR_UNARY := rfl

@[simp] theorem Grouping_type (e : Ptr expr) : (Grouping e).type = some .EXPR_GROUPING := rfl

@[simp] theorem Assign_type (name : Ptr token) (v : Ptr expr) :
    (Assign name v).type = some .EXPR_ASSIGN := rfl

/-! ## The expression tiers -/

theorem tier_fn_succ (T : Tier) (E : Env) (n : Nat) (s : parser) :
    T.fn E (n + 1) s = (T.next E n s).bind (fun e => T.loop E n e) := by
  cases T <;>
    simp only [Tier.fn, Tier.next, Tier.loop, equality.eq_2, comparison.eq_2, addition.eq_2,
      multiplication.eq_2, bind_apply]

theorem tier_loop_miss (T : Tier) (E : Env) (n : Nat) (acc : Ptr expr) (s : parser) (t : token)
    (h : s.tokens[s.current]? = some t) (ht : t.type ∉ T.ops) :
    T.loop E (n + 1) acc s = .ok acc s := by
  cases T <;> simp [Tier.ops] at ht <;>
    simp [Tier.loop, equality_loop.eq_2, comparison_loop.eq_2, addition_loop.eq_2,
      multiplication_loop.eq_2, orelse_eq, match_eq, h, ht]

theorem tier_loop_hit (T : Tier) (E : Env) (n : Nat) (acc : Ptr expr) (s : parser) (t : token)
    (h : s.tokens[s.current]? = some t) (ht : t.type ∈ T.ops) :
    T.loop E (n + 1) acc s
      = (T.next E n { s with current := s.current + 1 }).bind
          (fun right s1 =>
            T.loop E n (.ref (Binary t acc right)) { s1 with allocs := s1.allocs + 1 }) := by
  cases T <;> simp [Tier.ops] at ht
  · rcases ht with ht | ht <;>
      simp [Tier.loop, Tier.next, equality_loop.eq_2, orelse_eq, match_eq, h, ht,
        previous_succ s t h, get_binary_expr_eq] <;> rfl
  · rcases ht with ht | ht | ht | ht <;>
      simp [Tier.loop, Tier.next, comparison_loop.eq_2, orelse_eq, match_eq, h, ht,
        previous_succ s t h, get_binary_expr_eq] <;> rfl
  · rcases ht with ht | ht <;>
      simp [Tier.loop, Tier.next, addition_loop.eq_2, orelse_eq, match_eq, h, ht,
        previous_succ s t h, get_binary_expr_eq] <;> rfl
  · rcases ht with ht | ht <;>
      simp [Tier.loop, Tier.next, multiplication_loop.eq_2, orelse_eq, match_eq, h, ht,
        previous_succ s t h, get_binary_expr_eq] <;> rfl

theorem parser_moved_self (s : parser) (q : Nat) (h : s.current = q) :
    { s with current := q, allocs := s.allocs + 0 } = s := by
  cases s
  simp at h
  simp [h]

theorem tier_loop_chain (T : Tier) (E : Env) (toks : List token) (stop : token) :
    ∀ (rest : List (token × Ptr expr × Nat)) (q : Nat) (acc : Ptr expr),
      ChainAt (T.next E) T.ops toks q rest →
      toks[chain_end q rest]? = some stop → stop.type ∉ T.ops →
      ∃ F k : Nat, ∀ fuel : Nat, F ≤ fuel → ∀ s : parser, s.tokens = toks → s.current = q →
        T.loop E fuel acc s = .ok (left_fold acc rest)
          { s with current := chain_end q rest, allocs := s.allocs + k } := by
  intro rest
  induction rest with
  | nil =>
    intro q acc _ hstop hno
    refine ⟨1, 0, ?_⟩
    intro fuel hfuel s hs hq
    obtain ⟨n, rfl⟩ : ∃ n, fuel = n + 1 := ⟨fuel - 1, by omega⟩
    have h : s.tokens[s.current]? = some stop := by
      rw [hs, hq]; exact hstop
    rw [tier_loop_miss T E n acc s stop h hno]
    simp only [chain_end, left_fold, List.foldl_nil]
    rw [parser_moved_self s q hq]
  | cons x rest ih =>
    obtain ⟨op, e, q1⟩ := x
    intro q acc hchain hstop hno
    obtain ⟨h1, h2, ⟨F1, k1, h3⟩, h4⟩ := hchain
    obtain ⟨F2, k2, h5⟩ := ih q1 (.ref (Binary op acc e)) h4 hstop hno
    refine ⟨F1 + F2 + 1, k1 + 1 + k2, ?_⟩
    intro fuel hfuel s hs hq
    obtain ⟨n, rfl⟩ : ∃ n, fuel = n + 1 := ⟨fuel - 1, by omega⟩
    have h : s.tokens[s.current]? = some op := by
      rw [hs, hq]; exact h1
    rw [tier_loop_hit T E n acc s op h h2]
    rw [h3 n (by omega) { s with current := s.current + 1 } hs (by simp [hq])]
    simp only [Res.bind_ok]
    rw [h5 n (by omega)]
    · simp only [chain_end, left_fold, List.foldl_cons, Nat.add_assoc]
    · exact hs
    · rfl

/-- Chains of one tier parse to their left fold. -/
theorem tier_chain (T : Tier) (E : Env) (toks : List token) (p q0 : Nat) (e1 : Ptr expr)
    (rest : List (token × Ptr expr × Nat)) (stop : token)
    (hfirst : ParsesAt (T.next E) toks p q0 e1)
    (hrest : ChainAt (T.next E) T.ops toks q0 rest)
    (hstop : toks[chain_end q0 rest]? = some stop) (hno : stop.type ∉ T.ops) :
    ParsesAt (T.fn E) toks p (chain_end q0 rest) (left_fold e1 rest) := by
  obtain ⟨F1, k1, h1⟩ := hfirst
  obtain ⟨F2, k2, h2⟩ := tier_loop_chain T E toks stop rest q0 e1 hrest hstop hno
  refine ⟨F1 + F2 + 1, k1 + k2, ?_⟩
  intro fuel hfuel s hs hp
  obtain ⟨n, rfl⟩ : ∃ n, fuel = n + 1 := ⟨fuel - 1, by omega⟩
  rw [tier_fn_succ, h1 n (by omega) s hs hp]
  simp only [Res.bind_ok]
  rw [h2 n (by omega)]
  · simp only [Nat.add_assoc]
  · exact hs
  · rfl

/-! ## Atoms, unary, assignment -/

theorem primary_atom (E : Env) (n : Nat) (s : parser) (t : token)
    (h : s.tokens[s.current]? = some t) (ht : t.type ∈ atom_types) :
    primary E (n + 1) s = .ok (atom t)
      { s with current := s.current + 1, allocs := s.allocs + 1 } := by
  simp [atom_types] at ht
  rcases ht with ht | ht | ht | ht | ht | ht <;>
    simp [primary.eq_2, match_eq, h, ht, previous_succ s t h, get_literal_expr_eq,
      get_variable_expr_eq, take_string, atom]

theorem unary_pass (E : Env) (n : Nat) (s : parser) (t : token)
    (h : s.tokens[s.current]? = some t) (h1 : t.type ≠ TOKEN_BANG) (h2 : t.type ≠ TOKEN_MINUS) :
    unary E (n + 1) s = primary E n s := by
  simp [unary.eq_2, orelse_eq, match_eq, h, h1, h2]

theorem unary_hit (E : Env) (n : Nat) (s : parser) (t : token)
    (h : s.tokens[s.current]? = some t) (ht : t.type = TOKEN_BANG ∨ t.type = TOKEN_MINUS) :
    unary E (n + 1) s = (unary E n { s with current := s.current + 1 }).bind
      (fun right s1 => .ok (.ref (Unary t right)) { s1 with allocs := s1.allocs + 1 }) := by
  rcases ht with ht | ht <;>
    simp [unary.eq_2, orelse_eq, match_eq, h, ht, previous_succ s t h, get_unary_expr_eq] <;> rfl

theorem parsesAt_atom_primary (E : Env) (toks : List token) (p : Nat) (t : token)
    (h : toks[p]? = some t) (ht : t.type ∈ atom_types) :
    ParsesAt (primary E) toks p (p + 1) (atom t) := by
  refine ⟨1, 1, ?_⟩
  intro fuel hfuel s hs hp
  obtain ⟨n, rfl⟩ : ∃ n, fuel = n + 1 := ⟨fuel - 1, by omega⟩
  rw [primary_atom E n s t (by rw [hs, hp]; exact h) ht, hp]

theorem parsesAt_unary_of_primary (E : Env) (toks : List token) (p q : Nat) (e : Ptr expr)
    (t : token) (h : toks[p]? = some t) (h1 : t.type ≠ TOKEN_BANG) (h2 : t.type ≠ TOKEN_MINUS)
    (hp : ParsesAt (primary E) toks p q e) : ParsesAt (unary E) toks p q e := by
  obtain ⟨F, k, hF⟩ := hp
  refine ⟨F + 1, k, ?_⟩
  intro fuel hfuel s hs hq
  obtain ⟨n, rfl⟩ : ∃ n, fuel = n + 1 := ⟨fuel - 1, by omega⟩
  rw [unary_pass E n s t (by rw [hs, hq]; exact h) h1 h2, hF n (by omega) s hs hq]

theorem chainAt_nil (f : Nat → M (Ptr expr)) (ops : List tokentype) (toks : List token)
    (q : Nat) : ChainAt f ops toks q [] := trivial

/-- What a tier's operand function parses is parsed by the tier's function, when
no operator of the tier follows. -/
theorem tier_pass (T : Tier) (E : Env) (toks : List token) (p q : Nat) (e : Ptr expr)
    (stop : token) (h : ParsesAt (T.next E) toks p q e)
    (hstop : toks[q]? = some stop) (hno : stop.type ∉ T.ops) :
    ParsesAt (T.fn E) toks p q e :=
  tier_chain T E toks p q e [] stop h (chainAt_nil _ _ _ _) hstop hno

theorem mem_binary_ops (T : Tier) (x : tokentype) (h : x ∈ T.ops) : x ∈ binary_ops := by
  cases T <;> simp [binary_ops, Tier.ops] at h ⊢ <;> tauto

/-- What `unary` parses is parsed by `equality`, when no binary operator follows. -/
theorem equality_of_unary (E : Env) (toks : List token) (p q : Nat) (e : Ptr expr)
    (stop : token) (h : ParsesAt (unary E) toks p q e)
    (hstop : toks[q]? = some stop) (hno : stop.type ∉ binary_ops) :
    ParsesAt (equality E) toks p q e := by
  have hm := tier_pass .multiplicative E toks p q e stop h hstop
    (fun hx => hno (mem_binary_ops _ _ hx))
  have ha := tier_pass .additive E toks p q e stop hm hstop
    (fun hx => hno (mem_binary_ops _ _ hx))
  have hc := tier_pass .comparison E toks p q e stop ha hstop
    (fun hx => hno (mem_binary_ops _ _ hx))
  exact tier_pass .equality E toks p q e stop hc hstop
    (fun hx => hno (mem_binary_ops _ _ hx))

theorem assignment_pass (E : Env) (toks : List token) (p q : Nat) (e : Ptr expr)
    (stop : token) (h : ParsesAt (equality E) toks p q e)
    (hstop : toks[q]? = some stop) (hno : stop.type ≠ TOKEN_EQUAL) :
    ParsesAt (assignment E) toks p q e := by
  obtain ⟨F, k, hF⟩ := h
  refine ⟨F + 1, k, ?_⟩
  intro fuel hfuel s hs hp
  obtain ⟨n, rfl⟩ : ∃ n, fuel = n + 1 := ⟨fuel - 1, by omega⟩
  simp [assignment.eq_2, hF n (by omega) s hs hp, match_eq, hs, hstop, hno]

theorem assignment_assign (E : Env) (toks : List token) (p q : Nat) (v : Ptr expr)
    (x eq : token) (hx : toks[p]? = some x) (hxt : x.type = TOKEN_IDENTIFIER)
    (heq : toks[p + 1]? = some eq) (heqt : eq.type = TOKEN_EQUAL)
    (h : ParsesAt (assignment E) toks (p + 2) q v) :
    ParsesAt (assignment E) toks p q (.ref (Assign (.ref x) v)) := by
  have hatom : ParsesAt (primary E) toks p (p + 1) (atom x) :=
    parsesAt_atom_primary E toks p x hx (by simp [atom_types, hxt])
  have hun := parsesAt_unary_of_primary E toks p (p + 1) (atom x) x hx
    (by simp [hxt]) (by simp [hxt]) hatom
  obtain ⟨F1, k1, h1⟩ := equality_of_unary E toks p (p + 1) (atom x) eq hun heq
    (by simp [binary_ops, Tier.ops, heqt])
  obtain ⟨F2, k2, h2⟩ := h
  refine ⟨F1 + F2 + 1, k1 + k2 + 1, ?_⟩
  intro fuel hfuel s hs hp
  obtain ⟨n, rfl⟩ : ∃ n, fuel = n + 1 := ⟨fuel - 1, by omega⟩
  have hat : atom x = .ref (Variable x) := by simp [atom, hxt]
  simp only [assignment.eq_2, bind_apply, h1 n (by omega) s hs hp, Res.bind_ok, match_eq, hs,
    heq, heqt, hat]
  simp only [Variable, true_and, ne_eq, reduceCtorEq, not_false_eq_true, ↓reduceIte, Res.bind_ok,
    bind_apply]
  rw [h2 n (by omega)]
  · simp [get_assign_expr_eq, Nat.add_assoc, Nat.add_comm, Nat.add_left_comm]
  · rfl
  · rfl

theorem expression_of_assignment (E : Env) (toks : List token) (p q : Nat) (e : Ptr expr)
    (h : ParsesAt (assignment E) toks p q e) : ParsesAt (expression E) toks p q e := by
  obtain ⟨F, k, hF⟩ := h
  refine ⟨F + 1, k, ?_⟩
  intro fuel hfuel s hs hp
  obtain ⟨n, rfl⟩ : ∃ n, fuel = n + 1 := ⟨fuel - 1, by omega⟩
  rw [expression.eq_2, hF n (by omega) s hs hp]

/-! ## Statements and the loop of `parse` -/

theorem expression_statement_ok (E : Env) (toks : List token) (p q : Nat) (e : Ptr expr)
    (semi : token) (h : ParsesAt (expression E) toks p q e)
    (hsemi : toks[q]? = some semi) (hty : semi.type = TOKEN_SEMICOLON) :
    ∃ F k : Nat, ∀ fuel : Nat, F ≤ fuel → ∀ s : parser, s.tokens = toks → s.current = p →
      expression_statement E fuel s = .ok (.ref (ExprStmt e))
        { s with current := q + 1, allocs := s.allocs + k } := by
  obtain ⟨F, k, hF⟩ := h
  refine ⟨F + 1, k + 1, ?_⟩
  intro fuel hfuel s hs hp
  obtain ⟨n, rfl⟩ : ∃ n, fuel = n + 1 := ⟨fuel - 1, by omega⟩
  simp [expression_statement.eq_2, hF n (by omega) s hs hp, consume_eq, hs, hsemi, hty,
    get_expression_statement_eq, Nat.add_assoc]

theorem statement_pass (E : Env) (n : Nat) (s : parser) (t : token)
    (h : s.tokens[s.current]? = some t)
    (ht : t.type ∉ [TOKEN_FOR, TOKEN_WHILE, TOKEN_IF, TOKEN_LEFT_BRACE]) :
    statement E (n + 1) s = expression_statement E n s := by
  simp at ht
  simp [statement.eq_2, match_eq, h, ht]

theorem declaration_pass (E : Env) (n : Nat) (s : parser) (t : token)
    (h : s.tokens[s.current]? = some t) (ht : t.type ≠ TOKEN_VAR) (hp : s.panicmode = false) :
    declaration E (n + 1) s = statement E n s := by
  simp [declaration.eq_2, match_eq, h, ht, panicking, hp]

theorem parse_loop_end (E : Env) (n i : Nat) (s : parser) (t : token)
    (h : s.tokens[s.current]? = some t) (ht : t.type = TOKEN_EOF) :
    parse_loop E (n + 1) i s = .ok () s := by
  simp [parse_loop.eq_2, is_at_end_eq, h, ht]

theorem parse_loop_step (E : Env) (n i : Nat) (s s1 : parser) (t : token) (d : Ptr stmt)
    (h : s.tokens[s.current]? = some t) (ht : t.type ≠ TOKEN_EOF)
    (hd : declaration E n (grown E s) = .ok d s1) :
    parse_loop E (n + 1) i s = (store_statement i d s1).bind (fun _ s2 =>
      ((if s2.panicmode = true then synchronize else pure ())
          { s2 with num_statements := s2.num_statements + 1 }).bind
        (fun _ => parse_loop E n i)) := by
  have h2 : (t.type == TOKEN_EOF) = false := by simpa using ht
  simp only [parse_loop.eq_2, bind_apply, is_at_end_eq, h, h2, Res.bind_ok, Bool.not_false,
    ↓reduceIte, grow_statements_eq, hd]
  cases hst : store_statement i d s1 with
  | ok a s2 =>
    simp only [Res.bind_ok]
    by_cases hp : s2.panicmode = true <;> simp [hp, panicking]
  | fault f => rfl
  | timeout => rfl

theorem parse_eq (E : Env) (fuel : Nat) (toks : List token) (s0 : parser) :
    parse E fuel toks (parser_init s0)
      = (parse_loop E fuel 0 (start_state E toks s0)).bind
          (fun _ => is_at_end >>= fun _ s => Res.ok s.haderror s) := by
  simp only [parse, bind_apply, Res.bind_ok]
  rfl

@[simp] theorem grown_tokens (E : Env) (s : parser) : (grown E s).tokens = s.tokens := rfl
@[simp] theorem grown_current (E : Env) (s : parser) : (grown E s).current = s.current := rfl
@[simp] theorem grown_panicmode (E : Env) (s : parser) :
    (grown E s).panicmode = s.panicmode := rfl
@[simp] theorem grown_haderror (E : Env) (s : parser) : (grown E s).haderror = s.haderror := rfl
@[simp] theorem grown_stderr (E : Env) (s : parser) : (grown E s).stderr = s.stderr := rfl
@[simp] theorem grown_errcalls (E : Env) (s : parser) : (grown E s).errcalls = s.errcalls := rfl
@[simp] theorem grown_allocs (E : Env) (s : parser) : (grown E s).allocs = s.allocs := rfl
@[simp] theorem grown_num_statements (E : Env) (s : parser) :
    (grown E s).num_statements = s.num_statements := rfl

@[simp] theorem grown_num_tokens (E : Env) (s : parser) :
    (grown E s).num_tokens = s.num_tokens := rfl

@[simp] theorem grown_statements (E : Env) (s : parser) :
    (grown E s).statements = if s.capacity < s.num_statements + 1 then grow_array s.statements
                         else s.statements := rfl

@[simp] theorem start_num_tokens (E : Env) (toks : List token) (s0 : parser) :
    (start_state E toks s0).num_tokens = 0 := rfl

@[simp] theorem start_capacity (E : Env) (toks : List token) (s0 : parser) :
    (start_state E toks s0).capacity = E.GROW_CAPACITY 0 := rfl

theorem grown_statements_ref (E : Env) (s : parser) (l : List (Ptr stmt))
    (h : s.statements = .ref l) : (grown E s).statements = .ref l := by
  simp [grown, h]

@[simp] theorem start_tokens (E : Env) (toks : List token) (s0 : parser) :
    (start_state E toks s0).tokens = toks := rfl
@[simp] theorem start_current (E : Env) (toks : List token) (s0 : parser) :
    (start_state E toks s0).current = 0 := rfl
@[simp] theorem start_panicmode (E : Env) (toks : List token) (s0 : parser) :
    (start_state E toks s0).panicmode = false := rfl
@[simp] theorem start_haderror (E : Env) (toks : List token) (s0 : parser) :
    (start_state E toks s0).haderror = false := rfl
@[simp] theorem start_stderr (E : Env) (toks : List token) (s0 : parser) :
    (start_state E toks s0).stderr = s0.stderr := rfl
@[simp] theorem start_errcalls (E : Env) (toks : List token) (s0 : parser) :
    (start_state E toks s0).errcalls = s0.errcalls := rfl
@[simp] theorem start_allocs (E : Env) (toks : List token) (s0 : parser) :
    (start_state E toks s0).allocs = s0.allocs := rfl
@[simp] theorem start_statements (E : Env) (toks : List token) (s0 : parser) :
    (start_state E toks s0).statements = .ref [] := rfl
@[simp] theorem start_num_statements (E : Env) (toks : List token) (s0 : parser) :
    (start_state E toks s0).num_statements = 0 := rfl

/-- A token sequence that is one expression, `;` and the end of input parses to
one expression statement, with no error. -/
theorem parse_one_expr_stmt (E : Env) (s0 : parser) (toks : List token) (q : Nat)
    (e : Ptr expr) (first semi eof : token)
    (h0 : toks[0]? = some first)
    (hfirst : first.type ∉ [TOKEN_VAR, TOKEN_FOR, TOKEN_WHILE, TOKEN_IF, TOKEN_LEFT_BRACE,
      TOKEN_EOF])
    (he : ParsesAt (expression E) toks 0 q e)
    (hsemi : toks[q]? = some semi) (hsemit : semi.type = TOKEN_SEMICOLON)
    (heof : toks[q + 1]? = some eof) (heoft : eof.type = TOKEN_EOF) :
    ∃ F : Nat, ∀ fuel : Nat, F ≤ fuel → ∃ s1 : parser,
      parse E fuel toks (parser_init s0) = .ok false s1
        ∧ s1.statements = .ref [.ref (ExprStmt e)] ∧ s1.num_statements = 1
        ∧ s1.stderr = s0.stderr ∧ s1.errcalls = s0.errcalls := by
  obtain ⟨F, k, hF⟩ := expression_statement_ok E toks 0 q e semi he hsemi hsemit
  refine ⟨F + 3, ?_⟩
  intro fuel hfuel
  obtain ⟨n, rfl⟩ : ∃ n, fuel = n + 3 := ⟨fuel - 3, by omega⟩
  simp only [List.mem_cons, List.mem_singleton, not_or, List.not_mem_nil, or_false] at hfirst
  obtain ⟨hv, hfor, hwh, hif, hlb, hne⟩ := hfirst
  obtain ⟨g, hg⟩ : ∃ g, g = grown E (start_state E toks s0) := ⟨_, rfl⟩
  have hgt : g.tokens = toks := by simp [hg]
  have hgc : g.current = 0 := by simp [hg]
  have hgp : g.panicmode = false := by simp [hg]
  have hgh : g.haderror = false := by simp [hg]
  have hge : g.stderr = s0.stderr := by simp [hg]
  have hgn : g.errcalls = s0.errcalls := by simp [hg]
  have hgm : g.num_statements = 0 := by simp [hg]
  have hgs : g.statements = .ref [] := by
    rw [hg]; exact grown_statements_ref E _ [] (start_statements E toks s0)
  have hd : declaration E (n + 2) g = .ok (.ref (ExprStmt e))
      { g with current := q + 1, allocs := g.allocs + k } := by
    rw [declaration_pass E (n + 1) g first (by rw [hgt, hgc]; exact h0) hv hgp,
      statement_pass E n g first (by rw [hgt, hgc]; exact h0) (by simp [hfor, hwh, hif, hlb]),
      hF n (by omega) g hgt hgc]
  rw [hg] at hd
  rw [parse_eq, parse_loop_step E (n + 2) 0 _ _ first _ (by simpa using h0) hne hd]
  rw [← hg]
  simp only [store_statement, hgs, hgp, List.length_nil, Nat.lt_irrefl, ↓reduceIte, Res.bind_ok,
    Bool.false_eq_true, pure_apply, Nat.sub_self, List.replicate_zero, List.nil_append]
  rw [parse_loop_end E (n + 1) 0 _ eof (by simpa [hgt] using heof) heoft]
  simp only [Res.bind_ok, bind_apply, is_at_end_eq, hgt, heof, heoft, hgh, hge, hgn, hgm]
  exact ⟨_, rfl, rfl, by simp, rfl, rfl⟩

/-! ## What `primary` accepts -/

theorem primary_fail (E : Env) (n : Nat) (s : parser) (t : token)
    (h : s.tokens[s.current]? = some t) (ht : t.type ∉ primary_start) :
    primary E (n + 1) s = (error "Expect expression." s).bind (fun _ => pure .null) := by
  simp [primary_start] at ht
  simp [primary.eq_2, match_eq, h, ht]

theorem primary_starts (E : Env) (toks : List token) (p q : Nat) (e : Ptr expr)
    (h : ParsesAt (primary E) toks p q e) :
    ∃ t, toks[p]? = some t ∧ t.type ∈ primary_start := by
  obtain ⟨F, k, hF⟩ := h
  have h1 := hF (F + 1) (by omega) ⟨toks, .null, 0, 0, p, 0, false, false, [], 0, 0⟩ rfl rfl
  cases hl : toks[p]? with
  | none =>
    simp [primary.eq_2, match_eq, hl] at h1
  | some t =>
    refine ⟨t, rfl, ?_⟩
    by_contra hno
    rw [primary_fail E F _ t (by simpa using hl) hno, error_eq] at h1
    by_cases hp : p = 0
    · simp [hp] at h1
    · cases hl2 : toks[p - 1]? with
      | none => simp [hp, hl2] at h1
      | some t2 => simp [hp, hl2, error_state] at h1

theorem primary_start_not (t : token) (h : t.type ∈ primary_start) :
    t.type ≠ TOKEN_BANG ∧ t.type ≠ TOKEN_MINUS
      ∧ t.type ∉ [TOKEN_VAR, TOKEN_FOR, TOKEN_WHILE, TOKEN_IF, TOKEN_LEFT_BRACE, TOKEN_EOF] := by
  simp [primary_start] at h
  rcases h with h | h | h | h | h | h | h <;> simp [h]

theorem parsesAt_unary_primary (E : Env) (toks : List token) (p q : Nat) (e : Ptr expr)
    (h : ParsesAt (primary E) toks p q e) : ParsesAt (unary E) toks p q e := by
  obtain ⟨t, ht, hty⟩ := primary_starts E toks p q e h
  obtain ⟨h1, h2, _⟩ := primary_start_not t hty
  exact parsesAt_unary_of_primary E toks p q e t ht h1 h2 h

/-! ## Assignment chains -/

theorem assign_targets (E : Env) (toks : List token) (q : Nat) (v : Ptr expr) :
    ∀ (names : List token) (p pv : Nat), TargetsAt toks p names pv →
      ParsesAt (assignment E) toks pv q v →
      ParsesAt (assignment E) toks p q (assign_chain names v) := by
  intro names
  induction names with
  | nil =>
    intro p pv ht hv
    simp only [TargetsAt] at ht
    subst ht
    exact hv
  | cons x xs ih =>
    intro p pv ht hv
    obtain ⟨hx, hxt, ⟨t, ht1, ht2⟩, hrest⟩ := ht
    exact assignment_assign E toks p q (assign_chain xs v) x t hx hxt ht1 ht2
      (ih (p + 2) pv hrest hv)

theorem parsesAt_atom_unary (E : Env) (toks : List token) (p : Nat) (t : token)
    (h : toks[p]? = some t) (ht : t.type ∈ atom_types) :
    ParsesAt (unary E) toks p (p + 1) (atom t) :=
  parsesAt_unary_primary E toks p (p + 1) (atom t) (parsesAt_atom_primary E toks p t h ht)

/-! ## Synchronization -/

theorem synchronize_stop (s : parser) (t : token) (h : s.tokens[s.current]? = some t)
    (ht : t.type ∈ [TOKEN_EOF, TOKEN_SEMICOLON, TOKEN_CLASS, TOKEN_FUN, TOKEN_VAR, TOKEN_IF,
      TOKEN_WHILE, TOKEN_RETURN]) :
    synchronize s = .ok () { s with panicmode := false } := by
  have hlt : s.current < s.tokens.length := by
    by_contra hge
    rw [List.getElem?_eq_none (by omega)] at h
    exact absurd h (by simp)
  obtain ⟨m, hm⟩ : ∃ m, s.tokens.length - s.current = m + 1 :=
    ⟨s.tokens.length - s.current - 1, by omega⟩
  simp only [List.mem_cons, List.mem_singleton, List.not_mem_nil, or_false] at ht
  unfold synchronize
  rw [hm]
  rcases ht with ht | ht | ht | ht | ht | ht | ht | ht <;>
    simp [synchronize_loop, peek, h, ht]

theorem synchronize_skip (s : parser) (t : token) (h : s.tokens[s.current]? = some t)
    (ht : t.type ∉ [TOKEN_EOF, TOKEN_SEMICOLON, TOKEN_CLASS, TOKEN_FUN, TOKEN_VAR, TOKEN_IF,
      TOKEN_WHILE, TOKEN_RETURN]) :
    synchronize s = synchronize { s with current := s.current + 1 } := by
  have hlt : s.current < s.tokens.length := by
    by_contra hge
    rw [List.getElem?_eq_none (by omega)] at h
    exact absurd h (by simp)
  obtain ⟨m, hm⟩ : ∃ m, s.tokens.length - s.current = m + 1 :=
    ⟨s.tokens.length - s.current - 1, by omega⟩
  have hm2 : s.tokens.length - (s.current + 1) = m := by omega
  simp only [List.mem_cons, List.mem_singleton, List.not_mem_nil, or_false, not_or] at ht
  unfold synchronize
  simp only [hm, hm2]
  simp [synchronize_loop, peek, h, ht]
  rw [advance_eq { s with panicmode := false } t h ht.1]
  rfl

/-! ## Tokens that no parsing function consumes -/

@[simp] theorem error_state_tokens (t : token) (s : parser) :
    (error_state t s).tokens = s.tokens := by
  unfold error_state; split <;> rfl

@[simp] theorem error_state_current (t : token) (s : parser) :
    (error_state t s).current = s.current := by
  unfold error_state; split <;> rfl

@[simp] theorem error_state_statements (t : token) (s : parser) :
    (error_state t s).statements = s.statements := by
  unfold error_state; split <;> rfl

@[simp] theorem error_state_panicmode (t : token) (s : parser) :
    (error_state t s).panicmode = true := by
  unfold error_state
  by_cases h : s.panicmode = true <;> simp [h]

theorem primary_dead (E : Env) (s : parser) (t t1 : token)
    (h : s.tokens[s.current]? = some t) (ht : t.type ∉ primary_start)
    (hc : s.current ≠ 0) (hp : s.tokens[s.current - 1]? = some t1) (n : Nat) :
    primary E n s = .timeout ∨ primary E n s = .ok .null (error_state t1 s) := by
  cases n with
  | zero => exact Or.inl rfl
  | succ n =>
    right
    rw [primary_fail E n s t h ht, error_eq]
    simp [hc, hp]

theorem unary_dead (E : Env) (s : parser) (t t1 : token)
    (h : s.tokens[s.current]? = some t) (ht : t.type ∉ primary_start)
    (h1 : t.type ≠ TOKEN_BANG) (h2 : t.type ≠ TOKEN_MINUS)
    (hc : s.current ≠ 0) (hp : s.tokens[s.current - 1]? = some t1) (n : Nat) :
    unary E n s = .timeout ∨ unary E n s = .ok .null (error_state t1 s) := by
  cases n with
  | zero => exact Or.inl rfl
  | succ n =>
    rw [unary_pass E n s t h h1 h2]
    exact primary_dead E s t t1 h ht hc hp n

theorem tier_loop_zero (T : Tier) (E : Env) (acc : Ptr expr) (s : parser) :
    T.loop E 0 acc s = .timeout := by
  cases T <;> rfl

theorem tier_fn_zero (T : Tier) (E : Env) (s : parser) : T.fn E 0 s = .timeout := by
  cases T <;> rfl

theorem tier_dead_step (T : Tier) (E : Env) (s s2 : parser) (t : token)
    (h : s2.tokens[s2.current]? = some t) (ht : t.type ∉ T.ops)
    (hnext : ∀ n, T.next E n s = .timeout ∨ T.next E n s = .ok .null s2) (n : Nat) :
    T.fn E n s = .timeout ∨ T.fn E n s = .ok .null s2 := by
  cases n with
  | zero => exact Or.inl (tier_fn_zero T E s)
  | succ n =>
    rw [tier_fn_succ]
    rcases hnext n with h1 | h1
    · left; rw [h1]; rfl
    · rw [h1, Res.bind_ok]
      cases n with
      | zero => left; exact tier_loop_zero T E _ _
      | succ n => right; exact tier_loop_miss T E n .null s2 t h ht

theorem equality_dead (E : Env) (s : parser) (t t1 : token)
    (h : s.tokens[s.current]? = some t) (ht : t.type ∉ primary_start)
    (h1 : t.type ≠ TOKEN_BANG) (h2 : t.type ≠ TOKEN_MINUS) (hb : t.type ∉ binary_ops)
    (hc : s.current ≠ 0) (hp : s.tokens[s.current - 1]? = some t1) (n : Nat) :
    equality E n s = .timeout ∨ equality E n s = .ok .null (error_state t1 s) := by
  have h2s : (error_state t1 s).tokens[(error_state t1 s).current]? = some t := by simpa using h
  have hT : ∀ T : Tier, t.type ∉ T.ops := fun T hx => hb (mem_binary_ops T _ hx)
  have hm := tier_dead_step .multiplicative E s _ t h2s (hT _)
    (unary_dead E s t t1 h ht h1 h2 hc hp)
  have ha := tier_dead_step .additive E s _ t h2s (hT _) hm
  have hcm := tier_dead_step .comparison E s _ t h2s (hT _) ha
  exact tier_dead_step .equality E s _ t h2s (hT _) hcm n

theorem dead_not (t : token) (h : t.type ∈ dead_types) :
    t.type ∉ primary_start ∧ t.type ≠ TOKEN_BANG ∧ t.type ≠ TOKEN_MINUS ∧ t.type ∉ binary_ops
      ∧ t.type ≠ TOKEN_EQUAL ∧ t.type ≠ TOKEN_SEMICOLON ∧ t.type ≠ TOKEN_VAR
      ∧ t.type ∉ [TOKEN_FOR, TOKEN_WHILE, TOKEN_IF, TOKEN_LEFT_BRACE] ∧ t.type ≠ TOKEN_EOF := by
  simp [dead_types] at h
  rcases h with h | h | h <;> simp [h, primary_start, binary_ops, Tier.ops]

/-- On a token that starts no expression, `declaration` either runs out of
budget or returns an expression statement without an expression, the cursor
where it was and the latch on. -/
theorem declaration_dead (E : Env) (s : parser) (t t1 : token)
    (h : s.tokens[s.current]? = some t) (ht : t.type ∈ dead_types)
    (hc : s.current ≠ 0) (hp : s.tokens[s.current - 1]? = some t1)
    (hpanic : s.panicmode = false) (n : Nat) :
    declaration E n s = .timeout ∨
      declaration E n s = .ok (.ref (ExprStmt .null))
        { (error_state t (error_state t1 s)) with
            allocs := (error_state t (error_state t1 s)).allocs + 1 } := by
  obtain ⟨d1, d2, d3, d4, d5, d6, d7, d8, d9⟩ := dead_not t ht
  have h2s : (error_state t1 s).tokens[(error_state t1 s).current]? = some t := by simpa using h
  cases n with
  | zero => exact Or.inl rfl
  | succ n =>
    rw [declaration_pass E n s t h d7 hpanic]
    cases n with
    | zero => exact Or.inl rfl
    | succ n =>
      rw [statement_pass E n s t h d8]
      cases n with
      | zero => exact Or.inl rfl
      | succ n =>
        simp only [expression_statement.eq_2, bind_apply]
        cases n with
        | zero => exact Or.inl rfl
        | succ n =>
          simp only [expression.eq_2]
          cases n with
          | zero => exact Or.inl rfl
          | succ n =>
            simp only [assignment.eq_2, bind_apply]
            rcases equality_dead E s t t1 h d1 d2 d3 d4 hc hp n with he | he
            · left; rw [he]; rfl
            · right
              rw [he]
              simp [match_eq, h, d5, consume_eq, d6, get_expression_statement_eq]

theorem parse_loop_timeout (E : Env) (n i : Nat) (s : parser) (t : token)
    (h : s.tokens[s.current]? = some t) (ht : t.type ≠ TOKEN_EOF)
    (hd : declaration E n (grown E s) = .timeout) :
    parse_loop E (n + 1) i s = .timeout := by
  simp [parse_loop.eq_2, is_at_end_eq, h, ht, grow_statements_eq, hd]

/-- Once the loop of `parse` stands on `class`, `fun` or `return` with the
latch off, no budget lets it return. -/
theorem parse_loop_stuck (E : Env) (t t1 : token) (ht : t.type ∈ dead_types) :
    ∀ (n i : Nat) (s : parser), s.tokens[s.current]? = some t → s.current ≠ 0 →
      s.tokens[s.current - 1]? = some t1 → s.panicmode = false →
      (∃ l, s.statements = .ref l) → parse_loop E n i s = .timeout := by
  intro n
  induction n with
  | zero => intro i s _ _ _ _ _; rfl
  | succ n ih =>
    intro i s h hc hp hpanic hst
    obtain ⟨l, hl⟩ := hst
    have hne : t.type ≠ TOKEN_EOF := (dead_not t ht).2.2.2.2.2.2.2.2
    have hstop : t.type ∈ [TOKEN_EOF, TOKEN_SEMICOLON, TOKEN_CLASS, TOKEN_FUN, TOKEN_VAR,
        TOKEN_IF, TOKEN_WHILE, TOKEN_RETURN] := by
      simp [dead_types] at ht
      rcases ht with h1 | h1 | h1 <;> simp [h1]
    rcases declaration_dead E (grown E s) t t1 (by simpa using h) ht (by simpa using hc)
      (by simpa using hp) (by simpa using hpanic) n with hd | hd
    · exact parse_loop_timeout E n i s t h hne hd
    · rw [parse_loop_step E n i s _ t _ h hne hd]
      have hl2 : (grown E s).statements = .ref l := grown_statements_ref E s l hl
      simp only [store_statement, error_state_statements, hl2]
      split
      · simp only [Res.bind_ok, error_state_panicmode, ↓reduceIte]
        rw [synchronize_stop _ t (by simpa using h) hstop]
        simp only [Res.bind_ok]
        exact ih _ _ (by simpa using h) (by simpa using hc) (by simpa using hp) rfl ⟨_, rfl⟩
      · simp only [Res.bind_ok, error_state_panicmode, ↓reduceIte]
        rw [synchronize_stop _ t (by simpa using h) hstop]
        simp only [Res.bind_ok]
        exact ih _ _ (by simpa using h) (by simpa using hc) (by simpa using hp) rfl ⟨_, rfl⟩

/-! ## Relations kept by every grammar function -/

theorem pres_pure {R : parser → parser → Prop} (hR : StepRel R)
    {α : Type} (a : α) : Pres R (pure a : M α) := by
  intro s b s1 h
  simp only [pure_apply, Res.ok.injEq] at h
  rw [← h.2]
  exact hR.refl s

theorem pres_bind {R : parser → parser → Prop} (hR : StepRel R)
    {α β : Type} (m : M α) (k : α → M β) (hm : Pres R m)
    (hk : ∀ a, Pres R (k a)) : Pres R (m >>= k) := by
  intro s b s2 h
  simp only [bind_apply] at h
  cases h1 : m s with
  | ok a s1 =>
    rw [h1, Res.bind_ok] at h
    exact hR.trans _ _ _ (hm s a s1 h1) (hk a s1 b s2 h)
  | fault f => rw [h1] at h; exact absurd h (by simp)
  | timeout => rw [h1] at h; exact absurd h (by simp)

theorem pres_ite {R : parser → parser → Prop}
    {α : Type} (c : Prop) [Decidable c] (a b : M α) (ha : Pres R a)
    (hb : Pres R b) : Pres R (if c then a else b) := by
  split
  · exact ha
  · exact hb

theorem pres_of_eq {R : parser → parser → Prop}
    {α : Type} (f g : M α) (h : ∀ s, f s = g s) (hg : Pres R g) : Pres R f := by
  intro s a s1 h1
  rw [h] at h1
  exact hg s a s1 h1

theorem pres_fault {R : parser → parser → Prop}
    {α : Type} (f : Fault) : Pres R (fun _ => (.fault f : Res α)) := by
  intro s a s1 h
  exact absurd h (by simp)

theorem pres_timeout {R : parser → parser → Prop}
    {α : Type} : Pres R (fun _ => (.timeout : Res α)) := by
  intro s a s1 h
  exact absurd h (by simp)

theorem pres_match {R : parser → parser → Prop} (hR : StepRel R)
    (ty : tokentype) : Pres R (match_ ty) := by
  intro s a s1 h
  rw [match_eq] at h
  cases hl : s.tokens[s.current]? with
  | none => rw [hl] at h; exact absurd h (by simp)
  | some t =>
    rw [hl] at h
    simp only at h
    split at h
    · rename_i hc
      simp only [Res.ok.injEq] at h
      rw [← h.2]
      exact hR.advance s t hl hc.2
    · simp only [Res.ok.injEq] at h
      rw [← h.2]
      exact hR.refl s

theorem pres_consume {R : parser → parser → Prop} (hR : StepRel R)
    (ty : tokentype) (msg : String) : Pres R (consume ty msg) := by
  intro s a s1 h
  rw [consume_eq] at h
  cases hl : s.tokens[s.current]? with
  | none => rw [hl] at h; exact absurd h (by simp)
  | some t =>
    rw [hl] at h
    simp only at h
    split at h
    · rename_i hc
      simp only [Res.ok.injEq] at h
      rw [← h.2]
      exact hR.advance s t hl hc.2
    · simp only [Res.ok.injEq] at h
      rw [← h.2]
      exact hR.error s t

theorem pres_previous {R : parser → parser → Prop} (hR : StepRel R) : Pres R previous := by
  intro s a s1 h
  unfold previous at h
  split at h
  · exact absurd h (by simp)
  · split at h
    · simp only [Res.ok.injEq] at h
      rw [← h.2]
      exact hR.refl s
    · exact absurd h (by simp)

theorem pres_error {R : parser → parser → Prop} (hR : StepRel R)
    (msg : String) : Pres R (error msg) := by
  intro s a s1 h
  rw [error_eq] at h
  split at h
  · exact absurd h (by simp)
  · split at h
    · exact absurd h (by simp)
    · simp only [Res.ok.injEq] at h
      rw [← h.2]
      exact hR.error s _

theorem pres_orelse {R : parser → parser → Prop} (hR : StepRel R)
    (a b : M Bool) (ha : Pres R a) (hb : Pres R b) : Pres R (orelse a b) := by
  unfold orelse
  exact pres_bind hR _ _ ha (fun r => pres_ite _ _ _ (pres_pure hR _) hb)

theorem pres_panicking {R : parser → parser → Prop} (hR : StepRel R) : Pres R panicking := by
  intro s a s1 h
  simp only [panicking, Res.ok.injEq] at h
  rw [← h.2]
  exact hR.refl s

theorem pres_synchronize_loop {R : parser → parser → Prop} (hR : StepRel R)
    : ∀ n, Pres R (synchronize_loop n) := by
  intro n
  induction n with
  | zero => intro s a s1 h; exact absurd h (by simp [synchronize_loop])
  | succ n ih =>
    intro s a s1 h
    simp only [synchronize_loop, bind_apply, peek] at h
    cases hl : s.tokens[s.current]? with
    | none => rw [hl] at h; exact absurd h (by simp)
    | some t =>
      rw [hl] at h
      simp only [Res.bind_ok] at h
      split at h
      · simp only [pure_apply, Res.ok.injEq] at h; rw [← h.2]; exact hR.refl s
      · split at h
        · simp only [pure_apply, Res.ok.injEq] at h; rw [← h.2]; exact hR.refl s
        · split at h
          · simp only [pure_apply, Res.ok.injEq] at h; rw [← h.2]; exact hR.refl s
          · rename_i hne _ _
            rw [bind_apply, advance_eq s t hl hne, Res.bind_ok] at h
            exact hR.trans _ _ _ (hR.advance s t hl hne) (ih _ _ _ h)

theorem pres_synchronize {R : parser → parser → Prop} (hR : StepRel R) : Pres R synchronize := by
  intro s a s1 h
  unfold synchronize at h
  exact hR.trans _ _ _ (hR.calm s) (pres_synchronize_loop hR _ _ _ _ h)

theorem pres_alloc {R : parser → parser → Prop} (hR : StepRel R) {α : Type} (a : α) :
    Pres R (fun s => (.ok a { s with allocs := s.allocs + 1 } : Res α)) := by
  intro s b s1 h
  simp only [Res.ok.injEq] at h
  rw [← h.2]
  exact hR.alloc s

theorem pres_get_literal_expr {R : parser → parser → Prop} (hR : StepRel R)
    (v : String) (k : exprtype) : Pres R (get_literal_expr v k) :=
  pres_alloc hR _

theorem pres_get_variable_expr {R : parser → parser → Prop} (hR : StepRel R)
    (t : token) : Pres R (get_variable_expr t) := pres_alloc hR _

theorem pres_get_binary_expr {R : parser → parser → Prop} (hR : StepRel R)
    (op : token) (l r : Ptr expr) : Pres R (get_binary_expr op l r) :=
  pres_alloc hR _

theorem pres_get_unary_expr {R : parser → parser → Prop} (hR : StepRel R)
    (op : token) (r : Ptr expr) : Pres R (get_unary_expr op r) :=
  pres_alloc hR _

theorem pres_get_grouping_expr {R : parser → parser → Prop} (hR : StepRel R)
    (e : Ptr expr) : Pres R (get_grouping_expr e) := pres_alloc hR _

theorem pres_get_assign_expr {R : parser → parser → Prop} (hR : StepRel R)
    (n : Ptr token) (v : Ptr expr) : Pres R (get_assign_expr n v) :=
  pres_alloc hR _

theorem pres_get_expression_statement {R : parser → parser → Prop} (hR : StepRel R)
    (e : Ptr expr) : Pres R (get_expression_statement e) :=
  pres_alloc hR _

theorem pres_get_variable_statement {R : parser → parser → Prop} (hR : StepRel R)
    (n : Ptr token) (i : Ptr stmt) :
    Pres R (get_variable_statement n i) := pres_alloc hR _

theorem pres_get_for_statement {R : parser → parser → Prop} (hR : StepRel R)
    (a b c d : Ptr stmt) : Pres R (get_for_statement a b c d) :=
  pres_alloc hR _

theorem pres_get_while_statement {R : parser → parser → Prop} (hR : StepRel R)
    (c : Ptr expr) (b : Ptr stmt) :
    Pres R (get_while_statement c b) := pres_alloc hR _

theorem pres_get_if_statement {R : parser → parser → Prop} (hR : StepRel R)
    (c : Ptr expr) (a b : Ptr stmt) :
    Pres R (get_if_statement c a b) := pres_alloc hR _

theorem pres_alloc_stmt {R : parser → parser → Prop} (hR : StepRel R)
    (E : Env) : Pres R (alloc_stmt E) := by
  intro s b s1 h
  simp only [alloc_stmt, Res.ok.injEq] at h
  rw [← h.2]
  exact hR.alloc s

theorem pres_is_at_end {R : parser → parser → Prop} (hR : StepRel R) : Pres R is_at_end := by
  intro s a s1 h
  rw [is_at_end_eq] at h
  split at h
  · exact absurd h (by simp)
  · simp only [Res.ok.injEq] at h; rw [← h.2]; exact hR.refl s

theorem pres_check {R : parser → parser → Prop} (hR : StepRel R)
    (ty : tokentype) : Pres R (check ty) := by
  intro s a s1 h
  rw [check_eq] at h
  split at h
  · exact absurd h (by simp)
  · simp only [Res.ok.injEq] at h; rw [← h.2]; exact hR.refl s

theorem pres_realloc_slots {R : parser → parser → Prop} (hR : StepRel R)
    (p : Ptr (List (Ptr stmt))) (c : Int) : Pres R (realloc_slots p c) := by
  intro s a s1 h
  unfold realloc_slots at h
  split at h
  · exact absurd h (by simp)
  · split at h <;> (simp only [Res.ok.injEq] at h; rw [← h.2]; exact hR.refl s)
  · split at h <;> (simp only [Res.ok.injEq] at h; rw [← h.2]; exact hR.refl s)

theorem pres_check_stmt_capacity {R : parser → parser → Prop} (hR : StepRel R)
    (b : stmt) : Pres R (check_stmt_capacity b) := by
  unfold check_stmt_capacity
  exact pres_ite _ _ _ (pres_bind hR _ _ (pres_realloc_slots hR _ _) (fun _ => pres_pure hR _))
    (pres_pure hR _)

theorem pres_store_slot {R : parser → parser → Prop} (hR : StepRel R)
    (b : stmt) (i : Nat) (d : Ptr stmt) : Pres R (store_slot b i d) := by
  intro s a s1 h
  unfold store_slot at h
  split at h
  · exact absurd h (by simp)
  · exact absurd h (by simp)
  · split at h
    · simp only [Res.ok.injEq] at h; rw [← h.2]; exact hR.refl s
    · exact absurd h (by simp)

theorem all_pres_zero {R : parser → parser → Prop} (E : Env) : AllPres R E 0 := by
  unfold AllPres
  refine ⟨?_, ?_, ?_, ?_, ?_, ?_, ?_, ?_, ?_, ?_, ?_, ?_, ?_, ?_, ?_, ?_, ?_, ?_, ?_, ?_, ?_⟩ <;>
    intros <;> intro s a s1 h <;> exact absurd h (by simp [primary, unary, multiplication_loop,
      multiplication, addition_loop, addition, comparison_loop, comparison, equality_loop,
      equality, assignment, expression, var_declaration, declaration, block_loop, block,
      if_statement, for_statement, while_statement, expression_statement, statement])

theorem pres_primary_succ {R : parser → parser → Prop} (hR : StepRel R) (E : Env) (n : Nat)
    (ih : AllPres R E n) : Pres R (primary E (n + 1)) := by
  obtain ⟨i_primary, i_unary, i_multiplication_loop, i_multiplication, i_addition_loop, i_addition, i_comparison_loop, i_comparison, i_equality_loop, i_equality, i_assignment, i_expression, i_var_declaration, i_declaration, i_block_loop, i_block, i_if_statement, i_for_statement, i_while_statement, i_expression_statement, i_statement⟩ := ih
  refine pres_of_eq _ _ (fun s => primary.eq_2 E s n) ?_
  repeat' with_reducible first
    | exact pres_pure hR _
    | exact pres_match hR _
    | exact pres_consume hR _ _
    | exact pres_previous hR
    | exact pres_error hR _
    | exact pres_panicking hR
    | exact pres_synchronize hR
    | exact pres_is_at_end hR
    | exact pres_check hR _
    | exact pres_alloc_stmt hR _
    | exact pres_check_stmt_capacity hR _
    | exact pres_store_slot hR _ _ _
    | exact pres_get_literal_expr hR _ _
    | exact pres_get_variable_expr hR _
    | exact pres_get_binary_expr hR _ _ _
    | exact pres_get_unary_expr hR _ _
    | exact pres_get_grouping_expr hR _
    | exact pres_get_assign_expr hR _ _
    | exact pres_get_expression_statement hR _
    | exact pres_get_variable_statement hR _ _
    | exact pres_get_for_statement hR _ _ _ _
    | exact pres_get_while_statement hR _ _
    | exact pres_get_if_statement hR _ _ _
    | exact pres_fault _
    | assumption
    | exact i_multiplication_loop _
    | exact i_addition_loop _
    | exact i_comparison_loop _
    | exact i_equality_loop _
    | exact i_block_loop _ _
    | apply pres_orelse hR
    | apply pres_bind hR
    | apply pres_ite
    | intro _

theorem pres_unary_succ {R : parser → parser → Prop} (hR : StepRel R) (E : Env) (n : Nat)
    (ih : AllPres R E n) : Pres R (unary E (n + 1)) := by
  obtain ⟨i_primary, i_unary, i_multiplication_loop, i_multiplication, i_addition_loop, i_addition, i_comparison_loop, i_comparison, i_equality_loop, i_equality, i_assignment, i_expression, i_var_declaration, i_declaration, i_block_loop, i_block, i_if_statement, i_for_statement, i_while_statement, i_expression_statement, i_statement⟩ := ih
  refine pres_of_eq _ _ (fun s => unary.eq_2 E s n) ?_
  repeat' with_reducible first
    | exact pres_pure hR _
    | exact pres_match hR _
    | exact pres_consume hR _ _
    | exact pres_previous hR
    | exact pres_error hR _
    | exact pres_panicking hR
    | exact pres_synchronize hR
    | exact pres_is_at_end hR
    | exact pres_check hR _
    | exact pres_alloc_stmt hR _
    | exact pres_check_stmt_capacity hR _
    | exact pres_store_slot hR _ _ _
    | exact pres_get_literal_expr hR _ _
    | exact pres_get_variable_expr hR _
    | exact pres_get_binary_expr hR _ _ _
    | exact pres_get_unary_expr hR _ _
    | exact pres_get_grouping_expr hR _
    | exact pres_get_assign_expr hR _ _
    | exact pres_get_expression_statement hR _
    | exact pres_get_variable_statement hR _ _
    | exact pres_get_for_statement hR _ _ _ _
    | exact pres_get_while_statement hR _ _
    | exact pres_get_if_statement hR _ _ _
    | exact pres_fault _
    | assumption
    | exact i_multiplication_loop _
    | exact i_addition_loop _
    | exact i_comparison_loop _
    | exact i_equality_loop _
    | exact i_block_loop _ _
    | apply pres_orelse hR
    | apply pres_bind hR
    | apply pres_ite
    | intro _

theorem pres_multiplication_loop_succ {R : parser → parser → Prop} (hR : StepRel R) (E : Env) (n : Nat)
    (ih : AllPres R E n) (e : Ptr expr) : Pres R (multiplication_loop E (n + 1) e) := by
  obtain ⟨i_primary, i_unary, i_multiplication_loop, i_multiplication, i_addition_loop, i_addition, i_comparison_loop, i_comparison, i_equality_loop, i_equality, i_assignment, i_expression, i_var_declaration, i_declaration, i_block_loop, i_block, i_if_statement, i_for_statement, i_while_statement, i_expression_statement, i_statement⟩ := ih
  refine pres_of_eq _ _ (fun s => multiplication_loop.eq_2 E e s n) ?_
  repeat' with_reducible first
    | exact pres_pure hR _
    | exact pres_match hR _
    | exact pres_consume hR _ _
    | exact pres_previous hR
    | exact pres_error hR _
    | exact pres_panicking hR
    | exact pres_synchronize hR
    | exact pres_is_at_end hR
    | exact pres_check hR _
    | exact pres_alloc_stmt hR _
    | exact pres_check_stmt_capacity hR _
    | exact pres_store_slot hR _ _ _
    | exact pres_get_literal_expr hR _ _
    | exact pres_get_variable_expr hR _
    | exact pres_get_binary_expr hR _ _ _
    | exact pres_get_unary_expr hR _ _
    | exact pres_get_grouping_expr hR _
    | exact pres_get_assign_expr hR _ _
    | exact pres_get_expression_statement hR _
    | exact pres_get_variable_statement hR _ _
    | exact pres_get_for_statement hR _ _ _ _
    | exact pres_get_while_statement hR _ _
    | exact pres_get_if_statement hR _ _ _
    | exact pres_fault _
    | assumption
    | exact i_multiplication_loop _
    | exact i_addition_loop _
    | exact i_comparison_loop _
    | exact i_equality_loop _
    | exact i_block_loop _ _
    | apply pres_orelse hR
    | apply pres_bind hR
    | apply pres_ite
    | intro _

theorem pres_multiplication_succ {R : parser → parser → Prop} (hR : StepRel R) (E : Env) (n : Nat)
    (ih : AllPres R E n) : Pres R (multiplication E (n + 1)) := by
  obtain ⟨i_primary, i_unary, i_multiplication_loop, i_multiplication, i_addition_loop, i_addition, i_comparison_loop, i_comparison, i_equality_loop, i_equality, i_assignment, i_expression, i_var_declaration, i_declaration, i_block_loop, i_block, i_if_statement, i_for_statement, i_while_statement, i_expression_statement, i_statement⟩ := ih
  exact pres_of_eq _ _ (fun s => multiplication.eq_2 E s n)
    (pres_bind hR _ _ i_unary i_multiplication_loop)

theorem pres_addition_loop_succ {R : parser → parser → Prop} (hR : StepRel R) (E : Env) (n : Nat)
    (ih : AllPres R E n) (e : Ptr expr) : Pres R (addition_loop E (n + 1) e) := by
  obtain ⟨i_primary, i_unary, i_multiplication_loop, i_multiplication, i_addition_loop, i_addition, i_comparison_loop, i_comparison, i_equality_loop, i_equality, i_assignment, i_expression, i_var_declaration, i_declaration, i_block_loop, i_block, i_if_statement, i_for_statement, i_while_statement, i_expression_statement, i_statement⟩ := ih
  refine pres_of_eq _ _ (fun s => addition_loop.eq_2 E e s n) ?_
  repeat' with_reducible first
    | exact pres_pure hR _
    | exact pres_match hR _
    | exact pres_consume hR _ _
    | exact pres_previous hR
    | exact pres_error hR _
    | exact pres_panicking hR
    | exact pres_synchronize hR
    | exact pres_is_at_end hR
    | exact pres_check hR _
    | exact pres_alloc_stmt hR _
    | exact pres_check_stmt_capacity hR _
    | exact pres_store_slot hR _ _ _
    | exact pres_get_literal_expr hR _ _
    | exact pres_get_variable_expr hR _
    | exact pres_get_binary_expr hR _ _ _
    | exact pres_get_unary_expr hR _ _
    | exact pres_get_grouping_expr hR _
    | exact pres_get_assign_expr hR _ _
    | exact pres_get_expression_statement hR _
    | exact pres_get_variable_statement hR _ _
    | exact pres_get_for_statement hR _ _ _ _
    | exact pres_get_while_statement hR _ _
    | exact pres_get_if_statement hR _ _ _
    | exact pres_fault _
    | assumption
    | exact i_multiplication_loop _
    | exact i_addition_loop _
    | exact i_comparison_loop _
    | exact i_equality_loop _
    | exact i_block_loop _ _
    | apply pres_orelse hR
    | apply pres_bind hR
    | apply pres_ite
    | intro _

theorem pres_addition_succ {R : parser → parser → Prop} (hR : StepRel R) (E : Env) (n : Nat)
    (ih : AllPres R E n) : Pres R (addition E (n + 1)) := by
  obtain ⟨i_primary, i_unary, i_multiplication_loop, i_multiplication, i_addition_loop, i_addition, i_comparison_loop, i_comparison, i_equality_loop, i_equality, i_assignment, i_expression, i_var_declaration, i_declaration, i_block_loop, i_block, i_if_statement, i_for_statement, i_while_statement, i_expression_statement, i_statement⟩ := ih
  exact pres_of_eq _ _ (fun s => addition.eq_2 E s n)
    (pres_bind hR _ _ i_multiplication i_addition_loop)

theorem pres_comparison_loop_succ {R : parser → parser → Prop} (hR : StepRel R) (E : Env) (n : Nat)
    (ih : AllPres R E n) (e : Ptr expr) : Pres R (comparison_loop E (n + 1) e) := by
  obtain ⟨i_primary, i_unary, i_multiplication_loop, i_multiplication, i_addition_loop, i_addition, i_comparison_loop, i_comparison, i_equality_loop, i_equality, i_assignment, i_expression, i_var_declaration, i_declaration, i_block_loop, i_block, i_if_statement, i_for_statement, i_while_statement, i_expression_statement, i_statement⟩ := ih
  refine pres_of_eq _ _ (fun s => comparison_loop.eq_2 E e s n) ?_
  repeat' with_reducible first
    | exact pres_pure hR _
    | exact pres_match hR _
    | exact pres_consume hR _ _
    | exact pres_previous hR
    | exact pres_error hR _
    | exact pres_panicking hR
    | exact pres_synchronize hR
    | exact pres_is_at_end hR
    | exact pres_check hR _
    | exact pres_alloc_stmt hR _
    | exact pres_check_stmt_capacity hR _
    | exact pres_store_slot hR _ _ _
    | exact pres_get_literal_expr hR _ _
    | exact pres_get_variable_expr hR _
    | exact pres_get_binary_expr hR _ _ _
    | exact pres_get_unary_expr hR _ _
    | exact pres_get_grouping_expr hR _
    | exact pres_get_assign_expr hR _ _
    | exact pres_get_expression_statement hR _
    | exact pres_get_variable_statement hR _ _
    | exact pres_get_for_statement hR _ _ _ _
    | exact pres_get_while_statement hR _ _
    | exact pres_get_if_statement hR _ _ _
    | exact pres_fault _
    | assumption
    | exact i_multiplication_loop _
    | exact i_addition_loop _
    | exact i_comparison_loop _
    | exact i_equality_loop _
    | exact i_block_loop _ _
    | apply pres_orelse hR
    | apply pres_bind hR
    | apply pres_ite
    | intro _

theorem pres_comparison_succ {R : parser → parser → Prop} (hR : StepRel R) (E : Env) (n : Nat)
    (ih : AllPres R E n) : Pres R (comparison E (n + 1)) := by
  obtain ⟨i_primary, i_unary, i_multiplication_loop, i_multiplication, i_addition_loop, i_addition, i_comparison_loop, i_comparison, i_equality_loop, i_equality, i_assignment, i_expression, i_var_declaration, i_declaration, i_block_loop, i_block, i_if_statement, i_for_statement, i_while_statement, i_expression_statement, i_statement⟩ := ih
  exact pres_of_eq _ _ (fun s => comparison.eq_2 E s n)
    (pres_bind hR _ _ i_addition i_comparison_loop)

theorem pres_equality_loop_succ {R : parser → parser → Prop} (hR : StepRel R) (E : Env) (n : Nat)
    (ih : AllPres R E n) (e : Ptr expr) : Pres R (equality_loop E (n + 1) e) := by
  obtain ⟨i_primary, i_unary, i_multiplication_loop, i_multiplication, i_addition_loop, i_addition, i_comparison_loop, i_comparison, i_equality_loop, i_equality, i_assignment, i_expression, i_var_declaration, i_declaration, i_block_loop, i_block, i_if_statement, i_for_statement, i_while_statement, i_expression_statement, i_statement⟩ := ih
  refine pres_of_eq _ _ (fun s => equality_loop.eq_2 E e s n) ?_
  repeat' with_reducible first
    | exact pres_pure hR _
    | exact pres_match hR _
    | exact pres_consume hR _ _
    | exact pres_previous hR
    | exact pres_error hR _
    | exact pres_panicking hR
    | exact pres_synchronize hR
    | exact pres_is_at_end hR
    | exact pres_check hR _
    | exact pres_alloc_stmt hR _
    | exact pres_check_stmt_capacity hR _
    | exact pres_store_slot hR _ _ _
    | exact pres_get_literal_expr hR _ _
    | exact pres_get_variable_expr hR _
    | exact pres_get_binary_expr hR _ _ _
    | exact pres_get_unary_expr hR _ _
    | exact pres_get_grouping_expr hR _
    | exact pres_get_assign_expr hR _ _
    | exact pres_get_expression_statement hR _
    | exact pres_get_variable_statement hR _ _
    | exact pres_get_for_statement hR _ _ _ _
    | exact pres_get_while_statement hR _ _
    | exact pres_get_if_statement hR _ _ _
    | exact pres_fault _
    | assumption
    | exact i_multiplication_loop _
    | exact i_addition_loop _
    | exact i_comparison_loop _
    | exact i_equality_loop _
    | exact i_block_loop _ _
    | apply pres_orelse hR
    | apply pres_bind hR
    | apply pres_ite
    | intro _

theorem pres_equality_succ {R : parser → parser → Prop} (hR : StepRel R) (E : Env) (n : Nat)
    (ih : AllPres R E n) : Pres R (equality E (n + 1)) := by
  obtain ⟨i_primary, i_unary, i_multiplication_loop, i_multiplication, i_addition_loop, i_addition, i_comparison_loop, i_comparison, i_equality_loop, i_equality, i_assignment, i_expression, i_var_declaration, i_declaration, i_block_loop, i_block, i_if_statement, i_for_statement, i_while_statement, i_expression_statement, i_statement⟩ := ih
  exact pres_of_eq _ _ (fun s => equality.eq_2 E s n)
    (pres_bind hR _ _ i_comparison i_equality_loop)

theorem pres_assignment_succ {R : parser → parser → Prop} (hR : StepRel R) (E : Env) (n : Nat)
    (ih : AllPres R E n) : Pres R (assignment E (n + 1)) := by
  obtain ⟨i_primary, i_unary, i_multiplication_loop, i_multiplication, i_addition_loop, i_addition, i_comparison_loop, i_comparison, i_equality_loop, i_equality, i_assignment, i_expression, i_var_declaration, i_declaration, i_block_loop, i_block, i_if_statement, i_for_statement, i_while_statement, i_expression_statement, i_statement⟩ := ih
  refine pres_of_eq _ _ (fun s => assignment.eq_2 E s n) ?_
  apply pres_bind hR _ _ i_equality
  intro new_expr
  apply pres_bind hR _ _ (pres_match hR _)
  intro r
  apply pres_ite
  · cases new_expr with
    | null => exact pres_fault _
    | wild => exact pres_fault _
    | ref e =>
      show Pres R (if e.type = some exprtype.EXPR_VARIABLE then _ else _)
      apply pres_ite
      · exact pres_bind hR _ _ i_assignment (fun _ => pres_get_assign_expr hR _ _)
      · exact pres_bind hR _ _ (pres_error hR _) (fun _ => pres_pure hR _)
  · exact pres_pure hR _

theorem pres_expression_succ {R : parser → parser → Prop} (E : Env) (n : Nat)
    (ih : AllPres R E n) : Pres R (expression E (n + 1)) := by
  obtain ⟨i_primary, i_unary, i_multiplication_loop, i_multiplication, i_addition_loop, i_addition, i_comparison_loop, i_comparison, i_equality_loop, i_equality, i_assignment, i_expression, i_var_declaration, i_declaration, i_block_loop, i_block, i_if_statement, i_for_statement, i_while_statement, i_expression_statement, i_statement⟩ := ih
  exact pres_of_eq _ _ (fun s => expression.eq_2 E s n) i_assignment

theorem pres_var_declaration_succ {R : parser → parser → Prop} (hR : StepRel R) (E : Env) (n : Nat)
    (ih : AllPres R E n) : Pres R (var_declaration E (n + 1)) := by
  obtain ⟨i_primary, i_unary, i_multiplication_loop, i_multiplication, i_addition_loop, i_addition, i_comparison_loop, i_comparison, i_equality_loop, i_equality, i_assignment, i_expression, i_var_declaration, i_declaration, i_block_loop, i_block, i_if_statement, i_for_statement, i_while_statement, i_expression_statement, i_statement⟩ := ih
  refine pres_of_eq _ _ (fun s => var_declaration.eq_2 E s n) ?_
  repeat' with_reducible first
    | exact pres_pure hR _
    | exact pres_match hR _
    | exact pres_consume hR _ _
    | exact pres_previous hR
    | exact pres_error hR _
    | exact pres_panicking hR
    | exact pres_synchronize hR
    | exact pres_is_at_end hR
    | exact pres_check hR _
    | exact pres_alloc_stmt hR _
    | exact pres_check_stmt_capacity hR _
    | exact pres_store_slot hR _ _ _
    | exact pres_get_literal_expr hR _ _
    | exact pres_get_variable_expr hR _
    | exact pres_get_binary_expr hR _ _ _
    | exact pres_get_unary_expr hR _ _
    | exact pres_get_grouping_expr hR _
    | exact pres_get_assign_expr hR _ _
    | exact pres_get_expression_statement hR _
    | exact pres_get_variable_statement hR _ _
    | exact pres_get_for_statement hR _ _ _ _
    | exact pres_get_while_statement hR _ _
    | exact pres_get_if_statement hR _ _ _
    | exact pres_fault _
    | assumption
    | exact i_multiplication_loop _
    | exact i_addition_loop _
    | exact i_comparison_loop _
    | exact i_equality_loop _
    | exact i_block_loop _ _
    | apply pres_orelse hR
    | apply pres_bind hR
    | apply pres_ite
    | intro _

theorem pres_declaration_succ {R : parser → parser → Prop} (hR : StepRel R) (E : Env) (n : Nat)
    (ih : AllPres R E n) : Pres R (declaration E (n + 1)) := by
  obtain ⟨i_primary, i_unary, i_multiplication_loop, i_multiplication, i_addition_loop, i_addition, i_comparison_loop, i_comparison, i_equality_loop, i_equality, i_assignment, i_expression, i_var_declaration, i_declaration, i_block_loop, i_block, i_if_statement, i_for_statement, i_while_statement, i_expression_statement, i_statement⟩ := ih
  refine pres_of_eq _ _ (fun s => declaration.eq_2 E s n) ?_
  repeat' with_reducible first
    | exact pres_pure hR _
    | exact pres_match hR _
    | exact pres_consume hR _ _
    | exact pres_previous hR
    | exact pres_error hR _
    | exact pres_panicking hR
    | exact pres_synchronize hR
    | exact pres_is_at_end hR
    | exact pres_check hR _
    | exact pres_alloc_stmt hR _
    | exact pres_check_stmt_capacity hR _
    | exact pres_store_slot hR _ _ _
    | exact pres_get_literal_expr hR _ _
    | exact pres_get_variable_expr hR _
    | exact pres_get_binary_expr hR _ _ _
    | exact pres_get_unary_expr hR _ _
    | exact pres_get_grouping_expr hR _
    | exact pres_get_assign_expr hR _ _
    | exact pres_get_expression_statement hR _
    | exact pres_get_variable_statement hR _ _
    | exact pres_get_for_statement hR _ _ _ _
    | exact pres_get_while_statement hR _ _
    | exact pres_get_if_statement hR _ _ _
    | exact pres_fault _
    | assumption
    | exact i_multiplication_loop _
    | exact i_addition_loop _
    | exact i_comparison_loop _
    | exact i_equality_loop _
    | exact i_block_loop _ _
    | apply pres_orelse hR
    | apply pres_bind hR
    | apply pres_ite
    | intro _

theorem pres_block_loop_succ {R : parser → parser → Prop} (hR : StepRel R) (E : Env) (n : Nat)
    (ih : AllPres R E n) (b : stmt) (i : Nat) : Pres R (block_loop E (n + 1) b i) := by
  obtain ⟨i_primary, i_unary, i_multiplication_loop, i_multiplication, i_addition_loop, i_addition, i_comparison_loop, i_comparison, i_equality_loop, i_equality, i_assignment, i_expression, i_var_declaration, i_declaration, i_block_loop, i_block, i_if_statement, i_for_statement, i_while_statement, i_expression_statement, i_statement⟩ := ih
  refine pres_of_eq _ _ (fun s => block_loop.eq_2 E b i s n) ?_
  repeat' with_reducible first
    | exact pres_pure hR _
    | exact pres_match hR _
    | exact pres_consume hR _ _
    | exact pres_previous hR
    | exact pres_error hR _
    | exact pres_panicking hR
    | exact pres_synchronize hR
    | exact pres_is_at_end hR
    | exact pres_check hR _
    | exact pres_alloc_stmt hR _
    | exact pres_check_stmt_capacity hR _
    | exact pres_store_slot hR _ _ _
    | exact pres_get_literal_expr hR _ _
    | exact pres_get_variable_expr hR _
    | exact pres_get_binary_expr hR _ _ _
    | exact pres_get_unary_expr hR _ _
    | exact pres_get_grouping_expr hR _
    | exact pres_get_assign_expr hR _ _
    | exact pres_get_expression_statement hR _
    | exact pres_get_variable_statement hR _ _
    | exact pres_get_for_statement hR _ _ _ _
    | exact pres_get_while_statement hR _ _
    | exact pres_get_if_statement hR _ _ _
    | exact pres_fault _
    | assumption
    | exact i_multiplication_loop _
    | exact i_addition_loop _
    | exact i_comparison_loop _
    | exact i_equality_loop _
    | exact i_block_loop _ _
    | apply pres_orelse hR
    | apply pres_bind hR
    | apply pres_ite
    | intro _

theorem pres_block_succ {R : parser → parser → Prop} (hR : StepRel R) (E : Env) (n : Nat)
    (ih : AllPres R E n) : Pres R (block E (n + 1)) := by
  obtain ⟨i_primary, i_unary, i_multiplication_loop, i_multiplication, i_addition_loop, i_addition, i_comparison_loop, i_comparison, i_equality_loop, i_equality, i_assignment, i_expression, i_var_declaration, i_declaration, i_block_loop, i_block, i_if_statement, i_for_statement, i_while_statement, i_expression_statement, i_statement⟩ := ih
  refine pres_of_eq _ _ (fun s => block.eq_2 E s n) ?_
  repeat' with_reducible first
    | exact pres_pure hR _
    | exact pres_match hR _
    | exact pres_consume hR _ _
    | exact pres_previous hR
    | exact pres_error hR _
    | exact pres_panicking hR
    | exact pres_synchronize hR
    | exact pres_is_at_end hR
    | exact pres_check hR _
    | exact pres_alloc_stmt hR _
    | exact pres_check_stmt_capacity hR _
    | exact pres_store_slot hR _ _ _
    | exact pres_get_literal_expr hR _ _
    | exact pres_get_variable_expr hR _
    | exact pres_get_binary_expr hR _ _ _
    | exact pres_get_unary_expr hR _ _
    | exact pres_get_grouping_expr hR _
    | exact pres_get_assign_expr hR _ _
    | exact pres_get_expression_statement hR _
    | exact pres_get_variable_statement hR _ _
    | exact pres_get_for_statement hR _ _ _ _
    | exact pres_get_while_statement hR _ _
    | exact pres_get_if_statement hR _ _ _
    | exact pres_fault _
    | assumption
    | exact i_multiplication_loop _
    | exact i_addition_loop _
    | exact i_comparison_loop _
    | exact i_equality_loop _
    | exact i_block_loop _ _
    | apply pres_orelse hR
    | apply pres_bind hR
    | apply pres_ite
    | intro _

theorem pres_if_statement_succ {R : parser → parser → Prop} (hR : StepRel R) (E : Env) (n : Nat)
    (ih : AllPres R E n) : Pres R (if_statement E (n + 1)) := by
  obtain ⟨i_primary, i_unary, i_multiplication_loop, i_multiplication, i_addition_loop, i_addition, i_comparison_loop, i_comparison, i_equality_loop, i_equality, i_assignment, i_expression, i_var_declaration, i_declaration, i_block_loop, i_block, i_if_statement, i_for_statement, i_while_statement, i_expression_statement, i_statement⟩ := ih
  refine pres_of_eq _ _ (fun s => if_statement.eq_2 E s n) ?_
  repeat' with_reducible first
    | exact pres_pure hR _
    | exact pres_match hR _
    | exact pres_consume hR _ _
    | exact pres_previous hR
    | exact pres_error hR _
    | exact pres_panicking hR
    | exact pres_synchronize hR
    | exact pres_is_at_end hR
    | exact pres_check hR _
    | exact pres_alloc_stmt hR _
    | exact pres_check_stmt_capacity hR _
    | exact pres_store_slot hR _ _ _
    | exact pres_get_literal_expr hR _ _
    | exact pres_get_variable_expr hR _
    | exact pres_get_binary_expr hR _ _ _
    | exact pres_get_unary_expr hR _ _
    | exact pres_get_grouping_expr hR _
    | exact pres_get_assign_expr hR _ _
    | exact pres_get_expression_statement hR _
    | exact pres_get_variable_statement hR _ _
    | exact pres_get_for_statement hR _ _ _ _
    | exact pres_get_while_statement hR _ _
    | exact pres_get_if_statement hR _ _ _
    | exact pres_fault _
    | assumption
    | exact i_multiplication_loop _
    | exact i_addition_loop _
    | exact i_comparison_loop _
    | exact i_equality_loop _
    | exact i_block_loop _ _
    | apply pres_orelse hR
    | apply pres_bind hR
    | apply pres_ite
    | intro _

theorem pres_for_statement_succ {R : parser → parser → Prop} (hR : StepRel R) (E : Env) (n : Nat)
    (ih : AllPres R E n) : Pres R (for_statement E (n + 1)) := by
  obtain ⟨i_primary, i_unary, i_multiplication_loop, i_multiplication, i_addition_loop, i_addition, i_comparison_loop, i_comparison, i_equality_loop, i_equality, i_assignment, i_expression, i_var_declaration, i_declaration, i_block_loop, i_block, i_if_statement, i_for_statement, i_while_statement, i_expression_statement, i_statement⟩ := ih
  refine pres_of_eq _ _ (fun s => for_statement.eq_2 E s n) ?_
  repeat' with_reducible first
    | exact pres_pure hR _
    | exact pres_match hR _
    | exact pres_consume hR _ _
    | exact pres_previous hR
    | exact pres_error hR _
    | exact pres_panicking hR
    | exact pres_synchronize hR
    | exact pres_is_at_end hR
    | exact pres_check hR _
    | exact pres_alloc_stmt hR _
    | exact pres_check_stmt_capacity hR _
    | exact pres_store_slot hR _ _ _
    | exact pres_get_literal_expr hR _ _
    | exact pres_get_variable_expr hR _
    | exact pres_get_binary_expr hR _ _ _
    | exact pres_get_unary_expr hR _ _
    | exact pres_get_grouping_expr hR _
    | exact pres_get_assign_expr hR _ _
    | exact pres_get_expression_statement hR _
    | exact pres_get_variable_statement hR _ _
    | exact pres_get_for_statement hR _ _ _ _
    | exact pres_get_while_statement hR _ _
    | exact pres_get_if_statement hR _ _ _
    | exact pres_fault _
    | assumption
    | exact i_multiplication_loop _
    | exact i_addition_loop _
    | exact i_comparison_loop _
    | exact i_equality_loop _
    | exact i_block_loop _ _
    | apply pres_orelse hR
    | apply pres_bind hR
    | apply pres_ite
    | intro _

theorem pres_while_statement_succ {R : parser → parser → Prop} (hR : StepRel R) (E : Env) (n : Nat)
    (ih : AllPres R E n) : Pres R (while_statement E (n + 1)) := by
  obtain ⟨i_primary, i_unary, i_multiplication_loop, i_multiplication, i_addition_loop, i_addition, i_comparison_loop, i_comparison, i_equality_loop, i_equality, i_assignment, i_expression, i_var_declaration, i_declaration, i_block_loop, i_block, i_if_statement, i_for_statement, i_while_statement, i_expression_statement, i_statement⟩ := ih
  refine pres_of_eq _ _ (fun s => while_statement.eq_2 E s n) ?_
  repeat' with_reducible first
    | exact pres_pure hR _
    | exact pres_match hR _
    | exact pres_consume hR _ _
    | exact pres_previous hR
    | exact pres_error hR _
    | exact pres_panicking hR
    | exact pres_synchronize hR
    | exact pres_is_at_end hR
    | exact pres_check hR _
    | exact pres_alloc_stmt hR _
    | exact pres_check_stmt_capacity hR _
    | exact pres_store_slot hR _ _ _
    | exact pres_get_literal_expr hR _ _
    | exact pres_get_variable_expr hR _
    | exact pres_get_binary_expr hR _ _ _
    | exact pres_get_unary_expr hR _ _
    | exact pres_get_grouping_expr hR _
    | exact pres_get_assign_expr hR _ _
    | exact pres_get_expression_statement hR _
    | exact pres_get_variable_statement hR _ _
    | exact pres_get_for_statement hR _ _ _ _
    | exact pres_get_while_statement hR _ _
    | exact pres_get_if_statement hR _ _ _
    | exact pres_fault _
    | assumption
    | exact i_multiplication_loop _
    | exact i_addition_loop _
    | exact i_comparison_loop _
    | exact i_equality_loop _
    | exact i_block_loop _ _
    | apply pres_orelse hR
    | apply pres_bind hR
    | apply pres_ite
    | intro _

theorem pres_expression_statement_succ {R : parser → parser → Prop} (hR : StepRel R) (E : Env) (n : Nat)
    (ih : AllPres R E n) : Pres R (expression_statement E (n + 1)) := by
  obtain ⟨i_primary, i_unary, i_multiplication_loop, i_multiplication, i_addition_loop, i_addition, i_comparison_loop, i_comparison, i_equality_loop, i_equality, i_assignment, i_expression, i_var_declaration, i_declaration, i_block_loop, i_block, i_if_statement, i_for_statement, i_while_statement, i_expression_statement, i_statement⟩ := ih
  refine pres_of_eq _ _ (fun s => expression_statement.eq_2 E s n) ?_
  repeat' with_reducible first
    | exact pres_pure hR _
    | exact pres_match hR _
    | exact pres_consume hR _ _
    | exact pres_previous hR
    | exact pres_error hR _
    | exact pres_panicking hR
    | exact pres_synchronize hR
    | exact pres_is_at_end hR
    | exact pres_check hR _
    | exact pres_alloc_stmt hR _
    | exact pres_check_stmt_capacity hR _
    | exact pres_store_slot hR _ _ _
    | exact pres_get_literal_expr hR _ _
    | exact pres_get_variable_expr hR _
    | exact pres_get_binary_expr hR _ _ _
    | exact pres_get_unary_expr hR _ _
    | exact pres_get_grouping_expr hR _
    | exact pres_get_assign_expr hR _ _
    | exact pres_get_expression_statement hR _
    | exact pres_get_variable_statement hR _ _
    | exact pres_get_for_statement hR _ _ _ _
    | exact pres_get_while_statement hR _ _
    | exact pres_get_if_statement hR _ _ _
    | exact pres_fault _
    | assumption
    | exact i_multiplication_loop _
    | exact i_addition_loop _
    | exact i_comparison_loop _
    | exact i_equality_loop _
    | exact i_block_loop _ _
    | apply pres_orelse hR
    | apply pres_bind hR
    | apply pres_ite
    | intro _

theorem pres_statement_succ {R : parser → parser → Prop} (hR : StepRel R) (E : Env) (n : Nat)
    (ih : AllPres R E n) : Pres R (statement E (n + 1)) := by
  obtain ⟨i_primary, i_unary, i_multiplication_loop, i_multiplication, i_addition_loop, i_addition, i_comparison_loop, i_comparison, i_equality_loop, i_equality, i_assignment, i_expression, i_var_declaration, i_declaration, i_block_loop, i_block, i_if_statement, i_for_statement, i_while_statement, i_expression_statement, i_statement⟩ := ih
  refine pres_of_eq _ _ (fun s => statement.eq_2 E s n) ?_
  repeat' with_reducible first
    | exact pres_pure hR _
    | exact pres_match hR _
    | exact pres_consume hR _ _
    | exact pres_previous hR
    | exact pres_error hR _
    | exact pres_panicking hR
    | exact pres_synchronize hR
    | exact pres_is_at_end hR
    | exact pres_check hR _
    | exact pres_alloc_stmt hR _
    | exact pres_check_stmt_capacity hR _
    | exact pres_store_slot hR _ _ _
    | exact pres_get_literal_expr hR _ _
    | exact pres_get_variable_expr hR _
    | exact pres_get_binary_expr hR _ _ _
    | exact pres_get_unary_expr hR _ _
    | exact pres_get_grouping_expr hR _
    | exact pres_get_assign_expr hR _ _
    | exact pres_get_expression_statement hR _
    | exact pres_get_variable_statement hR _ _
    | exact pres_get_for_statement hR _ _ _ _
    | exact pres_get_while_statement hR _ _
    | exact pres_get_if_statement hR _ _ _
    | exact pres_fault _
    | assumption
    | exact i_multiplication_loop _
    | exact i_addition_loop _
    | exact i_comparison_loop _
    | exact i_equality_loop _
    | exact i_block_loop _ _
    | apply pres_orelse hR
    | apply pres_bind hR
    | apply pres_ite
    | intro _

theorem all_pres_succ {R : parser → parser → Prop} (hR : StepRel R) (E : Env) (n : Nat)
    (ih : AllPres R E n) : AllPres R E (n + 1) :=
  ⟨pres_primary_succ hR E n ih,
    pres_unary_succ hR E n ih,
    fun e => pres_multiplication_loop_succ hR E n ih e,
    pres_multiplication_succ hR E n ih,
    fun e => pres_addition_loop_succ hR E n ih e,
    pres_addition_succ hR E n ih,
    fun e => pres_comparison_loop_succ hR E n ih e,
    pres_comparison_succ hR E n ih,
    fun e => pres_equality_loop_succ hR E n ih e,
    pres_equality_succ hR E n ih,
    pres_assignment_succ hR E n ih,
    pres_expression_succ E n ih,
    pres_var_declaration_succ hR E n ih,
    pres_declaration_succ hR E n ih,
    fun b i => pres_block_loop_succ hR E n ih b i,
    pres_block_succ hR E n ih,
    pres_if_statement_succ hR E n ih,
    pres_for_statement_succ hR E n ih,
    pres_while_statement_succ hR E n ih,
    pres_expression_statement_succ hR E n ih,
    pres_statement_succ hR E n ih⟩

/-- Every grammar function keeps a relation that its elementary steps keep. -/
theorem all_pres {R : parser → parser → Prop} (hR : StepRel R) (E : Env) :
    ∀ n, AllPres R E n := by
  intro n
  induction n with
  | zero => exact all_pres_zero E
  | succ n ih => exact all_pres_succ hR E n ih

/-! ## The error flag -/

theorem flag_rel_quiet (s s1 : parser) (h1 : s1.errcalls = s.errcalls)
    (h2 : s1.panicmode = s.panicmode) (h3 : s1.haderror = s.haderror) : flag_rel s s1 := by
  unfold flag_rel
  rw [h1, h2, h3]
  simp

theorem flag_rel_step : StepRel flag_rel where
  refl := fun s => flag_rel_quiet s s rfl rfl rfl
  trans := by
    intro a b c hab hbc
    unfold flag_rel at *
    refine ⟨le_trans hab.1 hbc.1, ?_⟩
    intro ha
    obtain ⟨hb, hab2⟩ := hab.2 ha
    obtain ⟨hc, hbc2⟩ := hbc.2 hb
    refine ⟨hc, ?_⟩
    rw [hbc2, hab2]
    have h1 := hab.1
    have h2 := hbc.1
    constructor
    · rintro (h | h)
      · rcases h with h | h
        · exact Or.inl h
        · exact Or.inr (by omega)
      · exact Or.inr (by omega)
    · rintro (h | h)
      · exact Or.inl (Or.inl h)
      · by_cases h3 : a.errcalls < b.errcalls
        · exact Or.inl (Or.inr h3)
        · exact Or.inr (by omega)
  advance := fun s t _ _ => flag_rel_quiet s _ rfl rfl rfl
  error := by
    intro s t
    unfold flag_rel error_state
    by_cases hp : s.panicmode = true
    · simp [hp]
    · simp [hp]
  alloc := fun s => flag_rel_quiet s _ rfl rfl rfl
  calm := by
    intro s
    unfold flag_rel
    simp

theorem flag_kept_step : StepRel flag_kept where
  refl := fun s h => h
  trans := fun a b c hab hbc h => hbc (hab h)
  advance := fun s t _ _ h => h
  error := by
    intro s t h
    unfold error_state
    by_cases hp : s.panicmode = true <;> simp [hp, h]
  alloc := fun s h => h
  calm := fun s h => h

theorem pres_quiet {R : parser → parser → Prop} (f : parser → parser)
    (h : ∀ s, R s (f s)) : Pres R (fun s => (.ok () (f s) : Res Unit)) := by
  intro s a s1 h1
  simp only [Res.ok.injEq] at h1
  rw [← h1.2]
  exact h s

theorem pres_grow_statements {R : parser → parser → Prop} (E : Env)
    (h : ∀ s, R s (grown E s)) : Pres R (grow_statements E) := by
  intro s a s1 h1
  rw [grow_statements_eq] at h1
  simp only [Res.ok.injEq] at h1
  rw [← h1.2]
  exact h s

theorem pres_store_statement {R : parser → parser → Prop} (i : Nat) (d : Ptr stmt)
    (h : ∀ (s : parser) (l : Ptr (List (Ptr stmt))), R s { s with statements := l }) :
    Pres R (store_statement i d) := by
  intro s a s1 h1
  unfold store_statement at h1
  split at h1
  · exact absurd h1 (by simp)
  · exact absurd h1 (by simp)
  · split at h1 <;> (simp only [Res.ok.injEq] at h1; rw [← h1.2]; exact h s _)

/-- The loop of `parse` keeps a relation that the elementary steps of the
grammar functions keep and that ignores the statement array. -/
theorem pres_parse_loop {R : parser → parser → Prop} (hR : StepRel R) (E : Env)
    (hgrow : ∀ s, R s (grown E s))
    (hstore : ∀ (s : parser) (l : Ptr (List (Ptr stmt))), R s { s with statements := l })
    (hnum : ∀ s : parser, R s { s with num_statements := s.num_statements + 1 }) :
    ∀ n i, Pres R (parse_loop E n i) := by
  intro n
  induction n with
  | zero => intro i s a s1 h; exact absurd h (by simp [parse_loop])
  | succ n ih =>
    intro i
    refine pres_of_eq _ _ (fun s => parse_loop.eq_2 E i s n) ?_
    have hd : Pres R (declaration E n) := (all_pres hR E n).2.2.2.2.2.2.2.2.2.2.2.2.2.1
    apply pres_bind hR _ _ (pres_is_at_end hR)
    intro r
    apply pres_ite
    · apply pres_bind hR _ _ (pres_grow_statements E hgrow)
      intro _
      apply pres_bind hR _ _ hd
      intro d
      apply pres_bind hR _ _ (pres_store_statement i d hstore)
      intro _
      apply pres_bind hR _ _ (pres_quiet _ hnum)
      intro _
      apply pres_bind hR
      · apply pres_bind hR _ _ (pres_panicking hR)
        intro p
        exact pres_ite _ _ _ (pres_synchronize hR) (pres_pure hR _)
      · intro _
        exact ih i
    · exact pres_pure hR _

theorem pres_flag_parse_loop (E : Env) (n i : Nat) : Pres flag_rel (parse_loop E n i) :=
  pres_parse_loop flag_rel_step E (fun s => flag_rel_quiet s _ rfl rfl rfl)
    (fun s _ => flag_rel_quiet s _ rfl rfl rfl) (fun s => flag_rel_quiet s _ rfl rfl rfl) n i

theorem pres_kept_parse_loop (E : Env) (n i : Nat) : Pres flag_kept (parse_loop E n i) :=
  pres_parse_loop flag_kept_step E (fun _ h => h) (fun _ _ h => h) (fun _ h => h) n i

/-- What `parse` returns on a fresh parser, in terms of the loop. -/
theorem parse_result (E : Env) (fuel : Nat) (toks : List token) (s0 : parser) (b : Bool)
    (s1 : parser) (h : parse E fuel toks (parser_init s0) = .ok b s1) :
    parse_loop E fuel 0 (start_state E toks s0) = .ok () s1 ∧ b = s1.haderror := by
  rw [parse_eq] at h
  cases hl : parse_loop E fuel 0 (start_state E toks s0) with
  | ok a s2 =>
    rw [hl, Res.bind_ok, bind_apply, is_at_end_eq] at h
    split at h
    · exact absurd h (by simp)
    · simp only [Res.bind_ok, Res.ok.injEq] at h
      obtain ⟨h1, h2⟩ := h
      subst h2
      exact ⟨rfl, h1.symm⟩
  | fault f => rw [hl] at h; exact absurd h (by simp)
  | timeout => rw [hl] at h; exact absurd h (by simp)

theorem parse_flag (E : Env) (fuel : Nat) (toks : List token) (s0 : parser) (b : Bool)
    (s1 : parser) (h : parse E fuel toks (parser_init s0) = .ok b s1) :
    (b = true ↔ s0.errcalls < s1.errcalls) ∧ b = s1.haderror := by
  obtain ⟨hl, hb⟩ := parse_result E fuel toks s0 b s1 h
  have hrel := pres_flag_parse_loop E fuel 0 _ _ _ hl
  unfold flag_rel at hrel
  obtain ⟨_, h2⟩ := hrel.2 (by simp)
  simp only [start_haderror, start_errcalls, Bool.false_eq_true, false_or] at h2
  exact ⟨by rw [hb]; exact h2, hb⟩

/-! ## The parser on particular inputs -/

set_option maxHeartbeats 4000000 in
set_option maxRecDepth 10000 in
theorem eval_invalid_target (E : Env) (s0 : parser) (n : Nat) :
    ∃ s1 : parser,
      parse E (n + 14) invalid_target_tokens (parser_init s0) = .ok true s1
        ∧ s1.stderr = s0.stderr ++ [⟨1, .at_lexeme "="⟩, ⟨1, .at_lexeme "2"⟩]
        ∧ s1.errcalls = s0.errcalls + 3
        ∧ s1.statements = .ref [.ref (ExprStmt .null)] ∧ s1.num_statements = 2 := by
  rw [parse_eq]
  simp [invalid_target_tokens, parse_loop.eq_2, declaration.eq_2, statement.eq_2,
    expression_statement.eq_2, expression.eq_2, assignment.eq_2, for_statement.eq_2,
    var_declaration.eq_2, block.eq_2, block_loop.eq_2, equality.eq_2, equality_loop.eq_2,
    comparison.eq_2, comparison_loop.eq_2, addition.eq_2, addition_loop.eq_2,
    multiplication.eq_2, multiplication_loop.eq_2, unary.eq_2, primary.eq_2, match_eq,
    consume_eq, check_eq, error_eq, orelse_eq, is_at_end_eq, error_state, synchronize,
    synchronize_loop, tok, get_literal_expr_eq, get_expression_statement_eq,
    get_variable_expr_eq, get_binary_expr_eq, get_assign_expr_eq, get_for_statement_eq,
    get_variable_statement_eq, alloc_stmt_eq, store_statement, grow_statements_eq, panicking,
    previous, take_string, peek, advance_eq]

set_option maxHeartbeats 4000000 in
set_option maxRecDepth 10000 in
theorem eval_recovery (E : Env) (s0 : parser) (n : Nat) :
    ∃ s1 : parser,
      parse E (n + 14) recovery_tokens (parser_init s0) = .ok true s1
        ∧ s1.stderr = s0.stderr ++ [⟨1, .at_lexeme ";"⟩]
        ∧ s1.num_statements = 2
        ∧ s1.statements = .ref [.ref (VarStmt (.ref (tok TOKEN_IDENTIFIER "x"))
            (.ref (ExprStmt (.ref (Literal .EXPR_LITERAL_NUMBER "1")))))] := by
  rw [parse_eq]
  simp [recovery_tokens, parse_loop.eq_2, declaration.eq_2, statement.eq_2,
    expression_statement.eq_2, expression.eq_2, assignment.eq_2, for_statement.eq_2,
    var_declaration.eq_2, block.eq_2, block_loop.eq_2, equality.eq_2, equality_loop.eq_2,
    comparison.eq_2, comparison_loop.eq_2, addition.eq_2, addition_loop.eq_2,
    multiplication.eq_2, multiplication_loop.eq_2, unary.eq_2, primary.eq_2, match_eq,
    consume_eq, check_eq, error_eq, orelse_eq, is_at_end_eq, error_state, synchronize,
    synchronize_loop, tok, get_literal_expr_eq, get_expression_statement_eq,
    get_variable_expr_eq, get_binary_expr_eq, get_assign_expr_eq, get_for_statement_eq,
    get_variable_statement_eq, alloc_stmt_eq, store_statement, grow_statements_eq, panicking,
    previous, take_string, peek, advance_eq]

set_option maxHeartbeats 4000000 in
set_option maxRecDepth 10000 in
theorem eval_return (E : Env) (s0 : parser) (fuel : Nat) :
    parse E fuel return_tokens (parser_init s0) = .timeout := by
  rw [parse_eq]
  have hstuck := parse_loop_stuck E (tok TOKEN_RETURN "return") (tok TOKEN_SEMICOLON ";")
    (by decide)
  rcases fuel with _ | _ | _ | n
  · rfl
  · simp [return_tokens, parse_loop.eq_2, declaration.eq_2, statement.eq_2,
    expression_statement.eq_2, expression.eq_2, assignment.eq_2, for_statement.eq_2,
    var_declaration.eq_2, block.eq_2, block_loop.eq_2, equality.eq_2, equality_loop.eq_2,
    comparison.eq_2, comparison_loop.eq_2, addition.eq_2, addition_loop.eq_2,
    multiplication.eq_2, multiplication_loop.eq_2, unary.eq_2, primary.eq_2, match_eq,
    consume_eq, check_eq, error_eq, orelse_eq, is_at_end_eq, error_state, synchronize,
    synchronize_loop, tok, get_literal_expr_eq, get_expression_statement_eq,
    get_variable_expr_eq, get_binary_expr_eq, get_assign_expr_eq, get_for_statement_eq,
    get_variable_statement_eq, alloc_stmt_eq, store_statement, grow_statements_eq, panicking,
    previous, take_string, peek, advance_eq, declaration.eq_1]
  · simp [return_tokens, parse_loop.eq_2, declaration.eq_2, statement.eq_2,
    expression_statement.eq_2, expression.eq_2, assignment.eq_2, for_statement.eq_2,
    var_declaration.eq_2, block.eq_2, block_loop.eq_2, equality.eq_2, equality_loop.eq_2,
    comparison.eq_2, comparison_loop.eq_2, addition.eq_2, addition_loop.eq_2,
    multiplication.eq_2, multiplication_loop.eq_2, unary.eq_2, primary.eq_2, match_eq,
    consume_eq, check_eq, error_eq, orelse_eq, is_at_end_eq, error_state, synchronize,
    synchronize_loop, tok, get_literal_expr_eq, get_expression_statement_eq,
    get_variable_expr_eq, get_binary_expr_eq, get_assign_expr_eq, get_for_statement_eq,
    get_variable_statement_eq, alloc_stmt_eq, store_statement, grow_statements_eq, panicking,
    previous, take_string, peek, advance_eq, var_declaration.eq_1]
  · rw [parse_loop.eq_2]
    simp [return_tokens, declaration.eq_2, statement.eq_2,
    expression_statement.eq_2, expression.eq_2, assignment.eq_2, for_statement.eq_2,
    var_declaration.eq_2, block.eq_2, block_loop.eq_2, equality.eq_2, equality_loop.eq_2,
    comparison.eq_2, comparison_loop.eq_2, addition.eq_2, addition_loop.eq_2,
    multiplication.eq_2, multiplication_loop.eq_2, unary.eq_2, primary.eq_2, match_eq,
    consume_eq, check_eq, error_eq, orelse_eq, is_at_end_eq, error_state, synchronize,
    synchronize_loop, tok, get_literal_expr_eq, get_expression_statement_eq,
    get_variable_expr_eq, get_binary_expr_eq, get_assign_expr_eq, get_for_statement_eq,
    get_variable_statement_eq, alloc_stmt_eq, store_statement, grow_statements_eq, panicking,
    previous, take_string, peek, advance_eq]
    rw [hstuck]
    · rfl
    · rfl
    · simp
    · rfl
    · rfl
    · exact ⟨_, rfl⟩

set_option maxHeartbeats 4000000 in
set_option maxRecDepth 10000 in
theorem eval_for (n : Nat) :
    parse Env.zeroed (n + 20) for_tokens (parser_init parser.blank)
      = .ok true
          { tokens := for_tokens, statements := .ref [.ref (ExprStmt increment_expr)],
            num_statements := 4, capacity := 8, current := 19, num_tokens := 0,
            panicmode := false, haderror := true,
            stderr := [⟨1, .at_lexeme "("⟩, ⟨1, .at_lexeme ")"⟩], errcalls := 10,
            allocs := 19 } := by
  rw [parse_eq]
  simp [for_tokens, increment_expr, Env.zeroed, parser.blank, start_state, parser_init, grown,
    parse_loop.eq_2, declaration.eq_2, statement.eq_2,
    expression_statement.eq_2, expression.eq_2, assignment.eq_2, for_statement.eq_2,
    var_declaration.eq_2, block.eq_2, block_loop.eq_2, equality.eq_2, equality_loop.eq_2,
    comparison.eq_2, comparison_loop.eq_2, addition.eq_2, addition_loop.eq_2,
    multiplication.eq_2, multiplication_loop.eq_2, unary.eq_2, primary.eq_2, match_eq,
    consume_eq, check_eq, error_eq, orelse_eq, is_at_end_eq, error_state, synchronize,
    synchronize_loop, tok, get_literal_expr_eq, get_expression_statement_eq,
    get_variable_expr_eq, get_binary_expr_eq, get_assign_expr_eq, get_for_statement_eq,
    get_variable_statement_eq, alloc_stmt_eq, store_statement, grow_statements_eq, panicking,
    previous, take_string, peek, advance_eq]

set_option maxHeartbeats 4000000 in
set_option maxRecDepth 10000 in
theorem eval_for_general (E : Env) (s0 : parser) (n : Nat) :
    ∃ s1 : parser,
      parse E (n + 20) for_tokens (parser_init s0) = .ok true s1
        ∧ s1.num_statements = 4
        ∧ s1.statements = .ref [.ref (ExprStmt increment_expr)]
        ∧ s1.stderr = s0.stderr ++ [⟨1, .at_lexeme "("⟩, ⟨1, .at_lexeme ")"⟩] := by
  rw [parse_eq]
  simp [for_tokens, increment_expr, parse_loop.eq_2, declaration.eq_2, statement.eq_2,
    expression_statement.eq_2, expression.eq_2, assignment.eq_2, for_statement.eq_2,
    var_declaration.eq_2, block.eq_2, block_loop.eq_2, equality.eq_2, equality_loop.eq_2,
    comparison.eq_2, comparison_loop.eq_2, addition.eq_2, addition_loop.eq_2,
    multiplication.eq_2, multiplication_loop.eq_2, unary.eq_2, primary.eq_2, match_eq,
    consume_eq, check_eq, error_eq, orelse_eq, is_at_end_eq, error_state, synchronize,
    synchronize_loop, tok, get_literal_expr_eq, get_expression_statement_eq,
    get_variable_expr_eq, get_binary_expr_eq, get_assign_expr_eq, get_for_statement_eq,
    get_variable_statement_eq, alloc_stmt_eq, store_statement, grow_statements_eq, panicking,
    previous, take_string, peek, advance_eq]

set_option maxHeartbeats 4000000 in
set_option maxRecDepth 10000 in
theorem eval_for_statement (E : Env) (s0 : parser) (n : Nat) :
    ∃ (s1 : parser) (body : stmt),
      parse E (n + 20) for_statement_tokens (parser_init s0) = .ok false s1
        ∧ s1.num_statements = 1
        ∧ s1.statements = .ref [.ref (ForStmt (.ref (ExprStmt init_expr_i))
            (.ref (ExprStmt condition_expr)) (.ref (ExprStmt increment_expr)) (.ref body))]
        ∧ body.type = some .STMT_BLOCK
        ∧ s1.stderr = s0.stderr ∧ s1.errcalls = s0.errcalls := by
  rw [parse_eq]
  simp [for_statement_tokens, increment_expr, condition_expr, init_expr_i, parse_loop.eq_2, declaration.eq_2, statement.eq_2,
    expression_statement.eq_2, expression.eq_2, assignment.eq_2, for_statement.eq_2,
    var_declaration.eq_2, block.eq_2, block_loop.eq_2, equality.eq_2, equality_loop.eq_2,
    comparison.eq_2, comparison_loop.eq_2, addition.eq_2, addition_loop.eq_2,
    multiplication.eq_2, multiplication_loop.eq_2, unary.eq_2, primary.eq_2, match_eq,
    consume_eq, check_eq, error_eq, orelse_eq, is_at_end_eq, error_state, synchronize,
    synchronize_loop, tok, get_literal_expr_eq, get_expression_statement_eq,
    get_variable_expr_eq, get_binary_expr_eq, get_assign_expr_eq, get_for_statement_eq,
    get_variable_statement_eq, alloc_stmt_eq, store_statement, grow_statements_eq, panicking,
    previous, take_string, peek, advance_eq]
  exact ⟨_, rfl, rfl⟩

set_option maxHeartbeats 4000000 in
set_option maxRecDepth 10000 in
theorem eval_empty_block (E : Env) (s0 : parser) (n : Nat) :
    ∃ s1 : parser,
      parse E (n + 6) empty_block_tokens (parser_init s0) = .ok false s1
        ∧ s1.num_statements = 1
        ∧ s1.statements
            = .ref [.ref { (E.raw_stmt s0.allocs) with type := some .STMT_BLOCK }]
        ∧ s1.stderr = s0.stderr ∧ s1.errcalls = s0.errcalls := by
  rw [parse_eq]
  simp [empty_block_tokens, parse_loop.eq_2, declaration.eq_2, statement.eq_2,
    expression_statement.eq_2, expression.eq_2, assignment.eq_2, for_statement.eq_2,
    var_declaration.eq_2, block.eq_2, block_loop.eq_2, equality.eq_2, equality_loop.eq_2,
    comparison.eq_2, comparison_loop.eq_2, addition.eq_2, addition_loop.eq_2,
    multiplication.eq_2, multiplication_loop.eq_2, unary.eq_2, primary.eq_2, match_eq,
    consume_eq, check_eq, error_eq, orelse_eq, is_at_end_eq, error_state, synchronize,
    synchronize_loop, tok, get_literal_expr_eq, get_expression_statement_eq,
    get_variable_expr_eq, get_binary_expr_eq, get_assign_expr_eq, get_for_statement_eq,
    get_variable_statement_eq, alloc_stmt_eq, store_statement, grow_statements_eq, panicking,
    previous, take_string, peek, advance_eq]

/-! ## The loop of `block` on a token that nothing consumes -/

theorem declaration_dead_any (E : Env) (s : parser) (t t1 : token)
    (h : s.tokens[s.current]? = some t) (ht : t.type ∈ dead_types)
    (hc : s.current ≠ 0) (hp : s.tokens[s.current - 1]? = some t1) (n : Nat) :
    declaration E n s = .timeout ∨
      ∃ d s1, declaration E n s = .ok d s1 ∧ s1.tokens = s.tokens ∧ s1.current = s.current := by
  by_cases hpanic : s.panicmode = false
  · rcases declaration_dead E s t t1 h ht hc hp hpanic n with hd | hd
    · exact Or.inl hd
    · exact Or.inr ⟨_, _, hd, by simp, by simp⟩
  · have hpt : s.panicmode = true := by simpa using hpanic
    cases n with
    | zero => exact Or.inl rfl
    | succ n =>
      have hstop : t.type ∈ [TOKEN_EOF, TOKEN_SEMICOLON, TOKEN_CLASS, TOKEN_FUN, TOKEN_VAR,
          TOKEN_IF, TOKEN_WHILE, TOKEN_RETURN] := by
        simp [dead_types] at ht
        rcases ht with h1 | h1 | h1 <;> simp [h1]
      have h7 : t.type ≠ TOKEN_VAR := (dead_not t ht).2.2.2.2.2.2.1
      have hstep : declaration E (n + 1) s = statement E n { s with panicmode := false } := by
        simp [declaration.eq_2, match_eq, h, h7, panicking, hpt, synchronize_stop s t h hstop]
      rw [hstep]
      cases n with
      | zero => exact Or.inl rfl
      | succ n =>
        have hd := declaration_dead E { s with panicmode := false } t t1 h ht hc hp rfl (n + 2)
        rw [declaration_pass E (n + 1) { s with panicmode := false } t h h7 rfl] at hd
        rcases hd with hd | hd
        · exact Or.inl hd
        · exact Or.inr ⟨_, _, hd, by simp, by simp⟩

theorem check_stmt_capacity_state (b g : stmt) (s s1 : parser)
    (h : check_stmt_capacity b s = .ok g s1) : s1 = s := by
  unfold check_stmt_capacity at h
  split at h
  · simp only [bind_apply] at h
    unfold realloc_slots at h
    split at h
    · exact absurd h (by simp)
    · split at h <;> (simp only [Res.bind_ok, pure_apply, Res.ok.injEq] at h; exact h.2.symm)
    · split at h <;> (simp only [Res.bind_ok, pure_apply, Res.ok.injEq] at h; exact h.2.symm)
  · simp only [pure_apply, Res.ok.injEq] at h
    exact h.2.symm

theorem store_slot_state (b g : stmt) (i : Nat) (d : Ptr stmt) (s s1 : parser)
    (h : store_slot b i d s = .ok g s1) : s1 = s := by
  unfold store_slot at h
  split at h
  · exact absurd h (by simp)
  · exact absurd h (by simp)
  · split at h
    · simp only [Res.ok.injEq] at h; exact h.2.symm
    · exact absurd h (by simp)

/-- Once the loop of `block` stands on `class`, `fun` or `return`, it does not
return: it runs out of every budget or stops in undefined behaviour. -/
theorem block_loop_stuck (E : Env) (t t1 : token) (ht : t.type ∈ dead_types) :
    ∀ (n : Nat) (b : stmt) (i : Nat) (s : parser), s.tokens[s.current]? = some t →
      s.current ≠ 0 → s.tokens[s.current - 1]? = some t1 →
      ∀ (r : stmt) (s1 : parser), block_loop E n b i s ≠ .ok r s1 := by
  intro n
  induction n with
  | zero => intro b i s _ _ _ r s1 h; exact absurd h (by simp [block_loop])
  | succ n ih =>
    intro b i s h hc hp r s1 hret
    have hne : t.type ≠ TOKEN_EOF := (dead_not t ht).2.2.2.2.2.2.2.2
    have hrb : t.type ≠ TOKEN_RIGHT_BRACE := by
      simp [dead_types] at ht
      rcases ht with h1 | h1 | h1 <;> simp [h1]
    have h2 : (t.type == TOKEN_EOF) = false := by simpa using hne
    simp only [block_loop.eq_2, bind_apply, check_eq, is_at_end_eq, h, hrb, hne, false_and,
      decide_False, Res.bind_ok, Bool.false_eq_true, ↓reduceIte, pure_apply, h2,
      Bool.not_false] at hret
    cases hg : check_stmt_capacity b s with
    | fault f => rw [hg] at hret; exact absurd hret (by simp)
    | timeout => rw [hg] at hret; exact absurd hret (by simp)
    | ok g s2 =>
      have hs2 := check_stmt_capacity_state b g s s2 hg
      subst hs2
      rw [hg, Res.bind_ok, bind_apply] at hret
      rcases declaration_dead_any E s2 t t1 h ht hc hp n with hd | ⟨d, s3, hd, htok, hcur⟩
      · rw [hd] at hret; exact absurd hret (by simp)
      · rw [hd, Res.bind_ok, bind_apply] at hret
        cases hst : store_slot g i d s3 with
        | fault f => rw [hst] at hret; exact absurd hret (by simp)
        | timeout => rw [hst] at hret; exact absurd hret (by simp)
        | ok st s4 =>
          have hs4 := store_slot_state g st i d s3 s4 hst
          subst hs4
          rw [hst, Res.bind_ok] at hret
          exact ih _ _ s4 (by rw [htok, hcur]; exact h) (by rw [hcur]; exact hc)
            (by rw [htok, hcur]; exact hp) r s1 hret

/-! ## Claims -/

/-- C1 (precedence). For primary operands `a`, `b`, `c`, an additive operator
`o1` and a multiplicative operator `o2`, the tokens `a o1 b o2 c ;` followed by
the end of input parse, on a fresh parser and with enough budget, to exactly
one statement: the expression statement of `Binary(o1, a, Binary(o2, b, c))`,
with no error raised. -/
theorem C1_precedence (E : Env) (s0 : parser) (toks : List token) (qa qb qc : Nat)
    (ea eb ec : expr) (o1 o2 semi eof : token)
    (ha : ParsesAt (primary E) toks 0 qa (.ref ea))
    (ho1 : toks[qa]? = some o1) (hadd : o1.type = TOKEN_PLUS ∨ o1.type = TOKEN_MINUS)
    (hb : ParsesAt (primary E) toks (qa + 1) qb (.ref eb))
    (ho2 : toks[qb]? = some o2) (hmul : o2.type = TOKEN_STAR ∨ o2.type = TOKEN_SLASH)
    (hc : ParsesAt (primary E) toks (qb + 1) qc (.ref ec))
    (hsemi : toks[qc]? = some semi) (hsemit : semi.type = TOKEN_SEMICOLON)
    (heof : toks[qc + 1]? = some eof) (heoft : eof.type = TOKEN_EOF) :
    ∃ F : Nat, ∀ fuel : Nat, F ≤ fuel → ∃ s1 : parser,
      parse E fuel toks (parser_init s0) = .ok false s1
        ∧ s1.statements
            = .ref [.ref (ExprStmt (.ref (Binary o1 (.ref ea)
                (.ref (Binary o2 (.ref eb) (.ref ec))))))]
        ∧ s1.num_statements = 1 ∧ s1.stderr = s0.stderr ∧ s1.errcalls = s0.errcalls := by
  obtain ⟨first, hfirst, hfty⟩ := primary_starts E toks 0 qa _ ha
  have hmo1 : o1.type ∉ Tier.multiplicative.ops := by
    rcases hadd with h | h <;> simp [Tier.ops, h]
  have hao1 : o1.type ∈ Tier.additive.ops := by
    rcases hadd with h | h <;> simp [Tier.ops, h]
  have hmo2 : o2.type ∈ Tier.multiplicative.ops := by
    rcases hmul with h | h <;> simp [Tier.ops, h]
  have hsb : semi.type ∉ binary_ops := by simp [binary_ops, Tier.ops, hsemit]
  have hsT : ∀ T : Tier, semi.type ∉ T.ops := fun T hx => hsb (mem_binary_ops T _ hx)
  have hA : ParsesAt (multiplication E) toks 0 qa (.ref ea) :=
    tier_pass .multiplicative E toks 0 qa _ o1 (parsesAt_unary_primary E toks 0 qa _ ha) ho1 hmo1
  have hBC : ParsesAt (multiplication E) toks (qa + 1) qc
      (.ref (Binary o2 (.ref eb) (.ref ec))) :=
    tier_chain .multiplicative E toks (qa + 1) qb (.ref eb) [(o2, .ref ec, qc)] semi
      (parsesAt_unary_primary E toks (qa + 1) qb _ hb)
      ⟨ho2, hmo2, parsesAt_unary_primary E toks (qb + 1) qc _ hc, trivial⟩ hsemi (hsT _)
  have hsum : ParsesAt (addition E) toks 0 qc
      (.ref (Binary o1 (.ref ea) (.ref (Binary o2 (.ref eb) (.ref ec))))) :=
    tier_chain .additive E toks 0 qa (.ref ea)
      [(o1, .ref (Binary o2 (.ref eb) (.ref ec)), qc)] semi hA
      ⟨ho1, hao1, hBC, trivial⟩ hsemi (hsT _)
  have hcmp := tier_pass .comparison E toks 0 qc _ semi hsum hsemi (hsT _)
  have heq := tier_pass .equality E toks 0 qc _ semi hcmp hsemi (hsT _)
  have hasg := assignment_pass E toks 0 qc _ semi heq hsemi (by simp [hsemit])
  exact parse_one_expr_stmt E s0 toks qc _ first semi eof hfirst
    (primary_start_not first hfty).2.2 (expression_of_assignment E toks 0 qc _ hasg)
    hsemi hsemit heof heoft

/-- Witness of C1: `1+2*3;` yields `Binary(+, Literal(1), Binary(*, Literal(2),
Literal(3)))`. -/
theorem C1_precedence_witness :
    ∃ F : Nat, ∀ fuel : Nat, F ≤ fuel → ∃ s1 : parser,
      parse Env.zeroed fuel
          [tok TOKEN_NUMBER "1", tok TOKEN_PLUS "+", tok TOKEN_NUMBER "2", tok TOKEN_STAR "*",
            tok TOKEN_NUMBER "3", tok TOKEN_SEMICOLON ";", tok TOKEN_EOF ""]
          (parser_init parser.blank) = .ok false s1
        ∧ s1.statements
            = .ref [.ref (ExprStmt (.ref (Binary (tok TOKEN_PLUS "+")
                (.ref (Literal .EXPR_LITERAL_NUMBER "1"))
                (.ref (Binary (tok TOKEN_STAR "*") (.ref (Literal .EXPR_LITERAL_NUMBER "2"))
                  (.ref (Literal .EXPR_LITERAL_NUMBER "3")))))))]
        ∧ s1.num_statements = 1 ∧ s1.stderr = parser.blank.stderr
        ∧ s1.errcalls = parser.blank.errcalls :=
  C1_precedence Env.zeroed parser.blank _ 1 3 5 _ _ _ _ _
    (tok TOKEN_SEMICOLON ";") (tok TOKEN_EOF "")
    (parsesAt_atom_primary _ _ 0 (tok TOKEN_NUMBER "1") rfl (by decide))
    rfl (Or.inl rfl)
    (parsesAt_atom_primary _ _ 2 (tok TOKEN_NUMBER "2") rfl (by decide))
    rfl (Or.inl rfl)
    (parsesAt_atom_primary _ _ 4 (tok TOKEN_NUMBER "3") rfl (by decide))
    rfl rfl rfl rfl

/-- C2 (left-associativity). In each of the four left-associative tiers, a
chain `e1 op2 e2 ... opn en` whose operators belong to the tier and whose
operands are parsed by the next-higher tier, followed by a token that is not
an operator of the tier, is parsed by the tier's function to the left fold
`Binary(opn, ... Binary(op2, e1, e2) ..., en)`. -/
theorem C2_left_associative (T : Tier) (E : Env) (toks : List token) (p q0 : Nat)
    (e1 : Ptr expr) (rest : List (token × Ptr expr × Nat)) (stop : token)
    (hfirst : ParsesAt (T.next E) toks p q0 e1)
    (hrest : ChainAt (T.next E) T.ops toks q0 rest)
    (hstop : toks[chain_end q0 rest]? = some stop) (hno : stop.type ∉ T.ops) :
    ParsesAt (T.fn E) toks p (chain_end q0 rest) (left_fold e1 rest) :=
  tier_chain T E toks p q0 e1 rest stop hfirst hrest hstop hno

/-- Witness of C2: in `1-2-3;` the function `addition` yields
`Binary(-, Binary(-, 1, 2), 3)`. -/
theorem C2_left_associative_witness :
    ParsesAt (addition Env.zeroed)
      [tok TOKEN_NUMBER "1", tok TOKEN_MINUS "-", tok TOKEN_NUMBER "2", tok TOKEN_MINUS "-",
        tok TOKEN_NUMBER "3", tok TOKEN_SEMICOLON ";", tok TOKEN_EOF ""] 0 5
      (.ref (Binary (tok TOKEN_MINUS "-")
        (.ref (Binary (tok TOKEN_MINUS "-") (.ref (Literal .EXPR_LITERAL_NUMBER "1"))
          (.ref (Literal .EXPR_LITERAL_NUMBER "2"))))
        (.ref (Literal .EXPR_LITERAL_NUMBER "3")))) :=
  C2_left_associative .additive Env.zeroed _ 0 1 (atom (tok TOKEN_NUMBER "1"))
    [(tok TOKEN_MINUS "-", atom (tok TOKEN_NUMBER "2"), 3),
      (tok TOKEN_MINUS "-", atom (tok TOKEN_NUMBER "3"), 5)]
    (tok TOKEN_SEMICOLON ";")
    (tier_pass .multiplicative _ _ 0 1 _ (tok TOKEN_MINUS "-")
      (parsesAt_atom_unary _ _ 0 _ rfl (by decide)) rfl (by decide))
    ⟨rfl, by decide,
      tier_pass .multiplicative _ _ 2 3 _ (tok TOKEN_MINUS "-")
        (parsesAt_atom_unary _ _ 2 _ rfl (by decide)) rfl (by decide),
      rfl, by decide,
      tier_pass .multiplicative _ _ 4 5 _ (tok TOKEN_SEMICOLON ";")
        (parsesAt_atom_unary _ _ 4 _ rfl (by decide)) rfl (by decide),
      trivial⟩
    rfl (by decide)

/-- C3 (right-associative assignment). For identifiers `x1 .. xn` (n at least
1) and an expression `v` that `equality` parses, the tokens
`x1 = x2 = ... = xn = v ;` followed by the end of input parse, on a fresh
parser and with enough budget, to exactly one statement: the expression
statement of `Assign(x1, Assign(x2, ... Assign(xn, v)))`, each name being the
identifier's token, with no error raised. -/
theorem C3_assignment_right_associative (E : Env) (s0 : parser) (toks : List token)
    (names : List token) (pv q : Nat) (v : Ptr expr) (semi eof : token)
    (hn : names ≠ [])
    (htargets : TargetsAt toks 0 names pv)
    (hv : ParsesAt (equality E) toks pv q v)
    (hsemi : toks[q]? = some semi) (hsemit : semi.type = TOKEN_SEMICOLON)
    (heof : toks[q + 1]? = some eof) (heoft : eof.type = TOKEN_EOF) :
    ∃ F : Nat, ∀ fuel : Nat, F ≤ fuel → ∃ s1 : parser,
      parse E fuel toks (parser_init s0) = .ok false s1
        ∧ s1.statements = .ref [.ref (ExprStmt (assign_chain names v))]
        ∧ s1.num_statements = 1 ∧ s1.stderr = s0.stderr ∧ s1.errcalls = s0.errcalls := by
  have hasg := assign_targets E toks q v names 0 pv htargets
    (assignment_pass E toks pv q v semi hv hsemi (by simp [hsemit]))
  cases names with
  | nil => exact absurd rfl hn
  | cons x xs =>
    obtain ⟨hx, hxt, _, _⟩ := htargets
    exact parse_one_expr_stmt E s0 toks q _ x semi eof hx (by simp [hxt])
      (expression_of_assignment E toks 0 q _ hasg) hsemi hsemit heof heoft

/-- Witness of C3: `a = b = 1;` yields `Assign(a, Assign(b, 1))`. -/
theorem C3_assignment_right_associative_witness :
    ∃ F : Nat, ∀ fuel : Nat, F ≤ fuel → ∃ s1 : parser,
      parse Env.zeroed fuel
          [tok TOKEN_IDENTIFIER "a", tok TOKEN_EQUAL "=", tok TOKEN_IDENTIFIER "b",
            tok TOKEN_EQUAL "=", tok TOKEN_NUMBER "1", tok TOKEN_SEMICOLON ";", tok TOKEN_EOF ""]
          (parser_init parser.blank) = .ok false s1
        ∧ s1.statements
            = .ref [.ref (ExprStmt (.ref (Assign (.ref (tok TOKEN_IDENTIFIER "a"))
                (.ref (Assign (.ref (tok TOKEN_IDENTIFIER "b"))
                  (.ref (Literal .EXPR_LITERAL_NUMBER "1")))))))]
        ∧ s1.num_statements = 1 ∧ s1.stderr = parser.blank.stderr
        ∧ s1.errcalls = parser.blank.errcalls :=
  C3_assignment_right_associative Env.zeroed parser.blank _
    [tok TOKEN_IDENTIFIER "a", tok TOKEN_IDENTIFIER "b"] 4 5
    (atom (tok TOKEN_NUMBER "1")) (tok TOKEN_SEMICOLON ";") (tok TOKEN_EOF "")
    (by simp)
    ⟨rfl, rfl, ⟨tok TOKEN_EQUAL "=", rfl, rfl⟩, rfl, rfl, ⟨tok TOKEN_EQUAL "=", rfl, rfl⟩, rfl⟩
    (equality_of_unary _ _ 4 5 _ (tok TOKEN_SEMICOLON ";")
      (parsesAt_atom_unary _ _ 4 _ rfl (by decide)) rfl (by decide))
    rfl rfl rfl rfl

/-- C4 (invalid assignment target), as the code behaves: on `1 = 2;` a fresh
parser, with enough budget, returns true and builds no `Assign` node, but it
writes two diagnostics, not one: `synchronize` stops on the `;` without
consuming it, so the next round of the loop reports `Expect expression` there
and stores an expression statement without expression (in slot 0 again). -/
theorem C4_invalid_target_two_diagnostics (E : Env) (s0 : parser) (n : Nat) :
    ∃ s1 : parser,
      parse E (n + 14) invalid_target_tokens (parser_init s0) = .ok true s1
        ∧ s1.stderr = s0.stderr ++ [⟨1, .at_lexeme "="⟩, ⟨1, .at_lexeme "2"⟩]
        ∧ s1.errcalls = s0.errcalls + 3
        ∧ s1.statements = .ref [.ref (ExprStmt .null)] ∧ s1.num_statements = 2 :=
  eval_invalid_target E s0 n

/-- C5 (recovery), as the code behaves: on `var ; var x = 1;` a fresh parser,
with enough budget, writes exactly one diagnostic, returns true and counts two
statements, but the loop of `parse` never advances its index: `Var{x, 1}` is
stored in slot 0, over the first declaration, and no second slot is written. -/
theorem C5_recovery_overwrites_slot (E : Env) (s0 : parser) (n : Nat) :
    ∃ s1 : parser,
      parse E (n + 14) recovery_tokens (parser_init s0) = .ok true s1
        ∧ s1.stderr = s0.stderr ++ [⟨1, .at_lexeme ";"⟩]
        ∧ s1.num_statements = 2
        ∧ s1.statements = .ref [.ref (VarStmt (.ref (tok TOKEN_IDENTIFIER "x"))
            (.ref (ExprStmt (.ref (Literal .EXPR_LITERAL_NUMBER "1")))))] :=
  eval_recovery E s0 n

/-- C6 (completion), as the code behaves: on `var x; return x;` the loop of
`parse` never returns, whatever the budget: `declaration` consumes nothing at
`return`, and `synchronize` stops there at once. In general, once the cursor
stands on `class`, `fun` or `return` (past the first token) the loop of `parse`
exhausts every budget, and the loop of `block` never returns either (it
exhausts the budget or stops in undefined behaviour). -/
theorem C6_parse_never_returns (E : Env) (s0 : parser) (fuel : Nat) :
    parse E fuel return_tokens (parser_init s0) = .timeout
      ∧ (∀ (t t1 : token) (i : Nat) (s : parser), t.type ∈ dead_types →
          s.tokens[s.current]? = some t → s.current ≠ 0 →
          s.tokens[s.current - 1]? = some t1 → s.panicmode = false →
          (∃ l, s.statements = .ref l) → parse_loop E fuel i s = .timeout)
      ∧ ∀ (t t1 : token) (b : stmt) (i : Nat) (s : parser), t.type ∈ dead_types →
          s.tokens[s.current]? = some t → s.current ≠ 0 →
          s.tokens[s.current - 1]? = some t1 →
          ∀ (r : stmt) (s1 : parser), block_loop E fuel b i s ≠ .ok r s1 :=
  ⟨eval_return E s0 fuel,
    fun t t1 i s ht h hc hp hpanic hst => parse_loop_stuck E t t1 ht fuel i s h hc hp hpanic hst,
    fun t t1 b i s ht h hc hp => block_loop_stuck E t t1 ht fuel b i s h hc hp⟩

/-- C7 (error flag). Whenever `parse` returns on a fresh parser, it returns
true exactly if `error_at` was called during the pass, and what it returns is
the error flag; no grammar function, nor `synchronize`, nor the loop of `parse`
clears the flag once it is set. -/
theorem C7_error_flag (E : Env) (fuel : Nat) (toks : List token) (s0 : parser) (b : Bool)
    (s1 : parser) (h : parse E fuel toks (parser_init s0) = .ok b s1) :
    ((b = true ↔ s0.errcalls < s1.errcalls) ∧ b = s1.haderror)
      ∧ (∀ n, AllPres flag_kept E n) ∧ Pres flag_kept synchronize
      ∧ ∀ n i, Pres flag_kept (parse_loop E n i) :=
  ⟨parse_flag E fuel toks s0 b s1 h, all_pres flag_kept_step E,
    pres_synchronize flag_kept_step, pres_kept_parse_loop E⟩

/-- Witness of C7: the pass over `1 = 2;` returns true and has called `error_at`. -/
theorem C7_error_flag_witness :
    ∃ s1 : parser,
      parse Env.zeroed 14 invalid_target_tokens (parser_init parser.blank) = .ok true s1
        ∧ (((true = true ↔ parser.blank.errcalls < s1.errcalls) ∧ true = s1.haderror)
          ∧ (∀ n, AllPres flag_kept Env.zeroed n) ∧ Pres flag_kept synchronize
          ∧ ∀ n i, Pres flag_kept (parse_loop Env.zeroed n i)) := by
  obtain ⟨s1, h, _⟩ := eval_invalid_target Env.zeroed parser.blank 0
  exact ⟨s1, h, C7_error_flag Env.zeroed 14 invalid_target_tokens parser.blank true s1 h⟩

/-- C8 (literal encoding). On a `false`, `true` or `null` token `primary` yields
`Literal(Bool, "0")`, `Literal(Bool, "1")`, `Literal(Null, "NULL")`; on a number
or string token a literal of that kind whose text is the token's lexeme. In
each case the cursor moves by one token, one node is allocated and nothing
else changes: no error is raised. -/
theorem C8_literal_encoding (E : Env) (n : Nat) (s : parser) (t : token)
    (h : s.tokens[s.current]? = some t) :
    (t.type = TOKEN_FALSE → primary E (n + 1) s
        = .ok (.ref (Literal .EXPR_LITERAL_BOOL "0"))
            { s with current := s.current + 1, allocs := s.allocs + 1 })
      ∧ (t.type = TOKEN_TRUE → primary E (n + 1) s
        = .ok (.ref (Literal .EXPR_LITERAL_BOOL "1"))
            { s with current := s.current + 1, allocs := s.allocs + 1 })
      ∧ (t.type = TOKEN_NULL → primary E (n + 1) s
        = .ok (.ref (Literal .EXPR_LITERAL_NULL "NULL"))
            { s with current := s.current + 1, allocs := s.allocs + 1 })
      ∧ (t.type = TOKEN_NUMBER → primary E (n + 1) s
        = .ok (.ref (Literal .EXPR_LITERAL_NUMBER t.lexeme))
            { s with current := s.current + 1, allocs := s.allocs + 1 })
      ∧ (t.type = TOKEN_STRING → primary E (n + 1) s
        = .ok (.ref (Literal .EXPR_LITERAL_STRING t.lexeme))
            { s with current := s.current + 1, allocs := s.allocs + 1 }) := by
  refine ⟨?_, ?_, ?_, ?_, ?_⟩ <;> intro ht <;>
    rw [primary_atom E n s t h (by simp [atom_types, ht])] <;> simp [atom, ht]

/-- Witness of C8: `primary` on the number token `42`. -/
theorem C8_literal_encoding_witness :
    primary Env.zeroed 1
        { parser.blank with tokens := [tok TOKEN_NUMBER "42", tok TOKEN_EOF ""] }
      = .ok (.ref (Literal .EXPR_LITERAL_NUMBER "42"))
          { parser.blank with tokens := [tok TOKEN_NUMBER "42", tok TOKEN_EOF ""],
                              current := 1, allocs := 1 } :=
  (C8_literal_encoding Env.zeroed 0
    { parser.blank with tokens := [tok TOKEN_NUMBER "42", tok TOKEN_EOF ""] }
    (tok TOKEN_NUMBER "42") rfl).2.2.2.1 rfl

/-- Counterexample to C9: on the tokens of `for (var i = 0; i < 10; i = i + 1)
{}` a fresh parser returns true (two diagnostics), counts four statements, and
what it leaves in the statement array is no `For` node. -/
theorem C9_for_shape_counterexample :
    ∃ s1 : parser,
      (∀ n, parse Env.zeroed (n + 20) for_tokens (parser_init parser.blank) = .ok true s1)
        ∧ s1.num_statements = 4 ∧ s1.stderr.length = 2
        ∧ s1.statements = .ref [.ref (ExprStmt increment_expr)]
        ∧ ∀ a b c d, s1.statements ≠ .ref [.ref (ForStmt a b c d)] := by
  refine ⟨_, eval_for, rfl, rfl, rfl, ?_⟩
  intro a b c d h
  simp only [Ptr.ref.injEq, List.cons.injEq, and_true] at h
  have h2 := congrArg stmt.type h
  simp [ExprStmt, ForStmt] at h2

/-- C9 as amended (for-loop shape). The three clauses are statements of the
`statement` grammar, each with its own `;`: the tokens of
`for (i = 0; i < 10; i = i + 1;) {}` parse, on a fresh parser and with enough
budget, to exactly one statement, `For` with the expression statements of
`i = 0`, `i < 10` and `i = i + 1` as clauses and a block node as body, with no
error raised. On the tokens of `for (var i = 0; i < 10; i = i + 1) {}` the
parser instead returns true, with two diagnostics and four statements
counted. -/
theorem C9_for_shape_amended (E : Env) (s0 : parser) (n : Nat) :
    (∃ (s1 : parser) (body : stmt),
      parse E (n + 20) for_statement_tokens (parser_init s0) = .ok false s1
        ∧ s1.num_statements = 1
        ∧ s1.statements = .ref [.ref (ForStmt (.ref (ExprStmt init_expr_i))
            (.ref (ExprStmt condition_expr)) (.ref (ExprStmt increment_expr)) (.ref body))]
        ∧ body.type = some .STMT_BLOCK
        ∧ s1.stderr = s0.stderr ∧ s1.errcalls = s0.errcalls)
      ∧ ∃ s1 : parser,
          parse E (n + 20) for_tokens (parser_init s0) = .ok true s1
            ∧ s1.num_statements = 4
            ∧ s1.statements = .ref [.ref (ExprStmt increment_expr)]
            ∧ s1.stderr = s0.stderr ++ [⟨1, .at_lexeme "("⟩, ⟨1, .at_lexeme ")"⟩] :=
  ⟨eval_for_statement E s0 n, eval_for_general E s0 n⟩

/-- C10 (empty block), as the code behaves: on `{}` a fresh parser, with
enough budget, returns one statement tagged as a block, with no error; its
count, capacity and array are those of the storage that `ALLOCATE` returned,
which `block` never initialises: the count is 0 only if the storage held 0,
and it is 7 where the storage held 7. -/
theorem C10_empty_block_uninitialised (E : Env) (s0 : parser) (n : Nat) :
    (∃ (s1 : parser) (b : stmt),
      parse E (n + 6) empty_block_tokens (parser_init s0) = .ok false s1
        ∧ s1.num_statements = 1 ∧ s1.statements = .ref [.ref b]
        ∧ s1.stderr = s0.stderr ∧ s1.errcalls = s0.errcalls
        ∧ b.type = some .STMT_BLOCK
        ∧ b.count = (E.raw_stmt s0.allocs).count
        ∧ b.capacity = (E.raw_stmt s0.allocs).capacity
        ∧ b.stmts = (E.raw_stmt s0.allocs).stmts)
      ∧ ∃ (s1 : parser) (b : stmt),
          parse Env.seven (n + 6) empty_block_tokens (parser_init s0) = .ok false s1
            ∧ s1.statements = .ref [.ref b] ∧ b.type = some .STMT_BLOCK ∧ b.count = 7 := by
  obtain ⟨s1, h1, h2, h3, h4, h5⟩ := eval_empty_block E s0 n
  obtain ⟨s2, k1, _, k3, _, _⟩ := eval_empty_block Env.seven s0 n
  exact ⟨⟨s1, _, h1, h2, h3, h4, h5, rfl, rfl, rfl, rfl⟩, ⟨s2, _, k1, k3, rfl, rfl⟩⟩

/-! ## The latch and synchronization -/

theorem error_at_on (s : parser) (t : token) (msg : String) (h : s.panicmode = true) :
    error_at t msg s = .ok () { s with errcalls := s.errcalls + 1 } := by
  simp [error_at, h]

theorem error_at_off (s : parser) (t : token) (msg : String) (h : s.panicmode = false) :
    ∃ d : diagnostic, d.line = t.line ∧
      error_at t msg s = .ok () { s with errcalls := s.errcalls + 1, panicmode := true,
                                         haderror := true, stderr := s.stderr ++ [d] } := by
  refine ⟨⟨t.line, if t.type = TOKEN_EOF then errplace.at_end
    else if t.type = TOKEN_ERROR then errplace.text t.lexeme
    else errplace.at_lexeme t.lexeme⟩, rfl, ?_⟩
  simp [error_at, h]

theorem synchronize_first_stop :
    ∀ (k : Nat) (s : parser) (t : token),
      (∀ j, j < k → ∃ u, s.tokens[s.current + j]? = some u ∧ u.type ∉ sync_stops) →
      s.tokens[s.current + k]? = some t → t.type ∈ sync_stops →
      synchronize s = .ok () { s with panicmode := false, current := s.current + k } := by
  intro k
  induction k with
  | zero =>
    intro s t _ ht hs
    rw [synchronize_stop s t ht hs]
    rfl
  | succ k ih =>
    intro s t hskip ht hs
    obtain ⟨u, hu, hun⟩ := hskip 0 (by omega)
    rw [synchronize_skip s u hu hun]
    have h2 := ih { s with current := s.current + 1 } t
      (by
        intro j hj
        have := hskip (j + 1) (by omega)
        simpa [Nat.add_assoc, Nat.add_comm 1 j] using this)
      (by simpa [Nat.add_assoc, Nat.add_comm 1 k] using ht) hs
    rw [h2]
    simp [Nat.add_assoc, Nat.add_comm 1 k]

theorem synchronize_at_semicolon (s : parser) (h : s.tokens = invalid_target_tokens)
    (hc : s.current = 2) :
    synchronize s = .ok () { s with panicmode := false, current := 3 } := by
  have := synchronize_first_stop 1 s (tok TOKEN_SEMICOLON ";")
    (by
      intro j hj
      obtain rfl : j = 0 := by omega
      refine ⟨tok TOKEN_NUMBER "2", ?_, by decide⟩
      rw [h, hc]; rfl)
    (by rw [h, hc]; rfl) (by decide)
  rw [this, hc]

/-! ## Deallocation -/

mutual

theorem delete_expression_ok :
    ∀ e : expr, expr_tree e = true → ∃ k, delete_expression e = .ok k
  | ⟨_, _, _, literal, expression, value, left, right⟩, h => by
    simp only [expr_tree, Bool.and_eq_true] at h
    obtain ⟨⟨⟨⟨h0, h1⟩, h2⟩, h3⟩, h4⟩ := h
    obtain ⟨a, ha⟩ := delete_expression_guarded_ok expression h1
    obtain ⟨b, hb⟩ := delete_expression_guarded_ok value h2
    obtain ⟨c, hc⟩ := delete_expression_guarded_ok left h3
    obtain ⟨d, hd⟩ := delete_expression_guarded_ok right h4
    refine ⟨a + b + c + d + 1, ?_⟩
    simp only [delete_expression, ha, hb, hc, hd]
    cases literal with
    | null => rfl
    | ref x => rfl
    | wild => exact absurd h0 (by simp)

theorem delete_expression_guarded_ok :
    ∀ p : Ptr expr, expr_tree_opt p = true → ∃ k, delete_expression_guarded p = .ok k
  | .null, _ => ⟨0, by simp only [delete_expression_guarded]; rfl⟩
  | .ref e, h => by
    simp only [expr_tree_opt] at h
    obtain ⟨k, hk⟩ := delete_expression_ok e h
    exact ⟨k, by simp only [delete_expression_guarded, hk]⟩
  | .wild, h => by simp [expr_tree_opt] at h

end

mutual

theorem delete_statements_ok (tag0 : Option stmttype) :
    ∀ st : stmt, stmt_tree tag0 st = true → ∃ k, delete_statements tag0 st = .ok k
  | ⟨type, _, initializer, expression, condition, value, loopbody, thenbranch, elsebranch,
      count, _, stmts⟩, h => by
    simp only [stmt_tree, Bool.and_eq_true] at h
    obtain ⟨⟨⟨h0, h1⟩, h2⟩, h3⟩ := h
    obtain ⟨b, hb⟩ := delete_expression_guarded_ok expression h1
    obtain ⟨c, hc⟩ := delete_expression_guarded_ok condition h2
    obtain ⟨d, hd⟩ := delete_expression_guarded_ok value h3
    simp only [delete_statements, hb, hc, hd]
    rcases hty : switch_tag tag0 type with _ | ty
    · exact ⟨0 + b + c + d + 1, by simp only [hty]; rfl⟩
    · rw [hty] at h0
      cases ty with
      | STMT_BLOCK =>
        obtain ⟨a, ha⟩ := delete_slots_ok tag0 count.toNat stmts h0
        exact ⟨a + b + c + d + 1, by simp only [hty, ha]; rfl⟩
      | STMT_EXPR => exact ⟨0 + b + c + d + 1, by simp only [hty]; rfl⟩
      | STMT_IF =>
        simp only [Bool.and_eq_true] at h0
        obtain ⟨x, hx⟩ := delete_statements_at_ok tag0 thenbranch h0.1
        obtain ⟨y, hy⟩ := delete_statements_guarded_ok tag0 elsebranch h0.2
        exact ⟨x + y + b + c + d + 1, by simp only [hty, hx, hy]; rfl⟩
      | STMT_WHILE =>
        obtain ⟨a, ha⟩ := delete_statements_at_ok tag0 loopbody h0
        exact ⟨a + b + c + d + 1, by simp only [hty, ha]; rfl⟩
      | STMT_FOR =>
        simp only [Bool.and_eq_true] at h0
        obtain ⟨x, hx⟩ := delete_slots_ok tag0 3 stmts h0.1
        obtain ⟨y, hy⟩ := delete_statements_at_ok tag0 loopbody h0.2
        exact ⟨x + y + b + c + d + 1, by simp only [hty, hx, hy]; rfl⟩
      | STMT_VAR =>
        obtain ⟨a, ha⟩ := delete_statements_at_ok tag0 initializer h0
        exact ⟨a + b + c + d + 1, by simp only [hty, ha]; rfl⟩

theorem delete_statements_at_ok (tag0 : Option stmttype) :
    ∀ p : Ptr stmt, stmt_tree_at tag0 p = true → ∃ k, delete_statements_at tag0 p = .ok k
  | .null, h => by simp [stmt_tree_at] at h
  | .ref st, h => by
    simp only [stmt_tree_at] at h
    obtain ⟨k, hk⟩ := delete_statements_ok tag0 st h
    exact ⟨k, by simp only [delete_statements_at, hk]⟩
  | .wild, h => by simp [stmt_tree_at] at h

theorem delete_statements_guarded_ok (tag0 : Option stmttype) :
    ∀ p : Ptr stmt, stmt_tree_opt tag0 p = true →
      ∃ k, delete_statements_guarded tag0 p = .ok k
  | .null, _ => ⟨0, by simp only [delete_statements_guarded]; rfl⟩
  | .ref st, h => by
    simp only [stmt_tree_opt] at h
    obtain ⟨k, hk⟩ := delete_statements_ok tag0 st h
    exact ⟨k, by simp only [delete_statements_guarded, hk]⟩
  | .wild, h => by simp [stmt_tree_opt] at h

theorem delete_slots_ok (tag0 : Option stmttype) :
    ∀ (k : Nat) (p : Ptr (List (Ptr stmt))), slots_tree tag0 k p = true →
      ∃ n, delete_slots tag0 k p = .ok n
  | 0, _, _ => ⟨0, by simp only [delete_slots]; rfl⟩
  | _ + 1, .null, h => by simp [slots_tree] at h
  | _ + 1, .wild, h => by simp [slots_tree] at h
  | k + 1, .ref l, h => by
    simp only [slots_tree] at h
    obtain ⟨n, hn⟩ := delete_list_ok tag0 (k + 1) l h
    exact ⟨n, by simp only [delete_slots, hn]⟩

theorem delete_list_ok (tag0 : Option stmttype) :
    ∀ (k : Nat) (l : List (Ptr stmt)), list_tree tag0 k l = true →
      ∃ n, delete_list tag0 k l = .ok n
  | 0, _, _ => ⟨0, by simp only [delete_list]; rfl⟩
  | _ + 1, [], h => by simp [list_tree] at h
  | k + 1, p :: rest, h => by
    simp only [list_tree, Bool.and_eq_true] at h
    obtain ⟨x, hx⟩ := delete_statements_at_ok tag0 p h.1
    obtain ⟨y, hy⟩ := delete_list_ok tag0 k rest h.2
    exact ⟨x + y, by simp only [delete_list, hx, hy]; rfl⟩

end

theorem parser_reset_result (tag0 : Option stmttype) (s : parser) (k : Nat) (s1 : parser)
    (h : parser_reset tag0 s = .ok k s1) : s1 = parser_init s := by
  unfold parser_reset at h
  split at h
  · simp only [Res.ok.injEq] at h
    exact h.2.symm
  · exact absurd h (by simp)
  · split at h
    · exact absurd h (by simp)
    · simp only [Res.ok.injEq] at h
      exact h.2.symm

theorem parser_reset_returns (tag0 : Option stmttype) (s : parser)
    (h : s.owns_trees tag0 = true) : ∃ k, parser_reset tag0 s = .ok k (parser_init s) := by
  unfold parser.owns_trees at h
  unfold parser_reset
  split
  · exact ⟨0, rfl⟩
  · rename_i hw
    rw [hw] at h
    exact absurd h (by simp)
  · rename_i l hl
    rw [hl] at h
    obtain ⟨k, hk⟩ := delete_list_ok tag0 _ l h
    exact ⟨k, by simp only [hk]⟩

/-! ## The parser on further inputs -/

set_option maxHeartbeats 4000000 in
set_option maxRecDepth 10000 in
theorem eval_assign (E : Env) (s0 : parser) (n : Nat) :
    ∃ s1 : parser,
      parse E (n + 24) assign_tokens (parser_init s0) = .ok false s1
        ∧ s1.allocs = s0.allocs + 4 ∧ s1.num_statements = 1
        ∧ s1.statements = .ref [.ref (ExprStmt (.ref (Assign (.ref (tok TOKEN_IDENTIFIER "a"))
            (.ref (Literal .EXPR_LITERAL_NUMBER "1")))))] := by
  rw [parse_eq]
  simp [assign_tokens, parse_loop.eq_2, declaration.eq_2, statement.eq_2,
    expression_statement.eq_2, expression.eq_2, assignment.eq_2, for_statement.eq_2,
    if_statement.eq_2, while_statement.eq_2,
    var_declaration.eq_2, block.eq_2, block_loop.eq_2, equality.eq_2, equality_loop.eq_2,
    comparison.eq_2, comparison_loop.eq_2, addition.eq_2, addition_loop.eq_2,
    multiplication.eq_2, multiplication_loop.eq_2, unary.eq_2, primary.eq_2, match_eq,
    consume_eq, check_eq, error_eq, orelse_eq, is_at_end_eq, error_state, synchronize,
    synchronize_loop, tok, get_literal_expr_eq, get_expression_statement_eq,
    get_variable_expr_eq, get_binary_expr_eq, get_assign_expr_eq, get_for_statement_eq,
    get_variable_statement_eq, get_if_statement_eq, get_grouping_expr_eq,
    alloc_stmt_eq, store_statement, grow_statements_eq, panicking,
    previous, take_string, peek, advance_eq]

set_option maxHeartbeats 4000000 in
set_option maxRecDepth 10000 in
theorem eval_var_init (E : Env) (s0 : parser) (n : Nat) :
    ∃ s1 : parser,
      parse E (n + 24) var_init_tokens (parser_init s0) = .ok false s1
        ∧ s1.allocs = s0.allocs + 4 ∧ s1.num_statements = 1
        ∧ s1.statements = .ref [.ref (VarStmt (.ref (tok TOKEN_IDENTIFIER "x"))
            (.ref (ExprStmt (.ref (Literal .EXPR_LITERAL_NUMBER "1")))))] := by
  rw [parse_eq]
  simp [var_init_tokens, parse_loop.eq_2, declaration.eq_2, statement.eq_2,
    expression_statement.eq_2, expression.eq_2, assignment.eq_2, for_statement.eq_2,
    if_statement.eq_2, while_statement.eq_2,
    var_declaration.eq_2, block.eq_2, block_loop.eq_2, equality.eq_2, equality_loop.eq_2,
    comparison.eq_2, comparison_loop.eq_2, addition.eq_2, addition_loop.eq_2,
    multiplication.eq_2, multiplication_loop.eq_2, unary.eq_2, primary.eq_2, match_eq,
    consume_eq, check_eq, error_eq, orelse_eq, is_at_end_eq, error_state, synchronize,
    synchronize_loop, tok, get_literal_expr_eq, get_expression_statement_eq,
    get_variable_expr_eq, get_binary_expr_eq, get_assign_expr_eq, get_for_statement_eq,
    get_variable_statement_eq, get_if_statement_eq, get_grouping_expr_eq,
    alloc_stmt_eq, store_statement, grow_statements_eq, panicking,
    previous, take_string, peek, advance_eq]

set_option maxHeartbeats 4000000 in
set_option maxRecDepth 10000 in
theorem eval_var (E : Env) (s0 : parser) (n : Nat) :
    ∃ s1 : parser,
      parse E (n + 24) var_tokens (parser_init s0) = .ok false s1
        ∧ s1.num_statements = 1
        ∧ s1.statements = .ref [.ref (VarStmt (.ref (tok TOKEN_IDENTIFIER "x"))
            (.ref (E.raw_stmt s0.allocs)))]
        ∧ s1.stderr = s0.stderr ∧ s1.errcalls = s0.errcalls := by
  rw [parse_eq]
  simp [var_tokens, parse_loop.eq_2, declaration.eq_2, statement.eq_2,
    expression_statement.eq_2, expression.eq_2, assignment.eq_2, for_statement.eq_2,
    if_statement.eq_2, while_statement.eq_2,
    var_declaration.eq_2, block.eq_2, block_loop.eq_2, equality.eq_2, equality_loop.eq_2,
    comparison.eq_2, comparison_loop.eq_2, addition.eq_2, addition_loop.eq_2,
    multiplication.eq_2, multiplication_loop.eq_2, unary.eq_2, primary.eq_2, match_eq,
    consume_eq, check_eq, error_eq, orelse_eq, is_at_end_eq, error_state, synchronize,
    synchronize_loop, tok, get_literal_expr_eq, get_expression_statement_eq,
    get_variable_expr_eq, get_binary_expr_eq, get_assign_expr_eq, get_for_statement_eq,
    get_variable_statement_eq, get_if_statement_eq, get_grouping_expr_eq,
    alloc_stmt_eq, store_statement, grow_statements_eq, panicking,
    previous, take_string, peek, advance_eq]

set_option maxHeartbeats 4000000 in
set_option maxRecDepth 10000 in
theorem eval_absent_target (E : Env) (s0 : parser) (n : Nat) :
    parse E (n + 24) absent_target_tokens (parser_init s0) = .fault .null_deref := by
  rw [parse_eq]
  simp [absent_target_tokens, parse_loop.eq_2, declaration.eq_2, statement.eq_2,
    expression_statement.eq_2, expression.eq_2, assignment.eq_2, for_statement.eq_2,
    if_statement.eq_2, while_statement.eq_2,
    var_declaration.eq_2, block.eq_2, block_loop.eq_2, equality.eq_2, equality_loop.eq_2,
    comparison.eq_2, comparison_loop.eq_2, addition.eq_2, addition_loop.eq_2,
    multiplication.eq_2, multiplication_loop.eq_2, unary.eq_2, primary.eq_2, match_eq,
    consume_eq, check_eq, error_eq, orelse_eq, is_at_end_eq, error_state, synchronize,
    synchronize_loop, tok, get_literal_expr_eq, get_expression_statement_eq,
    get_variable_expr_eq, get_binary_expr_eq, get_assign_expr_eq, get_for_statement_eq,
    get_variable_statement_eq, get_if_statement_eq, get_grouping_expr_eq,
    alloc_stmt_eq, store_statement, grow_statements_eq, panicking,
    previous, take_string, peek, advance_eq]

set_option maxHeartbeats 4000000 in
set_option maxRecDepth 10000 in
theorem eval_if (E : Env) (s0 : parser) (n : Nat) :
    ∃ s1 : parser,
      parse E (n + 24) if_tokens (parser_init s0) = .ok false s1
        ∧ s1.num_statements = 1
        ∧ s1.statements = .ref [.ref (IfStmt (.ref (Variable (tok TOKEN_IDENTIFIER "a")))
            (.ref (ExprStmt (.ref (Variable (tok TOKEN_IDENTIFIER "b"))))) .wild)]
        ∧ s1.stderr = s0.stderr ∧ s1.errcalls = s0.errcalls := by
  rw [parse_eq]
  simp [if_tokens, parse_loop.eq_2, declaration.eq_2, statement.eq_2,
    expression_statement.eq_2, expression.eq_2, assignment.eq_2, for_statement.eq_2,
    if_statement.eq_2, while_statement.eq_2,
    var_declaration.eq_2, block.eq_2, block_loop.eq_2, equality.eq_2, equality_loop.eq_2,
    comparison.eq_2, comparison_loop.eq_2, addition.eq_2, addition_loop.eq_2,
    multiplication.eq_2, multiplication_loop.eq_2, unary.eq_2, primary.eq_2, match_eq,
    consume_eq, check_eq, error_eq, orelse_eq, is_at_end_eq, error_state, synchronize,
    synchronize_loop, tok, get_literal_expr_eq, get_expression_statement_eq,
    get_variable_expr_eq, get_binary_expr_eq, get_assign_expr_eq, get_for_statement_eq,
    get_variable_statement_eq, get_if_statement_eq, get_grouping_expr_eq,
    alloc_stmt_eq, store_statement, grow_statements_eq, panicking,
    previous, take_string, peek, advance_eq]

set_option maxHeartbeats 4000000 in
set_option maxRecDepth 10000 in
theorem eval_if_else (E : Env) (s0 : parser) (n : Nat) :
    ∃ s1 : parser,
      parse E (n + 24) if_else_tokens (parser_init s0) = .ok false s1
        ∧ s1.num_statements = 1
        ∧ s1.statements = .ref [.ref (IfStmt (.ref (Variable (tok TOKEN_IDENTIFIER "a")))
            (.ref (ExprStmt (.ref (Variable (tok TOKEN_IDENTIFIER "b")))))
            (.ref (ExprStmt (.ref (Variable (tok TOKEN_IDENTIFIER "c"))))))]
        ∧ s1.stderr = s0.stderr ∧ s1.errcalls = s0.errcalls := by
  rw [parse_eq]
  simp [if_else_tokens, parse_loop.eq_2, declaration.eq_2, statement.eq_2,
    expression_statement.eq_2, expression.eq_2, assignment.eq_2, for_statement.eq_2,
    if_statement.eq_2, while_statement.eq_2,
    var_declaration.eq_2, block.eq_2, block_loop.eq_2, equality.eq_2, equality_loop.eq_2,
    comparison.eq_2, comparison_loop.eq_2, addition.eq_2, addition_loop.eq_2,
    multiplication.eq_2, multiplication_loop.eq_2, unary.eq_2, primary.eq_2, match_eq,
    consume_eq, check_eq, error_eq, orelse_eq, is_at_end_eq, error_state, synchronize,
    synchronize_loop, tok, get_literal_expr_eq, get_expression_statement_eq,
    get_variable_expr_eq, get_binary_expr_eq, get_assign_expr_eq, get_for_statement_eq,
    get_variable_statement_eq, get_if_statement_eq, get_grouping_expr_eq,
    alloc_stmt_eq, store_statement, grow_statements_eq, panicking,
    previous, take_string, peek, advance_eq]

set_option maxHeartbeats 4000000 in
set_option maxRecDepth 10000 in
theorem eval_block_one (s0 : parser) (n : Nat) :
    parse Env.zeroed (n + 24) block_one_tokens (parser_init s0) = .fault .null_deref := by
  rw [parse_eq]
  simp [block_one_tokens, Env.zeroed, stmt.zero, check_stmt_capacity, store_slot, parse_loop.eq_2, declaration.eq_2, statement.eq_2,
    expression_statement.eq_2, expression.eq_2, assignment.eq_2, for_statement.eq_2,
    if_statement.eq_2, while_statement.eq_2,
    var_declaration.eq_2, block.eq_2, block_loop.eq_2, equality.eq_2, equality_loop.eq_2,
    comparison.eq_2, comparison_loop.eq_2, addition.eq_2, addition_loop.eq_2,
    multiplication.eq_2, multiplication_loop.eq_2, unary.eq_2, primary.eq_2, match_eq,
    consume_eq, check_eq, error_eq, orelse_eq, is_at_end_eq, error_state, synchronize,
    synchronize_loop, tok, get_literal_expr_eq, get_expression_statement_eq,
    get_variable_expr_eq, get_binary_expr_eq, get_assign_expr_eq, get_for_statement_eq,
    get_variable_statement_eq, get_if_statement_eq, get_grouping_expr_eq,
    alloc_stmt_eq, store_statement, grow_statements_eq, panicking,
    previous, take_string, peek, advance_eq]

set_option maxHeartbeats 4000000 in
set_option maxRecDepth 10000 in
theorem eval_semicolon (E : Env) (s0 : parser) (n : Nat) :
    parse E (n + 24) semicolon_tokens (parser_init s0) = .fault .token_index := by
  rw [parse_eq]
  simp [semicolon_tokens, parse_loop.eq_2, declaration.eq_2, statement.eq_2,
    expression_statement.eq_2, expression.eq_2, assignment.eq_2, for_statement.eq_2,
    if_statement.eq_2, while_statement.eq_2,
    var_declaration.eq_2, block.eq_2, block_loop.eq_2, equality.eq_2, equality_loop.eq_2,
    comparison.eq_2, comparison_loop.eq_2, addition.eq_2, addition_loop.eq_2,
    multiplication.eq_2, multiplication_loop.eq_2, unary.eq_2, primary.eq_2, match_eq,
    consume_eq, check_eq, error_eq, orelse_eq, is_at_end_eq, error_state, synchronize,
    synchronize_loop, tok, get_literal_expr_eq, get_expression_statement_eq,
    get_variable_expr_eq, get_binary_expr_eq, get_assign_expr_eq, get_for_statement_eq,
    get_variable_statement_eq, get_if_statement_eq, get_grouping_expr_eq,
    alloc_stmt_eq, store_statement, grow_statements_eq, panicking,
    previous, take_string, peek, advance_eq]

set_option maxHeartbeats 4000000 in
set_option maxRecDepth 10000 in
theorem eval_one (E : Env) (s0 : parser) (n : Nat) :
    ∃ s1 : parser,
      parse E (n + 24) one_tokens (parser_init s0) = .ok false s1
        ∧ s1.num_statements = 1
        ∧ s1.statements = .ref [.ref (ExprStmt (.ref (Literal .EXPR_LITERAL_NUMBER "1")))]
        ∧ s1.current = 2 ∧ s1.tokens = one_tokens := by
  rw [parse_eq]
  simp [one_tokens, parse_loop.eq_2, declaration.eq_2, statement.eq_2,
    expression_statement.eq_2, expression.eq_2, assignment.eq_2, for_statement.eq_2,
    if_statement.eq_2, while_statement.eq_2,
    var_declaration.eq_2, block.eq_2, block_loop.eq_2, equality.eq_2, equality_loop.eq_2,
    comparison.eq_2, comparison_loop.eq_2, addition.eq_2, addition_loop.eq_2,
    multiplication.eq_2, multiplication_loop.eq_2, unary.eq_2, primary.eq_2, match_eq,
    consume_eq, check_eq, error_eq, orelse_eq, is_at_end_eq, error_state, synchronize,
    synchronize_loop, tok, get_literal_expr_eq, get_expression_statement_eq,
    get_variable_expr_eq, get_binary_expr_eq, get_assign_expr_eq, get_for_statement_eq,
    get_variable_statement_eq, get_if_statement_eq, get_grouping_expr_eq,
    alloc_stmt_eq, store_statement, grow_statements_eq, panicking,
    previous, take_string, peek, advance_eq]

/-! ## Absent expressions, the else-branch, block storage and the first token -/

theorem assignment_absent_target (E : Env) (n : Nat) (s s1 : parser) (t : token)
    (h : equality E n s = .ok .null s1) (h1 : s1.tokens[s1.current]? = some t)
    (ht : t.type = TOKEN_EQUAL) :
    assignment E (n + 1) s = .fault .null_deref := by
  rw [assignment.eq_2]
  simp [h, match_eq, h1, ht]

theorem res_bind_assoc {α β γ : Type} (r : Res α) (f : α → M β) (g : β → M γ) :
    (r.bind f).bind g = r.bind (fun a s => (f a s).bind g) := by
  cases r <;> rfl

theorem res_bind_congr {α β : Type} (r : Res α) (f g : α → M β)
    (h : ∀ a s, f a s = g a s) : r.bind f = r.bind g := by
  cases r with
  | ok a s => exact h a s
  | fault f => rfl
  | timeout => rfl

theorem if_statement_eq (E : Env) (n : Nat) (s : parser) :
    if_statement E (n + 1) s = (if_head E n s).bind (fun ct => do
      let else_branch ← (do
        if (← match_ TOKEN_ELSE) then statement E n
        else pure .wild)
      get_if_statement ct.1 ct.2 else_branch) := by
  rw [if_statement.eq_2]
  unfold if_head
  simp only [bind_apply, res_bind_assoc, pure_apply, Res.bind_ok]
  refine res_bind_congr _ _ _ (fun _ _ => ?_)
  simp only [bind_apply, res_bind_assoc, pure_apply, Res.bind_ok]
  refine res_bind_congr _ _ _ (fun _ _ => ?_)
  simp only [bind_apply, res_bind_assoc, pure_apply, Res.bind_ok]
  refine res_bind_congr _ _ _ (fun _ _ => ?_)
  simp only [bind_apply, res_bind_assoc, pure_apply, Res.bind_ok]
  refine res_bind_congr _ _ _ (fun _ _ => ?_)
  simp only [bind_apply, res_bind_assoc, pure_apply, Res.bind_ok]

theorem if_statement_no_else (E : Env) (n : Nat) (s s1 : parser) (c : Ptr expr) (b : Ptr stmt)
    (t : token) (h : if_head E n s = .ok (c, b) s1) (h1 : s1.tokens[s1.current]? = some t)
    (ht : t.type ≠ TOKEN_ELSE) :
    if_statement E (n + 1) s
      = .ok (.ref (IfStmt c b .wild)) { s1 with allocs := s1.allocs + 1 } := by
  rw [if_statement_eq, h]
  simp [match_eq, h1, ht, get_if_statement_eq]

theorem if_statement_else (E : Env) (n : Nat) (s s1 s2 : parser) (c : Ptr expr)
    (b e : Ptr stmt) (t : token) (h : if_head E n s = .ok (c, b) s1)
    (h1 : s1.tokens[s1.current]? = some t) (ht : t.type = TOKEN_ELSE)
    (h2 : statement E n { s1 with current := s1.current + 1 } = .ok e s2) :
    if_statement E (n + 1) s
      = .ok (.ref (IfStmt c b e)) { s2 with allocs := s2.allocs + 1 } := by
  rw [if_statement_eq, h]
  simp [match_eq, h1, ht, h2, get_if_statement_eq]

theorem check_stmt_capacity_zero (b : stmt) (s : parser) (h : b.capacity = 0)
    (hc : 0 ≤ b.count) : check_stmt_capacity b s = .ok b s := by
  unfold check_stmt_capacity
  have : ¬ b.count = b.capacity - 1 := by omega
  simp [this]

theorem primary_at_start (E : Env) (n : Nat) (s : parser) (t : token)
    (hc : s.current = 0) (h : s.tokens[s.current]? = some t) (ht : t.type ∉ primary_start) :
    primary E (n + 1) s = .fault .token_index := by
  rw [primary_fail E n s t h ht]
  simp [error, previous, hc]

/-! ## The cursor -/

theorem eof_terminated_last (toks : List token) (h : eof_terminated toks) (i : Nat) (t : token)
    (hi : toks[i]? = some t) (ht : t.type ≠ TOKEN_EOF) : i + 1 < toks.length := by
  obtain ⟨front, eof, rfl, he, _⟩ := h
  have hlt : i < (front ++ [eof]).length := by
    by_contra hge
    rw [List.getElem?_eq_none (by omega)] at hi
    exact absurd hi (by simp)
  simp only [List.length_append, List.length_singleton] at hlt ⊢
  by_contra hge
  have hi2 : i = front.length := by omega
  subst hi2
  simp at hi
  rw [← hi] at ht
  exact ht he

theorem eof_terminated_eof (toks : List token) (h : eof_terminated toks) :
    ∃ t, toks[toks.length - 1]? = some t ∧ t.type = TOKEN_EOF := by
  obtain ⟨front, eof, rfl, he, _⟩ := h
  exact ⟨eof, by simp, he⟩

theorem peek_inside (toks : List token) (s : parser) (h : cursor_ok toks s) :
    ∃ t, peek s = .ok t s := by
  obtain ⟨h1, h2⟩ := h
  refine ⟨toks[s.current], ?_⟩
  unfold peek
  rw [h1, List.getElem?_eq_getElem h2]

theorem at_eof (s : parser) (t : token) (ty : tokentype) (msg : String)
    (h : s.tokens[s.current]? = some t) (ht : t.type = TOKEN_EOF) :
    check ty s = .ok false s ∧ match_ ty s = .ok false s
      ∧ consume ty msg s = .ok .null (error_state t s) ∧ advance s = previous s := by
  refine ⟨?_, ?_, ?_, ?_⟩
  · rw [check_eq, h]; simp [ht]
  · rw [match_eq, h]; simp [ht]
  · rw [consume_eq, h]; simp [ht]
  · unfold advance
    simp [is_at_end_eq, h, ht]

open Classical in
theorem synchronize_returns (s : parser) (h : eof_terminated s.tokens)
    (hc : s.current < s.tokens.length) :
    ∃ (k : Nat) (t : token), s.tokens[s.current + k]? = some t ∧ t.type ∈ sync_stops
      ∧ (∀ j, j < k → ∃ u, s.tokens[s.current + j]? = some u ∧ u.type ∉ sync_stops)
      ∧ synchronize s = .ok () { s with panicmode := false, current := s.current + k } := by
  have hex : ∃ k, ∃ t, s.tokens[s.current + k]? = some t ∧ t.type ∈ sync_stops := by
    obtain ⟨t, ht, hty⟩ := eof_terminated_eof s.tokens h
    refine ⟨s.tokens.length - 1 - s.current, t, ?_, by rw [hty]; decide⟩
    rw [← ht]
    congr 1
    omega
  obtain ⟨t, ht, hty⟩ := Nat.find_spec hex
  have hlt : s.current + Nat.find hex < s.tokens.length := by
    by_contra hge
    rw [List.getElem?_eq_none (by omega)] at ht
    exact absurd ht (by simp)
  have hskip : ∀ j, j < Nat.find hex →
      ∃ u, s.tokens[s.current + j]? = some u ∧ u.type ∉ sync_stops := by
    intro j hj
    have hj2 : s.current + j < s.tokens.length := by omega
    refine ⟨s.tokens[s.current + j], List.getElem?_eq_getElem hj2, ?_⟩
    intro hmem
    exact Nat.find_min hex hj ⟨_, List.getElem?_eq_getElem hj2, hmem⟩
  exact ⟨Nat.find hex, t, ht, hty, hskip, synchronize_first_stop _ s t hskip ht hty⟩

/-! ## Deallocation on particular trees -/

theorem parser_reset_eq (tag0 : Option stmttype) (s : parser) (l : List (Ptr stmt)) (n k : Nat)
    (h1 : s.statements = .ref l) (hn : s.num_statements = n)
    (h2 : delete_list tag0 n l = .ok k) :
    parser_reset tag0 s = .ok k (parser_init s) := by
  unfold parser_reset
  rw [h1, hn]
  simp [h2]

theorem parser_reset_fault (tag0 : Option stmttype) (s : parser) (l : List (Ptr stmt)) (n : Nat)
    (f : Fault) (h1 : s.statements = .ref l) (hn : s.num_statements = n)
    (h2 : delete_list tag0 n l = .error f) :
    parser_reset tag0 s = .fault f := by
  unfold parser_reset
  rw [h1, hn]
  simp [h2]

theorem delete_recovery (tag0 : Option stmttype) :
    delete_list tag0 2 [.ref (VarStmt (.ref (tok TOKEN_IDENTIFIER "x"))
      (.ref (ExprStmt (.ref (Literal .EXPR_LITERAL_NUMBER "1")))))] = .error .bad_pointer := rfl

theorem delete_assign (tag0 : Option stmttype) :
    delete_list tag0 1 [.ref (ExprStmt (.ref (Assign (.ref (tok TOKEN_IDENTIFIER "a"))
      (.ref (Literal .EXPR_LITERAL_NUMBER "1")))))] = .ok 3 := rfl

theorem delete_var_init (tag0 : Option stmttype) :
    delete_list tag0 1 [.ref (VarStmt (.ref (tok TOKEN_IDENTIFIER "x"))
      (.ref (ExprStmt (.ref (Literal .EXPR_LITERAL_NUMBER "1")))))] = .ok 3 := rfl

theorem parsed_one_owns (tag0 : Option stmttype) : parsed_one.owns_trees tag0 = true := rfl

set_option maxHeartbeats 4000000 in
set_option maxRecDepth 10000 in
theorem eval_parsed_one (n : Nat) :
    parse Env.zeroed (n + 24) one_tokens (parser_init parser.blank) = .ok false parsed_one := by
  rw [parse_eq]
  simp [one_tokens, parsed_one, Env.zeroed, parser.blank, start_state, parser_init, grown,
    parse_loop.eq_2, declaration.eq_2, statement.eq_2,
    expression_statement.eq_2, expression.eq_2, assignment.eq_2,
    equality.eq_2, equality_loop.eq_2,
    comparison.eq_2, comparison_loop.eq_2, addition.eq_2, addition_loop.eq_2,
    multiplication.eq_2, multiplication_loop.eq_2, unary.eq_2, primary.eq_2, match_eq,
    consume_eq, check_eq, error_eq, orelse_eq, is_at_end_eq, error_state, synchronize,
    synchronize_loop, tok, get_literal_expr_eq, get_expression_statement_eq,
    store_statement, grow_statements_eq, panicking,
    previous, take_string, peek, advance_eq]

theorem previous_after_match (ty : tokentype) (s s1 : parser)
    (h : match_ ty s = .ok true s1) :
    1 ≤ s1.current ∧ ∃ t, previous s1 = .ok t s1 := by
  rw [match_eq] at h
  split at h
  · exact absurd h (by simp)
  · rename_i t ht
    split at h
    · simp only [Res.ok.injEq, true_and] at h
      subst h
      exact ⟨Nat.le_add_left 1 _, t, previous_succ s t ht⟩
    · simp at h

/-! ## Runs that stay inside the token array -/

@[simp] theorem Res.over_ok {α : Type} (f : parser → parser) (a : α) (s : parser) :
    (Res.ok a s).over f = .ok a (f s) := rfl

@[simp] theorem Res.over_fault {α : Type} (f : parser → parser) (e : Fault) :
    (Res.fault e : Res α).over f = .fault e := rfl

@[simp] theorem Res.over_timeout {α : Type} (f : parser → parser) :
    (Res.timeout : Res α).over f = .timeout := rfl

theorem cursor_token (toks : List token) (s : parser) (hs : cursor_ok toks s) :
    ∃ t, s.tokens[s.current]? = some t := by
  obtain ⟨h1, h2⟩ := hs
  exact ⟨toks[s.current], by rw [h1, List.getElem?_eq_getElem h2]⟩

theorem pad_token (extra : List token) (s : parser) (t : token)
    (ht : s.tokens[s.current]? = some t) :
    (s.pad extra).tokens[(s.pad extra).current]? = some t := by
  have hlt : s.current < s.tokens.length := by
    by_contra hge
    rw [List.getElem?_eq_none (by omega)] at ht
    exact absurd ht (by simp)
  show (s.tokens ++ extra)[s.current]? = some t
  rw [List.getElem?_append_left hlt]
  exact ht

theorem ia_pure (toks extra : List token) {α : Type} (a : α) :
    InArray toks extra (pure a : M α) := by
  intro s hs
  refine ⟨rfl, ?_, ?_⟩
  · intro b s1 h
    simp only [pure_apply, Res.ok.injEq] at h
    rw [← h.2]
    exact ⟨hs, le_refl _⟩
  · intro h
    exact absurd h (by simp)

theorem ia_bind (toks extra : List token) {α β : Type} (m : M α) (k : α → M β)
    (hm : InArray toks extra m) (hk : ∀ a, InArray toks extra (k a)) :
    InArray toks extra (m >>= k) := by
  intro s hs
  obtain ⟨e1, o1, f1⟩ := hm s hs
  simp only [bind_apply]
  rw [e1]
  cases h : m s with
  | ok a s1 =>
    obtain ⟨hs1, hle⟩ := o1 a s1 h
    obtain ⟨e2, o2, f2⟩ := hk a s1 hs1
    simp only [Res.over_ok, Res.bind_ok]
    refine ⟨e2, ?_, ?_⟩
    · intro b s2 h2
      obtain ⟨hs2, hle2⟩ := o2 b s2 h2
      exact ⟨hs2, le_trans hle hle2⟩
    · intro h2
      have := f2 h2
      omega
  | fault f =>
    simp only [Res.over_fault, Res.bind_fault]
    refine ⟨trivial, ?_, ?_⟩
    · intro b s2 h2
      exact absurd h2 (by simp)
    · intro h2
      simp only [Res.fault.injEq] at h2
      exact f1 (by rw [h, h2])
  | timeout =>
    simp only [Res.over_timeout, Res.bind_timeout]
    refine ⟨trivial, ?_, ?_⟩
    · intro b s2 h2
      exact absurd h2 (by simp)
    · intro h2
      exact absurd h2 (by simp)

theorem ia_ite (toks extra : List token) {α : Type} (c : Prop) [Decidable c] (a b : M α)
    (ha : InArray toks extra a) (hb : InArray toks extra b) :
    InArray toks extra (if c then a else b) := by
  split
  · exact ha
  · exact hb

theorem ia_of_eq (toks extra : List token) {α : Type} (f g : M α) (h : ∀ s, f s = g s)
    (hg : InArray toks extra g) : InArray toks extra f := by
  have : f = g := funext h
  rw [this]
  exact hg

theorem ia_fault (toks extra : List token) {α : Type} (f : Fault) (hf : f ≠ .token_index) :
    InArray toks extra (fun _ => (.fault f : Res α)) := by
  intro s _
  refine ⟨rfl, ?_, ?_⟩
  · intro a s1 h
    exact absurd h (by simp)
  · intro h
    simp only [Res.fault.injEq] at h
    exact absurd h hf

theorem ia_timeout (toks extra : List token) {α : Type} :
    InArray toks extra (fun _ => (.timeout : Res α)) := by
  intro s _
  refine ⟨rfl, ?_, ?_⟩
  · intro a s1 h
    exact absurd h (by simp)
  · intro h
    exact absurd h (by simp)

/-- A step that returns a value read from the state and changes neither the
token array nor the cursor. -/
theorem ia_quiet (toks extra : List token) {α : Type} (v : parser → α) (f : parser → parser)
    (hv : ∀ s, v (s.pad extra) = v s) (hf : ∀ s, f (s.pad extra) = (f s).pad extra)
    (ht : ∀ s, (f s).tokens = s.tokens) (hc : ∀ s, (f s).current = s.current) :
    InArray toks extra (fun s => (.ok (v s) (f s) : Res α)) := by
  intro s hs
  refine ⟨?_, ?_, ?_⟩
  · simp only [Res.over_ok, hv, hf]
  · intro a s1 h
    simp only [Res.ok.injEq] at h
    rw [← h.2]
    exact ⟨⟨by rw [ht]; exact hs.1, by rw [hc]; exact hs.2⟩, by rw [hc]⟩
  · intro h
    exact absurd h (by simp)

/-! ## The elementary steps stay inside the token array -/

theorem ia_peek (toks extra : List token) : InArray toks extra peek := by
  intro s hs
  obtain ⟨t, ht⟩ := cursor_token toks s hs
  have hp := pad_token extra s t ht
  unfold peek
  rw [hp, ht]
  exact ⟨rfl, fun a s1 h => by
    simp only [Res.ok.injEq] at h
    rw [← h.2]
    exact ⟨hs, le_refl _⟩, fun h => absurd h (by simp)⟩

theorem ia_is_at_end (toks extra : List token) : InArray toks extra is_at_end := by
  intro s hs
  obtain ⟨t, ht⟩ := cursor_token toks s hs
  have hp := pad_token extra s t ht
  rw [is_at_end_eq, is_at_end_eq, hp, ht]
  exact ⟨rfl, fun a s1 h => by
    simp only [Res.ok.injEq] at h
    rw [← h.2]
    exact ⟨hs, le_refl _⟩, fun h => absurd h (by simp)⟩

theorem ia_check (toks extra : List token) (ty : tokentype) :
    InArray toks extra (check ty) := by
  intro s hs
  obtain ⟨t, ht⟩ := cursor_token toks s hs
  have hp := pad_token extra s t ht
  rw [check_eq, check_eq, hp, ht]
  exact ⟨rfl, fun a s1 h => by
    simp only [Res.ok.injEq] at h
    rw [← h.2]
    exact ⟨hs, le_refl _⟩, fun h => absurd h (by simp)⟩

theorem cursor_ok_next (toks : List token) (h : eof_terminated toks) (s : parser) (t : token)
    (hs : cursor_ok toks s) (ht : s.tokens[s.current]? = some t) (hne : t.type ≠ TOKEN_EOF) :
    cursor_ok toks { s with current := s.current + 1 } := by
  obtain ⟨h1, h2⟩ := hs
  rw [h1] at ht
  exact ⟨h1, eof_terminated_last toks h _ t ht hne⟩

theorem ia_match (toks extra : List token) (h : eof_terminated toks) (ty : tokentype) :
    InArray toks extra (match_ ty) := by
  intro s hs
  obtain ⟨t, ht⟩ := cursor_token toks s hs
  have hp := pad_token extra s t ht
  rw [match_eq, match_eq, hp, ht]
  simp only
  by_cases hc : t.type = ty ∧ t.type ≠ TOKEN_EOF
  · simp only [if_pos hc, Res.over_ok]
    refine ⟨rfl, fun a s1 h1 => ?_, fun h1 => absurd h1 (by simp)⟩
    simp only [Res.ok.injEq] at h1
    rw [← h1.2]
    exact ⟨cursor_ok_next toks h s t hs ht hc.2, Nat.le_succ _⟩
  · simp only [if_neg hc, Res.over_ok]
    refine ⟨trivial, fun a s1 h1 => ?_, fun h1 => absurd h1 (by simp)⟩
    simp only [Res.ok.injEq] at h1
    rw [← h1.2]
    exact ⟨hs, le_refl _⟩

theorem error_state_pad (extra : List token) (t : token) (s : parser) :
    error_state t (s.pad extra) = (error_state t s).pad extra := by
  unfold error_state parser.pad
  by_cases hp : s.panicmode = true <;> simp [hp]

theorem cursor_ok_error (toks : List token) (t : token) (s : parser) (hs : cursor_ok toks s) :
    cursor_ok toks (error_state t s) := by
  unfold cursor_ok at *
  rw [error_state_tokens, error_state_current]
  exact hs

theorem ia_consume (toks extra : List token) (h : eof_terminated toks) (ty : tokentype)
    (msg : String) : InArray toks extra (consume ty msg) := by
  intro s hs
  obtain ⟨t, ht⟩ := cursor_token toks s hs
  have hp := pad_token extra s t ht
  rw [consume_eq, consume_eq, hp, ht]
  simp only
  by_cases hc : t.type = ty ∧ t.type ≠ TOKEN_EOF
  · simp only [if_pos hc, Res.over_ok]
    refine ⟨rfl, fun a s1 h1 => ?_, fun h1 => absurd h1 (by simp)⟩
    simp only [Res.ok.injEq] at h1
    rw [← h1.2]
    exact ⟨cursor_ok_next toks h s t hs ht hc.2, Nat.le_succ _⟩
  · simp only [if_neg hc, Res.over_ok]
    refine ⟨by rw [error_state_pad], fun a s1 h1 => ?_, fun h1 => absurd h1 (by simp)⟩
    simp only [Res.ok.injEq] at h1
    rw [← h1.2]
    exact ⟨cursor_ok_error toks t s hs, by rw [error_state_current]⟩

theorem previous_token (toks : List token) (s : parser) (hs : cursor_ok toks s) :
    ∃ t, s.tokens[s.current - 1]? = some t := by
  obtain ⟨h1, h2⟩ := hs
  have : s.current - 1 < toks.length := by omega
  exact ⟨toks[s.current - 1], by rw [h1, List.getElem?_eq_getElem this]⟩

theorem pad_previous (extra : List token) (s : parser) (t : token)
    (ht : s.tokens[s.current - 1]? = some t) :
    (s.pad extra).tokens[(s.pad extra).current - 1]? = some t := by
  have hlt : s.current - 1 < s.tokens.length := by
    by_contra hge
    rw [List.getElem?_eq_none (by omega)] at ht
    exact absurd ht (by simp)
  show (s.tokens ++ extra)[s.current - 1]? = some t
  rw [List.getElem?_append_left hlt]
  exact ht

theorem ia_previous (toks extra : List token) : InArray toks extra previous := by
  intro s hs
  by_cases h0 : s.current = 0
  · have hp0 : (s.pad extra).current = 0 := h0
    simp only [previous, h0, hp0, ↓reduceIte, Res.over_fault]
    exact ⟨trivial, fun a s1 h => absurd h (by simp), fun _ => trivial⟩
  · obtain ⟨t, ht⟩ := previous_token toks s hs
    have hp := pad_previous extra s t ht
    have hp0 : ¬ (s.pad extra).current = 0 := h0
    simp only [previous, h0, hp0, ↓reduceIte, hp, ht, Res.over_ok]
    refine ⟨trivial, fun a s1 h => ?_, fun h => absurd h (by simp)⟩
    simp only [Res.ok.injEq] at h
    rw [← h.2]
    exact ⟨hs, le_refl _⟩

theorem ia_error (toks extra : List token) (msg : String) : InArray toks extra (error msg) := by
  intro s hs
  by_cases h0 : s.current = 0
  · have hp0 : (s.pad extra).current = 0 := h0
    rw [error_eq, error_eq]
    simp only [h0, hp0, ↓reduceIte, Res.over_fault]
    exact ⟨trivial, fun a s1 h => absurd h (by simp), fun _ => trivial⟩
  · obtain ⟨t, ht⟩ := previous_token toks s hs
    have hp := pad_previous extra s t ht
    have hp0 : ¬ (s.pad extra).current = 0 := h0
    rw [error_eq, error_eq]
    simp only [h0, hp0, ↓reduceIte, hp, ht, Res.over_ok]
    refine ⟨by rw [error_state_pad], fun a s1 h => ?_, fun h => absurd h (by simp)⟩
    simp only [Res.ok.injEq] at h
    rw [← h.2]
    exact ⟨cursor_ok_error toks t s hs, by rw [error_state_current]⟩

theorem ia_orelse (toks extra : List token) (a b : M Bool) (ha : InArray toks extra a)
    (hb : InArray toks extra b) : InArray toks extra (orelse a b) := by
  unfold orelse
  exact ia_bind toks extra _ _ ha (fun r => ia_ite toks extra _ _ _ (ia_pure toks extra _) hb)

theorem ia_panicking (toks extra : List token) : InArray toks extra panicking :=
  ia_quiet toks extra (fun s => s.panicmode) (fun s => s) (fun _ => rfl) (fun _ => rfl)
    (fun _ => rfl) (fun _ => rfl)

theorem ia_alloc (toks extra : List token) {α : Type} (a : α) :
    InArray toks extra (fun s => (.ok a { s with allocs := s.allocs + 1 } : Res α)) :=
  ia_quiet toks extra (fun _ => a) (fun s => { s with allocs := s.allocs + 1 }) (fun _ => rfl)
    (fun _ => rfl) (fun _ => rfl) (fun _ => rfl)

theorem ia_alloc_stmt (toks extra : List token) (E : Env) :
    InArray toks extra (alloc_stmt E) :=
  ia_quiet toks extra (fun s => E.raw_stmt s.allocs) (fun s => { s with allocs := s.allocs + 1 })
    (fun _ => rfl) (fun _ => rfl) (fun _ => rfl) (fun _ => rfl)

theorem ia_realloc_slots (toks extra : List token) (p : Ptr (List (Ptr stmt))) (c : Int) :
    InArray toks extra (realloc_slots p c) := by
  cases p with
  | wild => exact ia_fault toks extra _ (by decide)
  | null =>
    by_cases hc : c ≤ 0
    · exact ia_of_eq toks extra _ (pure .null)
        (fun s => by simp only [realloc_slots, if_pos hc, pure_apply]) (ia_pure toks extra _)
    · exact ia_of_eq toks extra _ (pure (.ref (List.replicate c.toNat .wild)))
        (fun s => by simp only [realloc_slots, if_neg hc, pure_apply]) (ia_pure toks extra _)
  | ref l =>
    by_cases hc : c ≤ 0
    · exact ia_of_eq toks extra _ (pure .null)
        (fun s => by simp only [realloc_slots, if_pos hc, pure_apply]) (ia_pure toks extra _)
    · exact ia_of_eq toks extra _
        (pure (.ref (l.take c.toNat ++ List.replicate (c.toNat - l.length) .wild)))
        (fun s => by simp only [realloc_slots, if_neg hc, pure_apply]) (ia_pure toks extra _)

theorem ia_check_stmt_capacity (toks extra : List token) (b : stmt) :
    InArray toks extra (check_stmt_capacity b) := by
  unfold check_stmt_capacity
  exact ia_ite toks extra _ _ _
    (ia_bind toks extra _ _ (ia_realloc_slots toks extra _ _) (fun _ => ia_pure toks extra _))
    (ia_pure toks extra _)

theorem ia_store_slot (toks extra : List token) (b : stmt) (i : Nat) (d : Ptr stmt) :
    InArray toks extra (store_slot b i d) := by
  cases hb : b.stmts with
  | null =>
    exact ia_of_eq toks extra _ (fun _ => .fault .null_deref)
      (fun s => by simp only [store_slot, hb]) (ia_fault toks extra _ (by decide))
  | wild =>
    exact ia_of_eq toks extra _ (fun _ => .fault .bad_pointer)
      (fun s => by simp only [store_slot, hb]) (ia_fault toks extra _ (by decide))
  | ref l =>
    by_cases hc : i < l.length
    · exact ia_of_eq toks extra _ (pure { b with stmts := .ref (l.set i d) })
        (fun s => by simp only [store_slot, hb, if_pos hc, pure_apply]) (ia_pure toks extra _)
    · exact ia_of_eq toks extra _ (fun _ => .fault .store_index)
        (fun s => by simp only [store_slot, hb, if_neg hc]) (ia_fault toks extra _ (by decide))

theorem ia_synchronize (toks extra : List token) (h : eof_terminated toks) :
    InArray toks extra synchronize := by
  intro s hs
  obtain ⟨h1, h2⟩ := hs
  obtain ⟨k, t, ht, hty, hskip, hsync⟩ := synchronize_returns s (by rw [h1]; exact h)
    (by rw [h1]; exact h2)
  have hlt : s.current + k < s.tokens.length := by
    by_contra hge
    rw [List.getElem?_eq_none (by omega)] at ht
    exact absurd ht (by simp)
  have hpad : ∀ j, j ≤ k → (s.tokens ++ extra)[s.current + j]? = s.tokens[s.current + j]? :=
    fun j hj => List.getElem?_append_left (by omega)
  have hsync2 := synchronize_first_stop k (s.pad extra) t
    (by
      intro j hj
      obtain ⟨u, hu, hun⟩ := hskip j hj
      exact ⟨u, by show (s.tokens ++ extra)[s.current + j]? = some u
                   rw [hpad j (by omega)]; exact hu, hun⟩)
    (by show (s.tokens ++ extra)[s.current + k]? = some t
        rw [hpad k (le_refl _)]; exact ht) hty
  rw [hsync2, hsync]
  refine ⟨rfl, fun a s1 h3 => ?_, fun h3 => absurd h3 (by simp)⟩
  simp only [Res.ok.injEq] at h3
  rw [← h3.2]
  exact ⟨⟨h1, by rw [← h1]; exact hlt⟩, Nat.le_add_right _ _⟩

theorem ia_advance (toks extra : List token) (h : eof_terminated toks) :
    InArray toks extra advance := by
  intro s hs
  obtain ⟨t, ht⟩ := cursor_token toks s hs
  have hp := pad_token extra s t ht
  by_cases he : t.type = TOKEN_EOF
  · rw [(at_eof s t TOKEN_EOF "" ht he).2.2.2, (at_eof (s.pad extra) t TOKEN_EOF "" hp he).2.2.2]
    exact ia_previous toks extra s hs
  · rw [advance_eq s t ht he, advance_eq (s.pad extra) t hp he]
    refine ⟨rfl, fun a s1 h1 => ?_, fun h1 => absurd h1 (by simp)⟩
    simp only [Res.ok.injEq] at h1
    rw [← h1.2]
    exact ⟨cursor_ok_next toks h s t hs ht he, Nat.le_succ _⟩

/-! ## Every grammar function stays inside the token array -/

theorem ia_get_literal_expr (toks extra : List token) (v : String) (k : exprtype) :
    InArray toks extra (get_literal_expr v k) := ia_alloc toks extra _

theorem ia_get_variable_expr (toks extra : List token) (t : token) :
    InArray toks extra (get_variable_expr t) := ia_alloc toks extra _

theorem ia_get_binary_expr (toks extra : List token) (op : token) (l r : Ptr expr) :
    InArray toks extra (get_binary_expr op l r) := ia_alloc toks extra _

theorem ia_get_unary_expr (toks extra : List token) (op : token) (r : Ptr expr) :
    InArray toks extra (get_unary_expr op r) := ia_alloc toks extra _

theorem ia_get_grouping_expr (toks extra : List token) (e : Ptr expr) :
    InArray toks extra (get_grouping_expr e) := ia_alloc toks extra _

theorem ia_get_assign_expr (toks extra : List token) (n : Ptr token) (v : Ptr expr) :
    InArray toks extra (get_assign_expr n v) := ia_alloc toks extra _

theorem ia_get_expression_statement (toks extra : List token) (e : Ptr expr) :
    InArray toks extra (get_expression_statement e) := ia_alloc toks extra _

theorem ia_get_variable_statement (toks extra : List token) (n : Ptr token) (i : Ptr stmt) :
    InArray toks extra (get_variable_statement n i) := ia_alloc toks extra _

theorem ia_get_for_statement (toks extra : List token) (a b c d : Ptr stmt) :
    InArray toks extra (get_for_statement a b c d) := ia_alloc toks extra _

theorem ia_get_while_statement (toks extra : List token) (c : Ptr expr) (b : Ptr stmt) :
    InArray toks extra (get_while_statement c b) := ia_alloc toks extra _

theorem ia_get_if_statement (toks extra : List token) (c : Ptr expr) (a b : Ptr stmt) :
    InArray toks extra (get_if_statement c a b) := ia_alloc toks extra _

theorem all_in_array_zero (toks extra : List token) (E : Env) : AllInArray toks extra E 0 := by
  unfold AllInArray
  refine ⟨?_, ?_, ?_, ?_, ?_, ?_, ?_, ?_, ?_, ?_, ?_, ?_, ?_, ?_, ?_, ?_, ?_, ?_, ?_, ?_, ?_⟩ <;>
    intros <;> exact ia_timeout toks extra

theorem ia_primary_succ (toks extra : List token) (h : eof_terminated toks)
    (E : Env) (n : Nat) (ih : AllInArray toks extra E n) :
    InArray toks extra (primary E (n + 1)) := by
  obtain ⟨i_primary, i_unary, i_multiplication_loop, i_multiplication,
    i_addition_loop, i_addition, i_comparison_loop, i_comparison,
    i_equality_loop, i_equality, i_assignment, i_expression,
    i_var_declaration, i_declaration, i_block_loop, i_block,
    i_if_statement, i_for_statement, i_while_statement, i_expression_statement,
    i_statement⟩ := ih
  refine ia_of_eq toks extra _ _ (fun s => primary.eq_2 E s n) ?_
  repeat' with_reducible first
    | exact ia_pure toks extra _
    | exact ia_match toks extra h _
    | exact ia_consume toks extra h _ _
    | exact ia_previous toks extra
    | exact ia_error toks extra _
    | exact ia_panicking toks extra
    | exact ia_synchronize toks extra h
    | exact ia_is_at_end toks extra
    | exact ia_check toks extra _
    | exact ia_alloc_stmt toks extra _
    | exact ia_check_stmt_capacity toks extra _
    | exact ia_store_slot toks extra _ _ _
    | exact ia_get_literal_expr toks extra _ _
    | exact ia_get_variable_expr toks extra _
    | exact ia_get_binary_expr toks extra _ _ _
    | exact ia_get_unary_expr toks extra _ _
    | exact ia_get_grouping_expr toks extra _
    | exact ia_get_assign_expr toks extra _ _
    | exact ia_get_expression_statement toks extra _
    | exact ia_get_variable_statement toks extra _ _
    | exact ia_get_for_statement toks extra _ _ _ _
    | exact ia_get_while_statement toks extra _ _
    | exact ia_get_if_statement toks extra _ _ _
    | exact ia_fault toks extra _ (by decide)
    | assumption
    | exact i_multiplication_loop _
    | exact i_addition_loop _
    | exact i_comparison_loop _
    | exact i_equality_loop _
    | exact i_block_loop _ _
    | apply ia_orelse toks extra
    | apply ia_bind toks extra
    | apply ia_ite toks extra
    | intro _

theorem ia_unary_succ (toks extra : List token) (h : eof_terminated toks)
    (E : Env) (n : Nat) (ih : AllInArray toks extra E n) :
    InArray toks extra (unary E (n + 1)) := by
  obtain ⟨i_primary, i_unary, i_multiplication_loop, i_multiplication,
    i_addition_loop, i_addition, i_comparison_loop, i_comparison,
    i_equality_loop, i_equality, i_assignment, i_expression,
    i_var_declaration, i_declaration, i_block_loop, i_block,
    i_if_statement, i_for_statement, i_while_statement, i_expression_statement,
    i_statement⟩ := ih
  refine ia_of_eq toks extra _ _ (fun s => unary.eq_2 E s n) ?_
  repeat' with_reducible first
    | exact ia_pure toks extra _
    | exact ia_match toks extra h _
    | exact ia_consume toks extra h _ _
    | exact ia_previous toks extra
    | exact ia_error toks extra _
    | exact ia_panicking toks extra
    | exact ia_synchronize toks extra h
    | exact ia_is_at_end toks extra
    | exact ia_check toks extra _
    | exact ia_alloc_stmt toks extra _
    | exact ia_check_stmt_capacity toks extra _
    | exact ia_store_slot toks extra _ _ _
    | exact ia_get_literal_expr toks extra _ _
    | exact ia_get_variable_expr toks extra _
    | exact ia_get_binary_expr toks extra _ _ _
    | exact ia_get_unary_expr toks extra _ _
    | exact ia_get_grouping_expr toks extra _
    | exact ia_get_assign_expr toks extra _ _
    | exact ia_get_expression_statement toks extra _
    | exact ia_get_variable_statement toks extra _ _
    | exact ia_get_for_statement toks extra _ _ _ _
    | exact ia_get_while_statement toks extra _ _
    | exact ia_get_if_statement toks extra _ _ _
    | exact ia_fault toks extra _ (by decide)
    | assumption
    | exact i_multiplication_loop _
    | exact i_addition_loop _
    | exact i_comparison_loop _
    | exact i_equality_loop _
    | exact i_block_loop _ _
    | apply ia_orelse toks extra
    | apply ia_bind toks extra
    | apply ia_ite toks extra
    | intro _

theorem ia_multiplication_loop_succ (toks extra : List token) (h : eof_terminated toks)
    (E : Env) (n : Nat) (ih : AllInArray toks extra E n) (e : Ptr expr) :
    InArray toks extra (multiplication_loop E (n + 1) e) := by
  obtain ⟨i_primary, i_unary, i_multiplication_loop, i_multiplication,
    i_addition_loop, i_addition, i_comparison_loop, i_comparison,
    i_equality_loop, i_equality, i_assignment, i_expression,
    i_var_declaration, i_declaration, i_block_loop, i_block,
    i_if_statement, i_for_statement, i_while_statement, i_expression_statement,
    i_statement⟩ := ih
  refine ia_of_eq toks extra _ _ (fun s => multiplication_loop.eq_2 E e s n) ?_
  repeat' with_reducible first
    | exact ia_pure toks extra _
    | exact ia_match toks extra h _
    | exact ia_consume toks extra h _ _
    | exact ia_previous toks extra
    | exact ia_error toks extra _
    | exact ia_panicking toks extra
    | exact ia_synchronize toks extra h
    | exact ia_is_at_end toks extra
    | exact ia_check toks extra _
    | exact ia_alloc_stmt toks extra _
    | exact ia_check_stmt_capacity toks extra _
    | exact ia_store_slot toks extra _ _ _
    | exact ia_get_literal_expr toks extra _ _
    | exact ia_get_variable_expr toks extra _
    | exact ia_get_binary_expr toks extra _ _ _
    | exact ia_get_unary_expr toks extra _ _
    | exact ia_get_grouping_expr toks extra _
    | exact ia_get_assign_expr toks extra _ _
    | exact ia_get_expression_statement toks extra _
    | exact ia_get_variable_statement toks extra _ _
    | exact ia_get_for_statement toks extra _ _ _ _
    | exact ia_get_while_statement toks extra _ _
    | exact ia_get_if_statement toks extra _ _ _
    | exact ia_fault toks extra _ (by decide)
    | assumption
    | exact i_multiplication_loop _
    | exact i_addition_loop _
    | exact i_comparison_loop _
    | exact i_equality_loop _
    | exact i_block_loop _ _
    | apply ia_orelse toks extra
    | apply ia_bind toks extra
    | apply ia_ite toks extra
    | intro _

theorem ia_multiplication_succ (toks extra : List token)
    (E : Env) (n : Nat) (ih : AllInArray toks extra E n) :
    InArray toks extra (multiplication E (n + 1)) := by
  obtain ⟨i_primary, i_unary, i_multiplication_loop, i_multiplication,
    i_addition_loop, i_addition, i_comparison_loop, i_comparison,
    i_equality_loop, i_equality, i_assignment, i_expression,
    i_var_declaration, i_declaration, i_block_loop, i_block,
    i_if_statement, i_for_statement, i_while_statement, i_expression_statement,
    i_statement⟩ := ih
  exact ia_of_eq toks extra _ _ (fun s => multiplication.eq_2 E s n)
    (ia_bind toks extra _ _ i_unary i_multiplication_loop)

theorem ia_addition_loop_succ (toks extra : List token) (h : eof_terminated toks)
    (E : Env) (n : Nat) (ih : AllInArray toks extra E n) (e : Ptr expr) :
    InArray toks extra (addition_loop E (n + 1) e) := by
  obtain ⟨i_primary, i_unary, i_multiplication_loop, i_multiplication,
    i_addition_loop, i_addition, i_comparison_loop, i_comparison,
    i_equality_loop, i_equality, i_assignment, i_expression,
    i_var_declaration, i_declaration, i_block_loop, i_block,
    i_if_statement, i_for_statement, i_while_statement, i_expression_statement,
    i_statement⟩ := ih
  refine ia_of_eq toks extra _ _ (fun s => addition_loop.eq_2 E e s n) ?_
  repeat' with_reducible first
    | exact ia_pure toks extra _
    | exact ia_match toks extra h _
    | exact ia_consume toks extra h _ _
    | exact ia_previous toks extra
    | exact ia_error toks extra _
    | exact ia_panicking toks extra
    | exact ia_synchronize toks extra h
    | exact ia_is_at_end toks extra
    | exact ia_check toks extra _
    | exact ia_alloc_stmt toks extra _
    | exact ia_check_stmt_capacity toks extra _
    | exact ia_store_slot toks extra _ _ _
    | exact ia_get_literal_expr toks extra _ _
    | exact ia_get_variable_expr toks extra _
    | exact ia_get_binary_expr toks extra _ _ _
    | exact ia_get_unary_expr toks extra _ _
    | exact ia_get_grouping_expr toks extra _
    | exact ia_get_assign_expr toks extra _ _
    | exact ia_get_expression_statement toks extra _
    | exact ia_get_variable_statement toks extra _ _
    | exact ia_get_for_statement toks extra _ _ _ _
    | exact ia_get_while_statement toks extra _ _
    | exact ia_get_if_statement toks extra _ _ _
    | exact ia_fault toks extra _ (by decide)
    | assumption
    | exact i_multiplication_loop _
    | exact i_addition_loop _
    | exact i_comparison_loop _
    | exact i_equality_loop _
    | exact i_block_loop _ _
    | apply ia_orelse toks extra
    | apply ia_bind toks extra
    | apply ia_ite toks extra
    | intro _

theorem ia_addition_succ (toks extra : List token)
    (E : Env) (n : Nat) (ih : AllInArray toks extra E n) :
    InArray toks extra (addition E (n + 1)) := by
  obtain ⟨i_primary, i_unary, i_multiplication_loop, i_multiplication,
    i_addition_loop, i_addition, i_comparison_loop, i_comparison,
    i_equality_loop, i_equality, i_assignment, i_expression,
    i_var_declaration, i_declaration, i_block_loop, i_block,
    i_if_statement, i_for_statement, i_while_statement, i_expression_statement,
    i_statement⟩ := ih
  exact ia_of_eq toks extra _ _ (fun s => addition.eq_2 E s n)
    (ia_bind toks extra _ _ i_multiplication i_addition_loop)

theorem ia_comparison_loop_succ (toks extra : List token) (h : eof_terminated toks)
    (E : Env) (n : Nat) (ih : AllInArray toks extra E n) (e : Ptr expr) :
    InArray toks extra (comparison_loop E (n + 1) e) := by
  obtain ⟨i_primary, i_unary, i_multiplication_loop, i_multiplication,
    i_addition_loop, i_addition, i_comparison_loop, i_comparison,
    i_equality_loop, i_equality, i_assignment, i_expression,
    i_var_declaration, i_declaration, i_block_loop, i_block,
    i_if_statement, i_for_statement, i_while_statement, i_expression_statement,
    i_statement⟩ := ih
  refine ia_of_eq toks extra _ _ (fun s => comparison_loop.eq_2 E e s n) ?_
  repeat' with_reducible first
    | exact ia_pure toks extra _
    | exact ia_match toks extra h _
    | exact ia_consume toks extra h _ _
    | exact ia_previous toks extra
    | exact ia_error toks extra _
    | exact ia_panicking toks extra
    | exact ia_synchronize toks extra h
    | exact ia_is_at_end toks extra
    | exact ia_check toks extra _
    | exact ia_alloc_stmt toks extra _
    | exact ia_check_stmt_capacity toks extra _
    | exact ia_store_slot toks extra _ _ _
    | exact ia_get_literal_expr toks extra _ _
    | exact ia_get_variable_expr toks extra _
    | exact ia_get_binary_expr toks extra _ _ _
    | exact ia_get_unary_expr toks extra _ _
    | exact ia_get_grouping_expr toks extra _
    | exact ia_get_assign_expr toks extra _ _
    | exact ia_get_expression_statement toks extra _
    | exact ia_get_variable_statement toks extra _ _
    | exact ia_get_for_statement toks extra _ _ _ _
    | exact ia_get_while_statement toks extra _ _
    | exact ia_get_if_statement toks extra _ _ _
    | exact ia_fault toks extra _ (by decide)
    | assumption
    | exact i_multiplication_loop _
    | exact i_addition_loop _
    | exact i_comparison_loop _
    | exact i_equality_loop _
    | exact i_block_loop _ _
    | apply ia_orelse toks extra
    | apply ia_bind toks extra
    | apply ia_ite toks extra
    | intro _

theorem ia_comparison_succ (toks extra : List token)
    (E : Env) (n : Nat) (ih : AllInArray toks extra E n) :
    InArray toks extra (comparison E (n + 1)) := by
  obtain ⟨i_primary, i_unary, i_multiplication_loop, i_multiplication,
    i_addition_loop, i_addition, i_comparison_loop, i_comparison,
    i_equality_loop, i_equality, i_assignment, i_expression,
    i_var_declaration, i_declaration, i_block_loop, i_block,
    i_if_statement, i_for_statement, i_while_statement, i_expression_statement,
    i_statement⟩ := ih
  exact ia_of_eq toks extra _ _ (fun s => comparison.eq_2 E s n)
    (ia_bind toks extra _ _ i_addition i_comparison_loop)

theorem ia_equality_loop_succ (toks extra : List token) (h : eof_terminated toks)
    (E : Env) (n : Nat) (ih : AllInArray toks extra E n) (e : Ptr expr) :
    InArray toks extra (equality_loop E (n + 1) e) := by
  obtain ⟨i_primary, i_unary, i_multiplication_loop, i_multiplication,
    i_addition_loop, i_addition, i_comparison_loop, i_comparison,
    i_equality_loop, i_equality, i_assignment, i_expression,
    i_var_declaration, i_declaration, i_block_loop, i_block,
    i_if_statement, i_for_statement, i_while_statement, i_expression_statement,
    i_statement⟩ := ih
  refine ia_of_eq toks extra _ _ (fun s => equality_loop.eq_2 E e s n) ?_
  repeat' with_reducible first
    | exact ia_pure toks extra _
    | exact ia_match toks extra h _
    | exact ia_consume toks extra h _ _
    | exact ia_previous toks extra
    | exact ia_error toks extra _
    | exact ia_panicking toks extra
    | exact ia_synchronize toks extra h
    | exact ia_is_at_end toks extra
    | exact ia_check toks extra _
    | exact ia_alloc_stmt toks extra _
    | exact ia_check_stmt_capacity toks extra _
    | exact ia_store_slot toks extra _ _ _
    | exact ia_get_literal_expr toks extra _ _
    | exact ia_get_variable_expr toks extra _
    | exact ia_get_binary_expr toks extra _ _ _
    | exact ia_get_unary_expr toks extra _ _
    | exact ia_get_grouping_expr toks extra _
    | exact ia_get_assign_expr toks extra _ _
    | exact ia_get_expression_statement toks extra _
    | exact ia_get_variable_statement toks extra _ _
    | exact ia_get_for_statement toks extra _ _ _ _
    | exact ia_get_while_statement toks extra _ _
    | exact ia_get_if_statement toks extra _ _ _
    | exact ia_fault toks extra _ (by decide)
    | assumption
    | exact i_multiplication_loop _
    | exact i_addition_loop _
    | exact i_comparison_loop _
    | exact i_equality_loop _
    | exact i_block_loop _ _
    | apply ia_orelse toks extra
    | apply ia_bind toks extra
    | apply ia_ite toks extra
    | intro _

theorem ia_equality_succ (toks extra : List token)
    (E : Env) (n : Nat) (ih : AllInArray toks extra E n) :
    InArray toks extra (equality E (n + 1)) := by
  obtain ⟨i_primary, i_unary, i_multiplication_loop, i_multiplication,
    i_addition_loop, i_addition, i_comparison_loop, i_comparison,
    i_equality_loop, i_equality, i_assignment, i_expression,
    i_var_declaration, i_declaration, i_block_loop, i_block,
    i_if_statement, i_for_statement, i_while_statement, i_expression_statement,
    i_statement⟩ := ih
  exact ia_of_eq toks extra _ _ (fun s => equality.eq_2 E s n)
    (ia_bind toks extra _ _ i_comparison i_equality_loop)

theorem ia_assignment_succ (toks extra : List token) (h : eof_terminated toks)
    (E : Env) (n : Nat) (ih : AllInArray toks extra E n) :
    InArray toks extra (assignment E (n + 1)) := by
  obtain ⟨i_primary, i_unary, i_multiplication_loop, i_multiplication,
    i_addition_loop, i_addition, i_comparison_loop, i_comparison,
    i_equality_loop, i_equality, i_assignment, i_expression,
    i_var_declaration, i_declaration, i_block_loop, i_block,
    i_if_statement, i_for_statement, i_while_statement, i_expression_statement,
    i_statement⟩ := ih
  refine ia_of_eq toks extra _ _ (fun s => assignment.eq_2 E s n) ?_
  apply ia_bind toks extra _ _ i_equality
  intro new_expr
  apply ia_bind toks extra _ _ (ia_match toks extra h _)
  intro r
  apply ia_ite
  · cases new_expr with
    | null => exact ia_fault toks extra _ (by decide)
    | wild => exact ia_fault toks extra _ (by decide)
    | ref e =>
      show InArray toks extra (if e.type = some exprtype.EXPR_VARIABLE then _ else _)
      apply ia_ite
      · exact ia_bind toks extra _ _ i_assignment (fun _ => ia_get_assign_expr toks extra _ _)
      · exact ia_bind toks extra _ _ (ia_error toks extra _) (fun _ => ia_pure toks extra _)
  · exact ia_pure toks extra _

theorem ia_expression_succ (toks extra : List token)
    (E : Env) (n : Nat) (ih : AllInArray toks extra E n) :
    InArray toks extra (expression E (n + 1)) := by
  obtain ⟨i_primary, i_unary, i_multiplication_loop, i_multiplication,
    i_addition_loop, i_addition, i_comparison_loop, i_comparison,
    i_equality_loop, i_equality, i_assignment, i_expression,
    i_var_declaration, i_declaration, i_block_loop, i_block,
    i_if_statement, i_for_statement, i_while_statement, i_expression_statement,
    i_statement⟩ := ih
  exact ia_of_eq toks extra _ _ (fun s => expression.eq_2 E s n) i_assignment

theorem ia_var_declaration_succ (toks extra : List token) (h : eof_terminated toks)
    (E : Env) (n : Nat) (ih : AllInArray toks extra E n) :
    InArray toks extra (var_declaration E (n + 1)) := by
  obtain ⟨i_primary, i_unary, i_multiplication_loop, i_multiplication,
    i_addition_loop, i_addition, i_comparison_loop, i_comparison,
    i_equality_loop, i_equality, i_assignment, i_expression,
    i_var_declaration, i_declaration, i_block_loop, i_block,
    i_if_statement, i_for_statement, i_while_statement, i_expression_statement,
    i_statement⟩ := ih
  refine ia_of_eq toks extra _ _ (fun s => var_declaration.eq_2 E s n) ?_
  repeat' with_reducible first
    | exact ia_pure toks extra _
    | exact ia_match toks extra h _
    | exact ia_consume toks extra h _ _
    | exact ia_previous toks extra
    | exact ia_error toks extra _
    | exact ia_panicking toks extra
    | exact ia_synchronize toks extra h
    | exact ia_is_at_end toks extra
    | exact ia_check toks extra _
    | exact ia_alloc_stmt toks extra _
    | exact ia_check_stmt_capacity toks extra _
    | exact ia_store_slot toks extra _ _ _
    | exact ia_get_literal_expr toks extra _ _
    | exact ia_get_variable_expr toks extra _
    | exact ia_get_binary_expr toks extra _ _ _
    | exact ia_get_unary_expr toks extra _ _
    | exact ia_get_grouping_expr toks extra _
    | exact ia_get_assign_expr toks extra _ _
    | exact ia_get_expression_statement toks extra _
    | exact ia_get_variable_statement toks extra _ _
    | exact ia_get_for_statement toks extra _ _ _ _
    | exact ia_get_while_statement toks extra _ _
    | exact ia_get_if_statement toks extra _ _ _
    | exact ia_fault toks extra _ (by decide)
    | assumption
    | exact i_multiplication_loop _
    | exact i_addition_loop _
    | exact i_comparison_loop _
    | exact i_equality_loop _
    | exact i_block_loop _ _
    | apply ia_orelse toks extra
    | apply ia_bind toks extra
    | apply ia_ite toks extra
    | intro _

theorem ia_declaration_succ (toks extra : List token) (h : eof_terminated toks)
    (E : Env) (n : Nat) (ih : AllInArray toks extra E n) :
    InArray toks extra (declaration E (n + 1)) := by
  obtain ⟨i_primary, i_unary, i_multiplication_loop, i_multiplication,
    i_addition_loop, i_addition, i_comparison_loop, i_comparison,
    i_equality_loop, i_equality, i_assignment, i_expression,
    i_var_declaration, i_declaration, i_block_loop, i_block,
    i_if_statement, i_for_statement, i_while_statement, i_expression_statement,
    i_statement⟩ := ih
  refine ia_of_eq toks extra _ _ (fun s => declaration.eq_2 E s n) ?_
  repeat' with_reducible first
    | exact ia_pure toks extra _
    | exact ia_match toks extra h _
    | exact ia_consume toks extra h _ _
    | exact ia_previous toks extra
    | exact ia_error toks extra _
    | exact ia_panicking toks extra
    | exact ia_synchronize toks extra h
    | exact ia_is_at_end toks extra
    | exact ia_check toks extra _
    | exact ia_alloc_stmt toks extra _
    | exact ia_check_stmt_capacity toks extra _
    | exact ia_store_slot toks extra _ _ _
    | exact ia_get_literal_expr toks extra _ _
    | exact ia_get_variable_expr toks extra _
    | exact ia_get_binary_expr toks extra _ _ _
    | exact ia_get_unary_expr toks extra _ _
    | exact ia_get_grouping_expr toks extra _
    | exact ia_get_assign_expr toks extra _ _
    | exact ia_get_expression_statement toks extra _
    | exact ia_get_variable_statement toks extra _ _
    | exact ia_get_for_statement toks extra _ _ _ _
    | exact ia_get_while_statement toks extra _ _
    | exact ia_get_if_statement toks extra _ _ _
    | exact ia_fault toks extra _ (by decide)
    | assumption
    | exact i_multiplication_loop _
    | exact i_addition_loop _
    | exact i_comparison_loop _
    | exact i_equality_loop _
    | exact i_block_loop _ _
    | apply ia_orelse toks extra
    | apply ia_bind toks extra
    | apply ia_ite toks extra
    | intro _

theorem ia_block_loop_succ (toks extra : List token)
    (E : Env) (n : Nat) (ih : AllInArray toks extra E n) (b : stmt) (i : Nat) :
    InArray toks extra (block_loop E (n + 1) b i) := by
  obtain ⟨i_primary, i_unary, i_multiplication_loop, i_multiplication,
    i_addition_loop, i_addition, i_comparison_loop, i_comparison,
    i_equality_loop, i_equality, i_assignment, i_expression,
    i_var_declaration, i_declaration, i_block_loop, i_block,
    i_if_statement, i_for_statement, i_while_statement, i_expression_statement,
    i_statement⟩ := ih
  refine ia_of_eq toks extra _ _ (fun s => block_loop.eq_2 E b i s n) ?_
  repeat' with_reducible first
    | exact ia_pure toks extra _
    | exact ia_match toks extra h _
    | exact ia_consume toks extra h _ _
    | exact ia_previous toks extra
    | exact ia_error toks extra _
    | exact ia_panicking toks extra
    | exact ia_synchronize toks extra h
    | exact ia_is_at_end toks extra
    | exact ia_check toks extra _
    | exact ia_alloc_stmt toks extra _
    | exact ia_check_stmt_capacity toks extra _
    | exact ia_store_slot toks extra _ _ _
    | exact ia_get_literal_expr toks extra _ _
    | exact ia_get_variable_expr toks extra _
    | exact ia_get_binary_expr toks extra _ _ _
    | exact ia_get_unary_expr toks extra _ _
    | exact ia_get_grouping_expr toks extra _
    | exact ia_get_assign_expr toks extra _ _
    | exact ia_get_expression_statement toks extra _
    | exact ia_get_variable_statement toks extra _ _
    | exact ia_get_for_statement toks extra _ _ _ _
    | exact ia_get_while_statement toks extra _ _
    | exact ia_get_if_statement toks extra _ _ _
    | exact ia_fault toks extra _ (by decide)
    | assumption
    | exact i_multiplication_loop _
    | exact i_addition_loop _
    | exact i_comparison_loop _
    | exact i_equality_loop _
    | exact i_block_loop _ _
    | apply ia_orelse toks extra
    | apply ia_bind toks extra
    | apply ia_ite toks extra
    | intro _

theorem ia_block_succ (toks extra : List token) (h : eof_terminated toks)
    (E : Env) (n : Nat) (ih : AllInArray toks extra E n) :
    InArray toks extra (block E (n + 1)) := by
  obtain ⟨i_primary, i_unary, i_multiplication_loop, i_multiplication,
    i_addition_loop, i_addition, i_comparison_loop, i_comparison,
    i_equality_loop, i_equality, i_assignment, i_expression,
    i_var_declaration, i_declaration, i_block_loop, i_block,
    i_if_statement, i_for_statement, i_while_statement, i_expression_statement,
    i_statement⟩ := ih
  refine ia_of_eq toks extra _ _ (fun s => block.eq_2 E s n) ?_
  repeat' with_reducible first
    | exact ia_pure toks extra _
    | exact ia_match toks extra h _
    | exact ia_consume toks extra h _ _
    | exact ia_previous toks extra
    | exact ia_error toks extra _
    | exact ia_panicking toks extra
    | exact ia_synchronize toks extra h
    | exact ia_is_at_end toks extra
    | exact ia_check toks extra _
    | exact ia_alloc_stmt toks extra _
    | exact ia_check_stmt_capacity toks extra _
    | exact ia_store_slot toks extra _ _ _
    | exact ia_get_literal_expr toks extra _ _
    | exact ia_get_variable_expr toks extra _
    | exact ia_get_binary_expr toks extra _ _ _
    | exact ia_get_unary_expr toks extra _ _
    | exact ia_get_grouping_expr toks extra _
    | exact ia_get_assign_expr toks extra _ _
    | exact ia_get_expression_statement toks extra _
    | exact ia_get_variable_statement toks extra _ _
    | exact ia_get_for_statement toks extra _ _ _ _
    | exact ia_get_while_statement toks extra _ _
    | exact ia_get_if_statement toks extra _ _ _
    | exact ia_fault toks extra _ (by decide)
    | assumption
    | exact i_multiplication_loop _
    | exact i_addition_loop _
    | exact i_comparison_loop _
    | exact i_equality_loop _
    | exact i_block_loop _ _
    | apply ia_orelse toks extra
    | apply ia_bind toks extra
    | apply ia_ite toks extra
    | intro _

theorem ia_if_statement_succ (toks extra : List token) (h : eof_terminated toks)
    (E : Env) (n : Nat) (ih : AllInArray toks extra E n) :
    InArray toks extra (if_statement E (n + 1)) := by
  obtain ⟨i_primary, i_unary, i_multiplication_loop, i_multiplication,
    i_addition_loop, i_addition, i_comparison_loop, i_comparison,
    i_equality_loop, i_equality, i_assignment, i_expression,
    i_var_declaration, i_declaration, i_block_loop, i_block,
    i_if_statement, i_for_statement, i_while_statement, i_expression_statement,
    i_statement⟩ := ih
  refine ia_of_eq toks extra _ _ (fun s => if_statement.eq_2 E s n) ?_
  repeat' with_reducible first
    | exact ia_pure toks extra _
    | exact ia_match toks extra h _
    | exact ia_consume toks extra h _ _
    | exact ia_previous toks extra
    | exact ia_error toks extra _
    | exact ia_panicking toks extra
    | exact ia_synchronize toks extra h
    | exact ia_is_at_end toks extra
    | exact ia_check toks extra _
    | exact ia_alloc_stmt toks extra _
    | exact ia_check_stmt_capacity toks extra _
    | exact ia_store_slot toks extra _ _ _
    | exact ia_get_literal_expr toks extra _ _
    | exact ia_get_variable_expr toks extra _
    | exact ia_get_binary_expr toks extra _ _ _
    | exact ia_get_unary_expr toks extra _ _
    | exact ia_get_grouping_expr toks extra _
    | exact ia_get_assign_expr toks extra _ _
    | exact ia_get_expression_statement toks extra _
    | exact ia_get_variable_statement toks extra _ _
    | exact ia_get_for_statement toks extra _ _ _ _
    | exact ia_get_while_statement toks extra _ _
    | exact ia_get_if_statement toks extra _ _ _
    | exact ia_fault toks extra _ (by decide)
    | assumption
    | exact i_multiplication_loop _
    | exact i_addition_loop _
    | exact i_comparison_loop _
    | exact i_equality_loop _
    | exact i_block_loop _ _
    | apply ia_orelse toks extra
    | apply ia_bind toks extra
    | apply ia_ite toks extra
    | intro _

theorem ia_for_statement_succ (toks extra : List token) (h : eof_terminated toks)
    (E : Env) (n : Nat) (ih : AllInArray toks extra E n) :
    InArray toks extra (for_statement E (n + 1)) := by
  obtain ⟨i_primary, i_unary, i_multiplication_loop, i_multiplication,
    i_addition_loop, i_addition, i_comparison_loop, i_comparison,
    i_equality_loop, i_equality, i_assignment, i_expression,
    i_var_declaration, i_declaration, i_block_loop, i_block,
    i_if_statement, i_for_statement, i_while_statement, i_expression_statement,
    i_statement⟩ := ih
  refine ia_of_eq toks extra _ _ (fun s => for_statement.eq_2 E s n) ?_
  repeat' with_reducible first
    | exact ia_pure toks extra _
    | exact ia_match toks extra h _
    | exact ia_consume toks extra h _ _
    | exact ia_previous toks extra
    | exact ia_error toks extra _
    | exact ia_panicking toks extra
    | exact ia_synchronize toks extra h
    | exact ia_is_at_end toks extra
    | exact ia_check toks extra _
    | exact ia_alloc_stmt toks extra _
    | exact ia_check_stmt_capacity toks extra _
    | exact ia_store_slot toks extra _ _ _
    | exact ia_get_literal_expr toks extra _ _
    | exact ia_get_variable_expr toks extra _
    | exact ia_get_binary_expr toks extra _ _ _
    | exact ia_get_unary_expr toks extra _ _
    | exact ia_get_grouping_expr toks extra _
    | exact ia_get_assign_expr toks extra _ _
    | exact ia_get_expression_statement toks extra _
    | exact ia_get_variable_statement toks extra _ _
    | exact ia_get_for_statement toks extra _ _ _ _
    | exact ia_get_while_statement toks extra _ _
    | exact ia_get_if_statement toks extra _ _ _
    | exact ia_fault toks extra _ (by decide)
    | assumption
    | exact i_multiplication_loop _
    | exact i_addition_loop _
    | exact i_comparison_loop _
    | exact i_equality_loop _
    | exact i_block_loop _ _
    | apply ia_orelse toks extra
    | apply ia_bind toks extra
    | apply ia_ite toks extra
    | intro _

theorem ia_while_statement_succ (toks extra : List token) (h : eof_terminated toks)
    (E : Env) (n : Nat) (ih : AllInArray toks extra E n) :
    InArray toks extra (while_statement E (n + 1)) := by
  obtain ⟨i_primary, i_unary, i_multiplication_loop, i_multiplication,
    i_addition_loop, i_addition, i_comparison_loop, i_comparison,
    i_equality_loop, i_equality, i_assignment, i_expression,
    i_var_declaration, i_declaration, i_block_loop, i_block,
    i_if_statement, i_for_statement, i_while_statement, i_expression_statement,
    i_statement⟩ := ih
  refine ia_of_eq toks extra _ _ (fun s => while_statement.eq_2 E s n) ?_
  repeat' with_reducible first
    | exact ia_pure toks extra _
    | exact ia_match toks extra h _
    | exact ia_consume toks extra h _ _
    | exact ia_previous toks extra
    | exact ia_error toks extra _
    | exact ia_panicking toks extra
    | exact ia_synchronize toks extra h
    | exact ia_is_at_end toks extra
    | exact ia_check toks extra _
    | exact ia_alloc_stmt toks extra _
    | exact ia_check_stmt_capacity toks extra _
    | exact ia_store_slot toks extra _ _ _
    | exact ia_get_literal_expr toks extra _ _
    | exact ia_get_variable_expr toks extra _
    | exact ia_get_binary_expr toks extra _ _ _
    | exact ia_get_unary_expr toks extra _ _
    | exact ia_get_grouping_expr toks extra _
    | exact ia_get_assign_expr toks extra _ _
    | exact ia_get_expression_statement toks extra _
    | exact ia_get_variable_statement toks extra _ _
    | exact ia_get_for_statement toks extra _ _ _ _
    | exact ia_get_while_statement toks extra _ _
    | exact ia_get_if_statement toks extra _ _ _
    | exact ia_fault toks extra _ (by decide)
    | assumption
    | exact i_multiplication_loop _
    | exact i_addition_loop _
    | exact i_comparison_loop _
    | exact i_equality_loop _
    | exact i_block_loop _ _
    | apply ia_orelse toks extra
    | apply ia_bind toks extra
    | apply ia_ite toks extra
    | intro _

theorem ia_expression_statement_succ (toks extra : List token) (h : eof_terminated toks)
    (E : Env) (n : Nat) (ih : AllInArray toks extra E n) :
    InArray toks extra (expression_statement E (n + 1)) := by
  obtain ⟨i_primary, i_unary, i_multiplication_loop, i_multiplication,
    i_addition_loop, i_addition, i_comparison_loop, i_comparison,
    i_equality_loop, i_equality, i_assignment, i_expression,
    i_var_declaration, i_declaration, i_block_loop, i_block,
    i_if_statement, i_for_statement, i_while_statement, i_expression_statement,
    i_statement⟩ := ih
  refine ia_of_eq toks extra _ _ (fun s => expression_statement.eq_2 E s n) ?_
  repeat' with_reducible first
    | exact ia_pure toks extra _
    | exact ia_match toks extra h _
    | exact ia_consume toks extra h _ _
    | exact ia_previous toks extra
    | exact ia_error toks extra _
    | exact ia_panicking toks extra
    | exact ia_synchronize toks extra h
    | exact ia_is_at_end toks extra
    | exact ia_check toks extra _
    | exact ia_alloc_stmt toks extra _
    | exact ia_check_stmt_capacity toks extra _
    | exact ia_store_slot toks extra _ _ _
    | exact ia_get_literal_expr toks extra _ _
    | exact ia_get_variable_expr toks extra _
    | exact ia_get_binary_expr toks extra _ _ _
    | exact ia_get_unary_expr toks extra _ _
    | exact ia_get_grouping_expr toks extra _
    | exact ia_get_assign_expr toks extra _ _
    | exact ia_get_expression_statement toks extra _
    | exact ia_get_variable_statement toks extra _ _
    | exact ia_get_for_statement toks extra _ _ _ _
    | exact ia_get_while_statement toks extra _ _
    | exact ia_get_if_statement toks extra _ _ _
    | exact ia_fault toks extra _ (by decide)
    | assumption
    | exact i_multiplication_loop _
    | exact i_addition_loop _
    | exact i_comparison_loop _
    | exact i_equality_loop _
    | exact i_block_loop _ _
    | apply ia_orelse toks extra
    | apply ia_bind toks extra
    | apply ia_ite toks extra
    | intro _

theorem ia_statement_succ (toks extra : List token) (h : eof_terminated toks)
    (E : Env) (n : Nat) (ih : AllInArray toks extra E n) :
    InArray toks extra (statement E (n + 1)) := by
  obtain ⟨i_primary, i_unary, i_multiplication_loop, i_multiplication,
    i_addition_loop, i_addition, i_comparison_loop, i_comparison,
    i_equality_loop, i_equality, i_assignment, i_expression,
    i_var_declaration, i_declaration, i_block_loop, i_block,
    i_if_statement, i_for_statement, i_while_statement, i_expression_statement,
    i_statement⟩ := ih
  refine ia_of_eq toks extra _ _ (fun s => statement.eq_2 E s n) ?_
  repeat' with_reducible first
    | exact ia_pure toks extra _
    | exact ia_match toks extra h _
    | exact ia_consume toks extra h _ _
    | exact ia_previous toks extra
    | exact ia_error toks extra _
    | exact ia_panicking toks extra
    | exact ia_synchronize toks extra h
    | exact ia_is_at_end toks extra
    | exact ia_check toks extra _
    | exact ia_alloc_stmt toks extra _
    | exact ia_check_stmt_capacity toks extra _
    | exact ia_store_slot toks extra _ _ _
    | exact ia_get_literal_expr toks extra _ _
    | exact ia_get_variable_expr toks extra _
    | exact ia_get_binary_expr toks extra _ _ _
    | exact ia_get_unary_expr toks extra _ _
    | exact ia_get_grouping_expr toks extra _
    | exact ia_get_assign_expr toks extra _ _
    | exact ia_get_expression_statement toks extra _
    | exact ia_get_variable_statement toks extra _ _
    | exact ia_get_for_statement toks extra _ _ _ _
    | exact ia_get_while_statement toks extra _ _
    | exact ia_get_if_statement toks extra _ _ _
    | exact ia_fault toks extra _ (by decide)
    | assumption
    | exact i_multiplication_loop _
    | exact i_addition_loop _
    | exact i_comparison_loop _
    | exact i_equality_loop _
    | exact i_block_loop _ _
    | apply ia_orelse toks extra
    | apply ia_bind toks extra
    | apply ia_ite toks extra
    | intro _

theorem all_in_array_succ (toks extra : List token) (h : eof_terminated toks) (E : Env)
    (n : Nat) (ih : AllInArray toks extra E n) : AllInArray toks extra E (n + 1) :=
  ⟨ia_primary_succ toks extra h E n ih,
    ia_unary_succ toks extra h E n ih,
    fun e => ia_multiplication_loop_succ toks extra h E n ih e,
    ia_multiplication_succ toks extra E n ih,
    fun e => ia_addition_loop_succ toks extra h E n ih e,
    ia_addition_succ toks extra E n ih,
    fun e => ia_comparison_loop_succ toks extra h E n ih e,
    ia_comparison_succ toks extra E n ih,
    fun e => ia_equality_loop_succ toks extra h E n ih e,
    ia_equality_succ toks extra E n ih,
    ia_assignment_succ toks extra h E n ih,
    ia_expression_succ toks extra E n ih,
    ia_var_declaration_succ toks extra h E n ih,
    ia_declaration_succ toks extra h E n ih,
    fun b i => ia_block_loop_succ toks extra E n ih b i,
    ia_block_succ toks extra h E n ih,
    ia_if_statement_succ toks extra h E n ih,
    ia_for_statement_succ toks extra h E n ih,
    ia_while_statement_succ toks extra h E n ih,
    ia_expression_statement_succ toks extra h E n ih,
    ia_statement_succ toks extra h E n ih⟩

/-- Every grammar function, at every budget, stays inside a token array that
ends with its only end-of-input token. -/
theorem all_in_array (toks extra : List token) (h : eof_terminated toks) (E : Env) :
    ∀ n, AllInArray toks extra E n := by
  intro n
  induction n with
  | zero => exact all_in_array_zero toks extra E
  | succ n ih => exact all_in_array_succ toks extra h E n ih

/-! ## The loop of `parse` stays inside the token array -/

theorem ia_grow_statements (toks extra : List token) (E : Env) :
    InArray toks extra (grow_statements E) :=
  ia_of_eq toks extra _ (fun s => .ok () (grown E s)) (grow_statements_eq E)
    (ia_quiet toks extra (fun _ => ()) (grown E) (fun _ => rfl) (fun _ => rfl)
      (fun _ => rfl) (fun _ => rfl))

theorem ia_store_statement (toks extra : List token) (i : Nat) (d : Ptr stmt) :
    InArray toks extra (store_statement i d) := by
  intro s hs
  have hst : (s.pad extra).statements = s.statements := rfl
  unfold store_statement
  rw [hst]
  cases s.statements with
  | null => exact ⟨rfl, fun a s1 h => absurd h (by simp), fun h => absurd h (by simp)⟩
  | wild => exact ⟨rfl, fun a s1 h => absurd h (by simp), fun h => absurd h (by simp)⟩
  | ref l =>
    simp only
    by_cases hc : i < l.length
    · simp only [if_pos hc, Res.over_ok]
      refine ⟨rfl, fun a s1 h => ?_, fun h => absurd h (by simp)⟩
      simp only [Res.ok.injEq] at h
      rw [← h.2]
      exact ⟨hs, le_refl _⟩
    · simp only [if_neg hc, Res.over_ok]
      refine ⟨rfl, fun a s1 h => ?_, fun h => absurd h (by simp)⟩
      simp only [Res.ok.injEq] at h
      rw [← h.2]
      exact ⟨hs, le_refl _⟩

theorem ia_parse_loop (toks extra : List token) (h : eof_terminated toks) (E : Env) :
    ∀ n i, InArray toks extra (parse_loop E n i) := by
  intro n
  induction n with
  | zero => intro i; exact ia_timeout toks extra
  | succ n ih =>
    intro i
    refine ia_of_eq toks extra _ _ (fun s => parse_loop.eq_2 E i s n) ?_
    have hd : InArray toks extra (declaration E n) :=
      (all_in_array toks extra h E n).2.2.2.2.2.2.2.2.2.2.2.2.2.1
    apply ia_bind toks extra _ _ (ia_is_at_end toks extra)
    intro r
    apply ia_ite
    · apply ia_bind toks extra _ _ (ia_grow_statements toks extra E)
      intro _
      apply ia_bind toks extra _ _ hd
      intro d
      apply ia_bind toks extra _ _ (ia_store_statement toks extra i d)
      intro _
      apply ia_bind toks extra _ _
        (ia_quiet toks extra (fun _ => ()) (fun s => { s with num_statements := s.num_statements + 1 })
          (fun _ => rfl) (fun _ => rfl) (fun _ => rfl) (fun _ => rfl))
      intro _
      apply ia_bind toks extra
      · apply ia_bind toks extra _ _ (ia_panicking toks extra)
        intro p
        exact ia_ite toks extra _ _ _ (ia_synchronize toks extra h) (ia_pure toks extra _)
      · intro _
        exact ih i
    · exact ia_pure toks extra _

/-- The part of `parse` after the token array is in place. -/
theorem ia_parse_body (toks extra : List token) (h : eof_terminated toks) (E : Env)
    (fuel : Nat) :
    InArray toks extra ((do
      (fun s => .ok () { s with capacity := E.GROW_CAPACITY s.capacity,
                                statements := grow_array s.statements })
      parse_loop E fuel 0
      let _ ← is_at_end
      (fun s => .ok s.haderror s)) : M Bool) := by
  apply ia_bind toks extra _ _
    (ia_quiet toks extra (fun _ => ())
      (fun s => { s with capacity := E.GROW_CAPACITY s.capacity,
                         statements := grow_array s.statements })
      (fun _ => rfl) (fun _ => rfl) (fun _ => rfl) (fun _ => rfl))
  intro _
  apply ia_bind toks extra _ _ (ia_parse_loop toks extra h E fuel 0)
  intro _
  apply ia_bind toks extra _ _ (ia_is_at_end toks extra)
  intro _
  exact ia_quiet toks extra (fun s => s.haderror) (fun s => s) (fun _ => rfl) (fun _ => rfl)
    (fun _ => rfl) (fun _ => rfl)

theorem parse_in_array (toks extra : List token) (h : eof_terminated toks) (E : Env)
    (fuel : Nat) (s : parser) (hc : s.current < toks.length) :
    parse E fuel (toks ++ extra) s = (parse E fuel toks s).over (parser.pad extra)
      ∧ (∀ (b : Bool) (s1 : parser), parse E fuel toks s = .ok b s1 →
          s1.tokens = toks ∧ s1.current < toks.length ∧ s.current ≤ s1.current)
      ∧ (parse E fuel toks s = .fault .token_index → s.current = 0) := by
  have hs : cursor_ok toks { s with tokens := toks } := ⟨rfl, hc⟩
  obtain ⟨e1, o1, f1⟩ := ia_parse_body toks extra h E fuel _ hs
  have hp : ∀ l : List token, parse E fuel l s = ((do
      (fun s => .ok () { s with capacity := E.GROW_CAPACITY s.capacity,
                                statements := grow_array s.statements })
      parse_loop E fuel 0
      let _ ← is_at_end
      (fun s => .ok s.haderror s)) : M Bool) { s with tokens := l } := by
    intro l
    unfold parse
    simp only [bind_apply, Res.bind_ok]
  rw [hp toks, hp (toks ++ extra)]
  refine ⟨e1, fun b s1 h1 => ?_, f1⟩
  obtain ⟨⟨h2, h3⟩, h4⟩ := o1 b s1 h1
  exact ⟨h2, h3, h4⟩

/-! ## Deallocation after `parse` -/

set_option maxHeartbeats 4000000 in
set_option maxRecDepth 10000 in
theorem eval_two (E : Env) (s0 : parser) (n : Nat) :
    ∃ s1 : parser,
      parse E (n + 24) two_tokens (parser_init s0) = .ok false s1
        ∧ s1.num_statements = 2
        ∧ s1.statements = .ref [.ref (ExprStmt (.ref (Literal .EXPR_LITERAL_NUMBER "2")))]
        ∧ s1.stderr = s0.stderr ∧ s1.errcalls = s0.errcalls := by
  rw [parse_eq]
  simp [two_tokens, parse_loop.eq_2, declaration.eq_2, statement.eq_2,
    expression_statement.eq_2, expression.eq_2, assignment.eq_2,
    equality.eq_2, equality_loop.eq_2,
    comparison.eq_2, comparison_loop.eq_2, addition.eq_2, addition_loop.eq_2,
    multiplication.eq_2, multiplication_loop.eq_2, unary.eq_2, primary.eq_2, match_eq,
    consume_eq, check_eq, error_eq, orelse_eq, is_at_end_eq, error_state, synchronize,
    synchronize_loop, tok, get_literal_expr_eq, get_expression_statement_eq,
    store_statement, grow_statements_eq, panicking,
    previous, take_string, peek, advance_eq]

theorem delete_two (tag0 : Option stmttype) :
    delete_list tag0 2 [.ref (ExprStmt (.ref (Literal .EXPR_LITERAL_NUMBER "2")))]
      = .error .bad_pointer := rfl

theorem delete_if (tag0 : Option stmttype) :
    delete_list tag0 1 [.ref (IfStmt (.ref (Variable (tok TOKEN_IDENTIFIER "a")))
      (.ref (ExprStmt (.ref (Variable (tok TOKEN_IDENTIFIER "b"))))) .wild)]
      = .error .bad_pointer := rfl

/-- C11 (panic latch). Called while the latch is on, `error_at` changes no
field of the parser struct and writes no diagnostic; called while the latch is
off it writes exactly one diagnostic, for the line of the token, sets the latch
and the error flag, and changes no other field. In both cases only the
bookkeeping count of its calls moves. -/
theorem C11_panic_latch (s : parser) (t : token) (msg : String) :
    (s.panicmode = true →
        error_at t msg s = .ok () { s with errcalls := s.errcalls + 1 })
      ∧ (s.panicmode = false →
        ∃ d : diagnostic, d.line = t.line ∧
          error_at t msg s = .ok () { s with errcalls := s.errcalls + 1, panicmode := true,
                                             haderror := true, stderr := s.stderr ++ [d] }) :=
  ⟨error_at_on s t msg, error_at_off s t msg⟩

/-- C12 (synchronization), as the code behaves: `synchronize` leaves the cursor
on the `;` at which it stops, it does not consume it. After the error in
`1 = 2;` it moves the cursor from the `2` to the `;`, index 3, and stops. In
general it clears the latch and moves the cursor forward to the first token
that is end-of-input, `;` or one of class/fun/var/if/while/return, and leaves
it on that token, whichever of these it is; over an array that ends with its
end-of-input token it always returns so. -/
theorem C12_synchronize_stops_on_semicolon :
    (∀ s : parser, s.tokens = invalid_target_tokens → s.current = 2 →
        synchronize s = .ok () { s with panicmode := false, current := 3 })
      ∧ invalid_target_tokens[3]? = some (tok TOKEN_SEMICOLON ";")
      ∧ (∀ (k : Nat) (s : parser) (t : token),
          (∀ j, j < k → ∃ u, s.tokens[s.current + j]? = some u ∧ u.type ∉ sync_stops) →
          s.tokens[s.current + k]? = some t → t.type ∈ sync_stops →
          synchronize s = .ok () { s with panicmode := false, current := s.current + k })
      ∧ ∀ s : parser, eof_terminated s.tokens → s.current < s.tokens.length →
          ∃ (k : Nat) (t : token), s.tokens[s.current + k]? = some t ∧ t.type ∈ sync_stops
            ∧ (∀ j, j < k → ∃ u, s.tokens[s.current + j]? = some u ∧ u.type ∉ sync_stops)
            ∧ synchronize s
                = .ok () { s with panicmode := false, current := s.current + k } :=
  ⟨synchronize_at_semicolon, rfl, synchronize_first_stop, synchronize_returns⟩

/-- C13 (reset), as the code behaves: on the parser struct that `parse` leaves
after `1; 2;` the call of `reset_parser` does not reach `init_parser`. The pass
counts two statements and has written one slot (the index of the loop of
`parse` never moves), and `reset_parser` reads the second slot, which was never
written. After `if (a) b;` it follows the else-branch that `if_statement` left
indeterminate. Where the statement array is absent, or holds `num_statements`
trees of valid nodes, `reset_parser` returns and leaves the state `init_parser`
produces (statement count, capacity, cursor and token count 0, no statement
array, latch and error flag false); and whenever it returns, that is the
state it leaves. -/
theorem C13_reset_after_parse (E : Env) (tag0 : Option stmttype) (s0 : parser) (n : Nat) :
    (∃ s1 : parser,
      parse E (n + 24) two_tokens (parser_init s0) = .ok false s1
        ∧ s1.num_statements = 2
        ∧ s1.statements = .ref [.ref (ExprStmt (.ref (Literal .EXPR_LITERAL_NUMBER "2")))]
        ∧ parser_reset tag0 s1 = .fault .bad_pointer)
      ∧ (∃ s1 : parser,
          parse E (n + 24) if_tokens (parser_init s0) = .ok false s1
            ∧ s1.num_statements = 1
            ∧ s1.statements = .ref [.ref (IfStmt (.ref (Variable (tok TOKEN_IDENTIFIER "a")))
                (.ref (ExprStmt (.ref (Variable (tok TOKEN_IDENTIFIER "b"))))) .wild)]
            ∧ parser_reset tag0 s1 = .fault .bad_pointer)
      ∧ (∀ s : parser, s.owns_trees tag0 = true →
          ∃ k, parser_reset tag0 s = .ok k (parser_init s))
      ∧ (∀ s : parser, (parser_init s).num_statements = 0 ∧ (parser_init s).capacity = 0
          ∧ (parser_init s).current = 0 ∧ (parser_init s).num_tokens = 0
          ∧ (parser_init s).statements = .null ∧ (parser_init s).panicmode = false
          ∧ (parser_init s).haderror = false)
      ∧ ∀ (s : parser) (k : Nat) (s1 : parser),
          parser_reset tag0 s = .ok k s1 → s1 = parser_init s := by
  obtain ⟨s1, h1, h2, h3, _⟩ := eval_two E s0 n
  obtain ⟨s2, k1, k2, k3, _⟩ := eval_if E s0 n
  exact ⟨⟨s1, h1, h2, h3,
      parser_reset_fault tag0 s1 _ 2 _ h3 (by rw [h2]; rfl) (delete_two tag0)⟩,
    ⟨s2, k1, k2, k3,
      parser_reset_fault tag0 s2 _ 1 _ k3 (by rw [k2]; rfl) (delete_if tag0)⟩,
    parser_reset_returns tag0,
    fun _ => ⟨rfl, rfl, rfl, rfl, rfl, rfl, rfl⟩,
    parser_reset_result tag0⟩

/-- C14 (no leak), as the code behaves: on `a = 1;` a fresh parser allocates
four nodes (the variable `a`, the literal, the assignment, the statement) and
`reset_parser` frees three: `assignment` takes the name out of the variable
node and drops the node. On `var x = 1;` it allocates four nodes and
`reset_parser` frees three: `var_declaration` drops its placeholder. On
`var ; var x = 1;` the pass counts two statements and has written one slot
(the first declaration is overwritten and lost), and `reset_parser` reads the
slot that was never written. -/
theorem C14_nodes_leaked (E : Env) (tag0 : Option stmttype) (s0 : parser) (n : Nat) :
    (∃ s1 : parser,
      parse E (n + 24) assign_tokens (parser_init s0) = .ok false s1
        ∧ s1.allocs = s0.allocs + 4
        ∧ s1.statements = .ref [.ref (ExprStmt (.ref (Assign (.ref (tok TOKEN_IDENTIFIER "a"))
            (.ref (Literal .EXPR_LITERAL_NUMBER "1")))))]
        ∧ parser_reset tag0 s1 = .ok 3 (parser_init s1))
      ∧ (∃ s1 : parser,
          parse E (n + 24) var_init_tokens (parser_init s0) = .ok false s1
            ∧ s1.allocs = s0.allocs + 4
            ∧ s1.statements = .ref [.ref (VarStmt (.ref (tok TOKEN_IDENTIFIER "x"))
                (.ref (ExprStmt (.ref (Literal .EXPR_LITERAL_NUMBER "1")))))]
            ∧ parser_reset tag0 s1 = .ok 3 (parser_init s1))
      ∧ ∃ s1 : parser,
          parse E (n + 14) recovery_tokens (parser_init s0) = .ok true s1
            ∧ s1.num_statements = 2
            ∧ s1.statements = .ref [.ref (VarStmt (.ref (tok TOKEN_IDENTIFIER "x"))
                (.ref (ExprStmt (.ref (Literal .EXPR_LITERAL_NUMBER "1")))))]
            ∧ parser_reset tag0 s1 = .fault .bad_pointer := by
  obtain ⟨s1, h1, h2, h3, h4⟩ := eval_assign E s0 n
  obtain ⟨s2, k1, k2, k3, k4⟩ := eval_var_init E s0 n
  obtain ⟨s3, j1, _, j3, j4⟩ := eval_recovery E s0 n
  exact ⟨⟨s1, h1, h2, h4, parser_reset_eq tag0 s1 _ 1 3 h4 (by rw [h3]; rfl) (delete_assign tag0)⟩,
    ⟨s2, k1, k2, k4, parser_reset_eq tag0 s2 _ 1 3 k4 (by rw [k3]; rfl) (delete_var_init tag0)⟩,
    ⟨s3, j1, j3, j4,
      parser_reset_fault tag0 s3 _ 2 _ j4 (by rw [j3]; rfl) (delete_recovery tag0)⟩⟩

/-- C15 (absent expressions), as the code behaves: on `(= 1);` the parser reads
the tag of an absent expression. `primary` fails at the `=` and yields no
expression, and `assignment` then matches the `=` and reads `new_expr->type`
through the null pointer. In general `assignment` does so whenever `equality`
yields no expression and leaves the cursor on an `=`. -/
theorem C15_assignment_reads_absent (E : Env) (s0 : parser) (n : Nat) :
    parse E (n + 24) absent_target_tokens (parser_init s0) = .fault .null_deref
      ∧ ∀ (m : Nat) (s s1 : parser) (t : token), equality E m s = .ok .null s1 →
          s1.tokens[s1.current]? = some t → t.type = TOKEN_EQUAL →
          assignment E (m + 1) s = .fault .null_deref :=
  ⟨eval_absent_target E s0 n, fun m s s1 t h h1 ht => assignment_absent_target E m s s1 t h h1 ht⟩

/-- C16 (else-branch), as the code behaves: on `if (a) b;` the else-branch of
the `If` node is not null but the indeterminate value of the local
`else_branch`, which has no initialiser; on `if (a) b; else c;` it is the parse
of `c;`. In general, after the condition and the then-branch, `if_statement`
yields the indeterminate else-branch when the next token is not `else`, and
the statement parsed after the `else` when it is. -/
theorem C16_else_branch_indeterminate (E : Env) (s0 : parser) (n : Nat) :
    (∃ s1 : parser,
      parse E (n + 24) if_tokens (parser_init s0) = .ok false s1
        ∧ s1.num_statements = 1
        ∧ s1.statements = .ref [.ref (IfStmt (.ref (Variable (tok TOKEN_IDENTIFIER "a")))
            (.ref (ExprStmt (.ref (Variable (tok TOKEN_IDENTIFIER "b"))))) .wild)]
        ∧ s1.stderr = s0.stderr ∧ s1.errcalls = s0.errcalls)
      ∧ (∃ s1 : parser,
          parse E (n + 24) if_else_tokens (parser_init s0) = .ok false s1
            ∧ s1.num_statements = 1
            ∧ s1.statements = .ref [.ref (IfStmt (.ref (Variable (tok TOKEN_IDENTIFIER "a")))
                (.ref (ExprStmt (.ref (Variable (tok TOKEN_IDENTIFIER "b")))))
                (.ref (ExprStmt (.ref (Variable (tok TOKEN_IDENTIFIER "c"))))))]
            ∧ s1.stderr = s0.stderr ∧ s1.errcalls = s0.errcalls)
      ∧ (∀ (m : Nat) (s s1 : parser) (c : Ptr expr) (b : Ptr stmt) (t : token),
          if_head E m s = .ok (c, b) s1 → s1.tokens[s1.current]? = some t →
          t.type ≠ TOKEN_ELSE →
          if_statement E (m + 1) s
            = .ok (.ref (IfStmt c b .wild)) { s1 with allocs := s1.allocs + 1 })
      ∧ ∀ (m : Nat) (s s1 s2 : parser) (c : Ptr expr) (b e : Ptr stmt) (t : token),
          if_head E m s = .ok (c, b) s1 → s1.tokens[s1.current]? = some t →
          t.type = TOKEN_ELSE →
          statement E m { s1 with current := s1.current + 1 } = .ok e s2 →
          if_statement E (m + 1) s
            = .ok (.ref (IfStmt c b e)) { s2 with allocs := s2.allocs + 1 } :=
  ⟨eval_if E s0 n, eval_if_else E s0 n,
    fun m s s1 c b t h h1 ht => if_statement_no_else E m s s1 c b t h h1 ht,
    fun m s s1 s2 c b e t h h1 ht h2 => if_statement_else E m s s1 s2 c b e t h h1 ht h2⟩

/-- C17 (default-initialised nodes), as the code behaves: the placeholder that
`var_declaration` allocates is not initialised. On `var x;` the initializer of
the `Var` node is that placeholder, holding whatever the storage held (a count
of 7 where the storage held 7); the node of a block is not initialised either
(on `{}` it is the storage with only the tag assigned). The `get_*`
constructors do go through `init_expr` and `init_stmt`: each yields its variant
with every other field null or zero. -/
theorem C17_raw_nodes (E : Env) (s0 : parser) (n : Nat) :
    (∃ s1 : parser,
      parse E (n + 24) var_tokens (parser_init s0) = .ok false s1
        ∧ s1.statements = .ref [.ref (VarStmt (.ref (tok TOKEN_IDENTIFIER "x"))
            (.ref (E.raw_stmt s0.allocs)))])
      ∧ (∃ (s1 : parser) (init : stmt),
          parse Env.seven (n + 24) var_tokens (parser_init s0) = .ok false s1
            ∧ s1.statements = .ref [.ref (VarStmt (.ref (tok TOKEN_IDENTIFIER "x")) (.ref init))]
            ∧ init.count = 7)
      ∧ (∃ s1 : parser,
          parse E (n + 6) empty_block_tokens (parser_init s0) = .ok false s1
            ∧ s1.statements
                = .ref [.ref { (E.raw_stmt s0.allocs) with type := some .STMT_BLOCK }])
      ∧ ∀ (s : parser) (t : token) (v : String) (k : exprtype) (p : Ptr token)
          (a b : Ptr expr) (x y z w : Ptr stmt),
          get_literal_expr v k s = .ok (.ref (Literal k v)) { s with allocs := s.allocs + 1 }
            ∧ get_variable_expr t s
                = .ok (.ref (Variable t)) { s with allocs := s.allocs + 1 }
            ∧ get_binary_expr t a b s
                = .ok (.ref (Binary t a b)) { s with allocs := s.allocs + 1 }
            ∧ get_unary_expr t a s = .ok (.ref (Unary t a)) { s with allocs := s.allocs + 1 }
            ∧ get_grouping_expr a s
                = .ok (.ref (Grouping a)) { s with allocs := s.allocs + 1 }
            ∧ get_assign_expr p a s
                = .ok (.ref (Assign p a)) { s with allocs := s.allocs + 1 }
            ∧ get_expression_statement a s
                = .ok (.ref (ExprStmt a)) { s with allocs := s.allocs + 1 }
            ∧ get_variable_statement p x s
                = .ok (.ref (VarStmt p x)) { s with allocs := s.allocs + 1 }
            ∧ get_for_statement x y z w s
                = .ok (.ref (ForStmt x y z w)) { s with allocs := s.allocs + 1 }
            ∧ get_while_statement a x s
                = .ok (.ref (WhileStmt a x)) { s with allocs := s.allocs + 1 }
            ∧ get_if_statement a x y s
                = .ok (.ref (IfStmt a x y)) { s with allocs := s.allocs + 1 } := by
  obtain ⟨s1, h1, _, h3, _⟩ := eval_var E s0 n
  obtain ⟨s2, k1, _, k3, _⟩ := eval_var Env.seven s0 n
  obtain ⟨s3, j1, _, j3, _⟩ := eval_empty_block E s0 n
  exact ⟨⟨s1, h1, h3⟩, ⟨s2, _, k1, k3, rfl⟩, ⟨s3, j1, j3⟩,
    fun _ _ _ _ _ _ _ _ _ _ _ => ⟨rfl, rfl, rfl, rfl, rfl, rfl, rfl, rfl, rfl, rfl, rfl⟩⟩

/-- C18 (block storage), as the code behaves: from count 0 and capacity 0 the
storage of a block never grows. `check_stmt_capacity` compares the count with
`capacity - 1`, which is -1, and leaves a capacity of 0 as it is (and doubling
0 would give 0); on `{ 1; }`, with storage that holds zeros, the append then
writes through the null `stmts`. -/
theorem C18_block_storage_never_grows (s0 : parser) (n : Nat) :
    parse Env.zeroed (n + 24) block_one_tokens (parser_init s0) = .fault .null_deref
      ∧ ∀ (b : stmt) (s : parser), b.capacity = 0 → 0 ≤ b.count →
          check_stmt_capacity b s = .ok b s :=
  ⟨eval_block_one s0 n, fun b s h hc => check_stmt_capacity_zero b s h hc⟩

/-- C19 (previous token), as the code behaves: on `;` the parser reads
`tokens[-1]`. No alternative of `primary` matches the first token, and `error`
reports at the token before the cursor while the cursor is still 0; in general
`primary` does so at cursor 0 on every token that starts no expression. After
a successful `match` the cursor is at least 1 and `previous` reads inside the
array. -/
theorem C19_previous_before_first_token (E : Env) (s0 : parser) (n : Nat) :
    parse E (n + 24) semicolon_tokens (parser_init s0) = .fault .token_index
      ∧ (∀ (m : Nat) (s : parser) (t : token), s.current = 0 →
          s.tokens[s.current]? = some t → t.type ∉ primary_start →
          primary E (m + 1) s = .fault .token_index)
      ∧ ∀ (ty : tokentype) (s s1 : parser), match_ ty s = .ok true s1 →
          1 ≤ s1.current ∧ ∃ t, previous s1 = .ok t s1 :=
  ⟨eval_semicolon E s0 n, fun m s t hc h ht => primary_at_start E m s t hc h ht,
    previous_after_match⟩

/-- C20 (cursor invariant). Over a token array `toks` that ends with its only
end-of-input token, every run that starts with the cursor inside the array
stays inside it, whether the run returns, stops in undefined behaviour or
never ends: this holds for every grammar function at every budget, for the
loop of `parse`, for `synchronize` and for the cursor functions `peek` to
`match`, and for `parse` itself. Such a run comes out the same when further
tokens are stored after the array, so it never reads at or past the end of
the array; when it returns, the cursor is inside the array and not before
where it was; a read outside the array can only end a run that started with
the cursor at 0 (the read of `previous` before the first token). With the
cursor inside the array `peek` reads a token of the array, and on the
end-of-input token `check` and `match` answer false, `consume` fails and
`advance` does not move the cursor. -/
theorem C20_cursor_invariant (toks : List token) (h : eof_terminated toks)
    (extra : List token) :
    (∀ E n, AllInArray toks extra E n)
      ∧ (∀ E n i, InArray toks extra (parse_loop E n i))
      ∧ InArray toks extra synchronize
      ∧ InArray toks extra peek ∧ InArray toks extra is_at_end
      ∧ (∀ ty, InArray toks extra (check ty)) ∧ InArray toks extra previous
      ∧ InArray toks extra advance
      ∧ (∀ ty msg, InArray toks extra (consume ty msg))
      ∧ (∀ ty, InArray toks extra (match_ ty))
      ∧ (∀ s, cursor_ok toks s → ∃ t, peek s = .ok t s)
      ∧ (∀ (s : parser) (t : token) (ty : tokentype) (msg : String),
          s.tokens[s.current]? = some t → t.type = TOKEN_EOF →
          check ty s = .ok false s ∧ match_ ty s = .ok false s
            ∧ consume ty msg s = .ok .null (error_state t s) ∧ advance s = previous s)
      ∧ ∀ (E : Env) (fuel : Nat) (s : parser), s.current < toks.length →
          parse E fuel (toks ++ extra) s = (parse E fuel toks s).over (parser.pad extra)
            ∧ (∀ (b : Bool) (s1 : parser), parse E fuel toks s = .ok b s1 →
                s1.tokens = toks ∧ s1.current < toks.length ∧ s.current ≤ s1.current)
            ∧ (parse E fuel toks s = .fault .token_index → s.current = 0) :=
  ⟨all_in_array toks extra h, ia_parse_loop toks extra h, ia_synchronize toks extra h,
    ia_peek toks extra, ia_is_at_end toks extra, ia_check toks extra, ia_previous toks extra,
    ia_advance toks extra h, ia_consume toks extra h, ia_match toks extra h,
    peek_inside toks, at_eof, parse_in_array toks extra h⟩

/-- Witness of C20: the tokens of `1;` end with their only end-of-input token;
the pass over them comes out the same with a further token stored after them,
and it leaves the cursor at index 2 of 3 tokens. -/
theorem C20_cursor_invariant_witness :
    eof_terminated one_tokens
      ∧ parse Env.zeroed 24 (one_tokens ++ [tok TOKEN_NUMBER "7"]) (parser_init parser.blank)
          = (parse Env.zeroed 24 one_tokens (parser_init parser.blank)).over
              (parser.pad [tok TOKEN_NUMBER "7"])
      ∧ parse Env.zeroed 24 one_tokens (parser_init parser.blank) = .ok false parsed_one
      ∧ parsed_one.tokens = one_tokens ∧ parsed_one.current < one_tokens.length :=
  have hw : eof_terminated one_tokens :=
    ⟨[tok TOKEN_NUMBER "1", tok TOKEN_SEMICOLON ";"], tok TOKEN_EOF "", rfl, rfl, by decide⟩
  have hp := (C20_cursor_invariant one_tokens hw [tok TOKEN_NUMBER "7"]).2.2.2.2.2.2.2.2.2.2.2.2
    Env.zeroed 24 (parser_init parser.blank) (by decide)
  ⟨hw, hp.1, eval_parsed_one 0, (hp.2.1 false parsed_one (eval_parsed_one 0)).1,
    (hp.2.1 false parsed_one (eval_parsed_one 0)).2.1⟩

end Ari
